import Mathlib

/-!
# deckforge-cli: decklist parsing, page counting and PDF page assembly

A shallow embedding of `internal/deck/parser.go`, `scryfall/card.go`,
`internal/progress/reporter.go`, `internal/pdf/generator.go` and the step count of
`cmd/deckforge/main.go`, followed by theorems about them.

Conventions of the embedding:

* Go `int` is `Int`; where the code does arithmetic on it, the result is wrapped to 64-bit
  two's complement by `wrapInt`.
* Go `error` is a message string (`Except String _`, or `Option String` for a bare `error`),
  built the way the `fmt.Errorf` calls build it.
* Go `float64` is `Float64`: the finite values as multiples of `2^(-1074)`, the infinities
  and NaN, with `+`, `*` and `<` rounding to nearest, ties to even.
* Standard-library and third-party calls whose result the code branches on (`strconv.Atoi`,
  the record reader of `encoding/csv`, the HTTP client, the file system, the PDF library) are
  either modelled on their documented behaviour or taken as parameters; each such place says
  so.
-/

set_option autoImplicit false

/- The magnitudes of `float64` values are natural numbers of up to `2^2098`. -/
set_option exponentiation.threshold 5000

namespace DeckForge

/-- Byte strings (`[]byte`). -/
abbrev Bytes := List Nat

deriving instance DecidableEq for Except

/-! ## The type `float64` -/

/-- A `float64` value: a finite number `(-1)^neg * mag * 2^(-1074)` (in units of the smallest
positive value of the type), an infinity, or NaN. The finite values of the type are those
with a magnitude below `2^2098` that has at most 53 significant binary digits; the two zeros
are told apart. Equality of these values is identity, not the operator `==` of Go. -/
inductive Float64
  | finite (neg : Bool) (mag : Nat)
  | inf (neg : Bool)
  | nan
  deriving DecidableEq, Repr

namespace Float64

/-- Rounds `n` to a multiple of `2^k`: to the nearest one, and to the even one of two that
are equally near. -/
def roundToEven (n k : Nat) : Nat :=
  let q := n / 2 ^ k
  let r := n % 2 ^ k
  if 2 * r < 2 ^ k then q * 2 ^ k
  else if 2 * r > 2 ^ k then (q + 1) * 2 ^ k
  else if q % 2 = 0 then q * 2 ^ k else (q + 1) * 2 ^ k

/-- Counts the binary digits of `n` by halving, `acc` being the count so far. -/
def bitLengthAux : Nat → Nat → Nat → Nat
  | 0, _, acc => acc
  | _ + 1, 0, acc => acc
  | fuel + 1, n + 1, 0 => bitLengthAux fuel ((n + 1) / 2) 1
  | fuel + 1, n + 1, acc + 1 => bitLengthAux fuel ((n + 1) / 2) (acc + 2)

/-- The number of binary digits of `n` (0 for 0). -/
def bitLength (n : Nat) : Nat := bitLengthAux n n 0

/-- The number of low binary digits that the magnitude `n * 2^(-s)` loses when it is stored:
those beyond the 53 digits of the significand, and those below `2^(-1074)`. -/
def dropBits (n s : Nat) : Nat := max (bitLength n - 53) (s - 1074)

/-- The `float64` nearest to the number of sign `neg` and magnitude `n * 2^(-s)`, for
`s ≥ 1074`: round to nearest, ties to even; a result of `2^1024` or more is an infinity. -/
def round (neg : Bool) (n s : Nat) : Float64 :=
  let mag := roundToEven n (dropBits n s) / 2 ^ (s - 1074)
  if mag ≥ 2 ^ 2098 then inf neg else finite neg mag

/-- The conversion of a natural number constant. -/
def ofNat (n : Nat) : Float64 := round false (n * 2 ^ 1074) 1074

instance (n : Nat) : OfNat Float64 n := ⟨ofNat n⟩

/-- The integer `(-1)^neg * mag`. -/
def signed (neg : Bool) (mag : Nat) : Int := if neg then -(mag : Int) else (mag : Int)

/-- The operator `+` on `float64`. -/
def add : Float64 → Float64 → Float64
  | nan, _ => nan
  | _, nan => nan
  | inf a, inf b => if a = b then inf a else nan
  | inf a, finite _ _ => inf a
  | finite _ _, inf b => inf b
  | finite a m, finite b n =>
    let z := signed a m + signed b n
    if z = 0 then finite (a && b) 0 else round (decide (z < 0)) z.natAbs 1074

/-- The operator `*` on `float64`. -/
def mul : Float64 → Float64 → Float64
  | nan, _ => nan
  | _, nan => nan
  | inf a, inf b => inf (a != b)
  | inf a, finite b n => if n = 0 then nan else inf (a != b)
  | finite a m, inf b => if m = 0 then nan else inf (a != b)
  | finite a m, finite b n => round (a != b) (m * n) 2148

instance : Add Float64 := ⟨add⟩

instance : Mul Float64 := ⟨mul⟩

/-- The operator `<` on `float64`. -/
def lt : Float64 → Float64 → Bool
  | nan, _ => false
  | _, nan => false
  | inf a, inf b => a && !b
  | inf a, finite _ _ => a
  | finite _ _, inf b => !b
  | finite a m, finite b n => decide (signed a m < signed b n)

instance : LT Float64 := ⟨fun a b => lt a b = true⟩

instance (a b : Float64) : Decidable (a < b) := inferInstanceAs (Decidable (lt a b = true))

end Float64

/-! ## Standard library: `strconv.Atoi` and the identifier pattern -/

namespace strconv

/-- The two sentinel errors of package strconv. -/
inductive NumErrKind
  | ErrSyntax
  | ErrRange
  deriving DecidableEq, Repr

/-- Go's `*strconv.NumError`. -/
structure NumError where
  Func : String
  Num : String
  Err : NumErrKind
  deriving DecidableEq, Repr

/-- ASCII decimal digit. -/
def isDigit (c : Char) : Bool := decide ('0' ≤ c) && decide (c ≤ '9')

/-- The digit loop of `ParseUint(s, 10, 64)`: left to right, a non-digit is a syntax error,
leaving the range of `uint64` is a range error, whichever comes first. -/
def parseUint : List Char → Nat → Except NumErrKind Nat
  | [], n => .ok n
  | c :: cs, n =>
    if !isDigit c then .error .ErrSyntax
    else if n ≥ 1844674407370955162 then .error .ErrRange
    else
      let n1 := n * 10 + (c.toNat - 48)
      if n1 > 18446744073709551615 then .error .ErrRange else parseUint cs n1

/-- Go's `strconv.Atoi` on a 64-bit platform: an optional sign, then one or more decimal
digits, value within `[-2^63, 2^63 - 1]`. -/
def Atoi (s : String) : Except NumError Int :=
  let fail (k : NumErrKind) : Except NumError Int := .error { Func := "Atoi", Num := s, Err := k }
  let body (neg : Bool) (ds : List Char) : Except NumError Int :=
    if ds.isEmpty then fail .ErrSyntax
    else match parseUint ds 0 with
      | .error k => fail k
      | .ok un =>
        if !neg && un ≥ 9223372036854775808 then fail .ErrRange
        else if neg && un > 9223372036854775808 then fail .ErrRange
        else .ok (if neg then -(un : Int) else (un : Int))
  match s.toList with
  | [] => fail .ErrSyntax
  | '+' :: ds => body false ds
  | '-' :: ds => body true ds
  | ds => body false ds

/-- The text of a sentinel error. -/
def NumErrKind.Error : NumErrKind → String
  | .ErrSyntax => "invalid syntax"
  | .ErrRange => "value out of range"

/-- The method `(*NumError).Error`; `Quote` is `strconv.Quote`, taken as a parameter. -/
def NumError.Error (Quote : String → String) (e : NumError) : String :=
  "strconv." ++ e.Func ++ ": parsing " ++ Quote e.Num ++ ": " ++ e.Err.Error

end strconv

/-! ## Standard library: the record reader of `encoding/csv` -/

namespace csv

/-- What a reader with the default settings (`csv.NewReader`) splits its input into: the
records up to the end of the input or to the first error, each with the number of the line it
starts on, and that error, if any (a quote out of place, or an error of the underlying reader),
as the text of the Go error. -/
structure Input where
  records : List (Nat × List String)
  err : Option String := none
  deriving DecidableEq, Repr

/-- The fields of the records of the input, in input order. -/
def Input.rows (input : Input) : List (List String) :=
  input.records.map Prod.snd

/-- The text of the `*csv.ParseError` for `ErrFieldCount` at a record that starts on the given
line. -/
def fieldCountError (line : Nat) : String :=
  "record on line " ++ toString line ++ ": wrong number of fields"

/-- The loop of `ReadAll` over the records, with the check of the number of fields that
`readRecord` makes: `FieldsPerRecord` is 0 in a new reader, the first record sets it to its
number of fields, and every later record must have as many. -/
def readRecords :
    List (Nat × List String) → Nat → List (List String) → Except String (List (List String))
  | [], _, records => .ok records
  | (line, record) :: rest, FieldsPerRecord, records =>
    if FieldsPerRecord > 0 then
      if record.length ≠ FieldsPerRecord then .error (fieldCountError line)
      else readRecords rest FieldsPerRecord (records ++ [record])
    else readRecords rest record.length (records ++ [record])

/-- The method `ReadAll`: all records, or the first error, be it a record with another number
of fields than the first or the error that ends the input. -/
def ReadAll (input : Input) : Except String (List (List String)) :=
  match readRecords input.records 0 [] with
  | .error err => .error err
  | .ok records =>
    match input.err with
    | some err => .error err
    | none => .ok records

end csv

/-! ## `scryfall/card.go`: data types -/

namespace scryfall

/-- The struct `ImageURIs`. -/
structure ImageURIs where
  Small : String := ""
  Normal : String := ""
  Large : String := ""
  PNG : String := ""
  ArtCrop : String := ""
  BorderCrop : String := ""
  deriving DecidableEq, Repr, Inhabited

/-- The struct `CardFace`, with the fields the program reads. -/
structure CardFace where
  Name : String := ""
  ImageURIs : ImageURIs := {}
  deriving DecidableEq, Repr, Inhabited

/-- The struct `Card`, with the fields the program reads (the remaining JSON fields are
decoded and never used). -/
structure Card where
  ID : String := ""
  Name : String := ""
  ImageURIs : ImageURIs := {}
  CardFaces : List CardFace := []
  deriving DecidableEq, Repr, Inhabited

end scryfall

/-! ## `internal/deck/parser.go` -/

namespace deck

/-- The struct `deck.CardEntry`. -/
structure CardEntry where
  Qty : Int
  ID : String
  Card : scryfall.Card := {}
  deriving DecidableEq, Repr

/-- The struct `deck.Decklist`. -/
structure Decklist where
  Cards : List CardEntry
  deriving DecidableEq, Repr

/-- The character class `[a-f0-9]`. -/
def isLowerHex (c : Char) : Bool :=
  (decide ('a' ≤ c) && decide (c ≤ 'f')) || (decide ('0' ≤ c) && decide (c ≤ '9'))

/-- Matches `[a-f0-9]{n}` at the head of the input and returns what follows it. -/
def takeHex : Nat → List Char → Option (List Char)
  | 0, cs => some cs
  | _ + 1, [] => none
  | n + 1, c :: cs => if isLowerHex c then takeHex n cs else none

/-- Matches hex groups of the given lengths, separated by single hyphens, up to the end of
the input. -/
def matchGroups : List Nat → List Char → Bool
  | [], _ => false
  | [n], cs => takeHex n cs == some []
  | n :: ns, cs =>
    match takeHex n cs with
    | some ('-' :: rest) => matchGroups ns rest
    | _ => false

/-- The compiled pattern
`^[a-f0-9]{8}-[a-f0-9]{4}-[a-f0-9]{4}-[a-f0-9]{4}-[a-f0-9]{12}$` applied with `MatchString`
(in Go's syntax `$` without the `m` flag matches at the end of the text only). -/
def scryfallIDRegex_MatchString (s : String) : Bool :=
  matchGroups [8, 4, 4, 4, 12] s.toList

/-- The loop of `ParseDecklistCSV` over the records from index `i` on, `cards` being
`decklist.Cards` so far. -/
def parseRecords (Quote : String → String) :
    List (List String) → Nat → List CardEntry → Except String Decklist
  | [], _, cards => .ok { Cards := cards }
  | record :: rest, i, cards =>
    if record.length < 3 then
      .error ("invalid CSV format at line " ++ toString (i + 1) ++ ": expected 3 fields, got "
        ++ toString record.length)
    else
      match strconv.Atoi (record.getD 0 "") with
      | .error err =>
        .error ("invalid quantity '" ++ record.getD 0 "" ++ "' at line " ++ toString (i + 1)
          ++ ": " ++ err.Error Quote)
      | .ok qty =>
        if qty ≤ 0 then
          .error ("quantity must be positive at line " ++ toString (i + 1) ++ ", got "
            ++ toString qty)
        else
          let scryfallID := record.getD 2 ""
          if !scryfallIDRegex_MatchString scryfallID then
            .error ("invalid Scryfall ID format '" ++ scryfallID ++ "' at line "
              ++ toString (i + 1))
          else
            parseRecords Quote rest (i + 1) (cards ++ [{ Qty := qty, ID := scryfallID }])

/-- The function `ParseDecklistCSV`. Its argument is what `csvReader.ReadAll()` returned for
the reader: the records, or the reader's error. -/
def ParseDecklistCSV (Quote : String → String) (readAll : Except String (List (List String))) :
    Except String Decklist :=
  match readAll with
  | .error err => .error ("failed to read CSV: " ++ err)
  | .ok records => parseRecords Quote records 0 []

/-- Go `int` arithmetic: the value wrapped to 64-bit two's complement. -/
def wrapInt (x : Int) : Int :=
  (x + 9223372036854775808) % 18446744073709551616 - 9223372036854775808

/-- The function `CalculateTotalPages`. -/
def CalculateTotalPages (decklist : Decklist) : Int :=
  decklist.Cards.foldl
    (fun total card =>
      if card.Card.CardFaces.length > 0 then
        wrapInt (total + wrapInt ((card.Card.CardFaces.length : Int) * card.Qty))
      else
        wrapInt (total + card.Qty))
    0

end deck

/-! ## The world outside the program -/

/-- One zerolog event: level, message and the fields attached to it. -/
structure LogEvent where
  level : String
  msg : String
  fields : List (String × String)
  deriving DecidableEq, Repr

/-- What the program can observe of, and change in, its surroundings. -/
structure World where
  /-- regular files by path and content, the newest binding of a path first -/
  files : List (String × Bytes) := []
  /-- URLs of the HTTP requests sent so far, oldest first -/
  requests : List String := []
  /-- what was written to standard output, oldest first -/
  stdout : List String := []
  /-- what the progress reporter wrote to standard error, oldest first -/
  stderr : List String := []
  /-- zerolog events, oldest first -/
  log : List LogEvent := []
  deriving DecidableEq, Repr

/-- The test `os.Stat(path)` returning no error: a file is there. -/
def World.exists (w : World) (path : String) : Bool :=
  (w.files.lookup path).isSome

/-- Emits one zerolog event. -/
def World.logEvent (w : World) (level msg : String) (fields : List (String × String)) : World :=
  { w with log := w.log ++ [{ level := level, msg := msg, fields := fields }] }

/-- An `*http.Response` as far as the program reads it. -/
structure Response where
  StatusCode : Int
  Status : String
  /-- the bytes the body delivers -/
  Body : Bytes
  /-- the error that ends the reading of the body, if any, after `Body` was delivered -/
  BodyErr : Option String := none
  deriving DecidableEq, Repr

/-- The drawing calls of the PDF library (`gopdf`) that the program makes, as recorded in a
document. -/
inductive PdfOp
  | AddPage
  | SetFillColor (r g b : Nat)
  | RectFromUpperLeftWithStyle (x y w h : Float64) (style : String)
  | Image (data : Bytes) (x y w h : Float64)
  | ImportPagesFromSource (source : Bytes) (box : String)
  deriving DecidableEq, Repr

/-- A `gopdf.GoPdf` document: the page size it was started with and the calls made on it,
oldest first. -/
structure GoPdf where
  PageSize : Float64 × Float64
  ops : List PdfOp := []
  deriving DecidableEq, Repr

/-- The method `Start` with a page-size configuration. -/
def GoPdf.Start (size : Float64 × Float64) : GoPdf := { PageSize := size }

/-- Records one call on the document. -/
def GoPdf.call (pdf : GoPdf) (op : PdfOp) : GoPdf := { pdf with ops := pdf.ops ++ [op] }

/-- In the specification's words, the number of physical pages of a document, `sourcePages`
giving the number of pages of a source document: a call of `AddPage` adds one page, an import
adds the pages of its source, the drawing calls add none. -/
def GoPdf.numPages (sourcePages : Bytes → Nat) (pdf : GoPdf) : Nat :=
  (pdf.ops.map (fun op =>
    match op with
    | .AddPage => 1
    | .ImportPagesFromSource source _ => sourcePages source
    | _ => 0)).sum

/-- The collaborators outside the repository, as far as the program branches on their
results. Each is a function of its arguments: the remote service answers a URL the same way
throughout a run, and the libraries are deterministic. -/
structure Env where
  /-- `http.NewRequest("GET", url, nil)`: its error, if any -/
  NewRequest : String → Option String
  /-- `client.Do(req)` for a GET of the URL -/
  Do : String → Except String Response
  /-- `sonic.Unmarshal(body, &card)` -/
  Unmarshal : Bytes → Except String scryfall.Card
  /-- `os.MkdirAll(dir, 0755)`: its error, if any -/
  MkdirAll : String → Option String
  /-- `os.Create(path)`: its error, if any -/
  Create : String → Option String
  /-- `filepath.Join(dir, name)` -/
  Join : String → String → String
  /-- decoding of an image file by `pdf.Image`: its error, if any -/
  DecodeImage : Bytes → Option String
  /-- `pdf.GetBytesPdfReturnErr()` -/
  GetBytesPdfReturnErr : GoPdf → Except String Bytes
  /-- parsing of a source document by `pdf.ImportPagesFromSource`: its error, if any -/
  ImportPagesFromSource : Bytes → Option String
  /-- `pdf.WritePdf(path)`: the bytes written to the path, or its error -/
  WritePdf : GoPdf → String → Except String Bytes

/-- The method `pdf.Image(path, x, y, rect)` of the PDF library, modelled: it opens the file
and decodes it, and draws it when both succeed; a failed call leaves the document as it
was. -/
def GoPdf.Image (env : Env) (w : World) (pdf : GoPdf) (path : String) (x y : Float64)
    (rect : Float64 × Float64) : Except String GoPdf :=
  match w.files.lookup path with
  | none => .error ("open " ++ path ++ ": no such file or directory")
  | some data =>
    match env.DecodeImage data with
    | some err => .error err
    | none => .ok (pdf.call (.Image data x y rect.1 rect.2))

/-! ## `scryfall/card.go`: functions -/

namespace scryfall

/-- The constant `baseURL`. -/
def baseURL : String := "https://api.scryfall.com/cards/"

/-- The function `FindCardByID`. -/
def FindCardByID (env : Env) (id : String) (w : World) : Except String Card × World :=
  match env.NewRequest (baseURL ++ id) with
  | some err => (.error err, w)
  | none =>
    let w := { w with requests := w.requests ++ [baseURL ++ id] }
    match env.Do (baseURL ++ id) with
    | .error err => (.error err, w)
    | .ok resp =>
      if resp.StatusCode ≠ 200 then (.error ("Error: " ++ resp.Status), w)
      else
        match resp.BodyErr with
        | some err => (.error err, w)
        | none =>
          match env.Unmarshal resp.Body with
          | .error err => (.error err, w)
          | .ok card => (.ok card, w)

/-- The function `DownloadCardImage`. -/
def DownloadCardImage (env : Env) (cardID cacheDir quality : String) (w : World) :
    Except String String × World :=
  match FindCardByID env cardID w with
  | (.error err, w) => (.error ("failed to find card " ++ cardID ++ ": " ++ err), w)
  | (.ok card, w) =>
    let imageURL :=
      if quality = "normal" then card.ImageURIs.Normal
      else if quality = "large" then card.ImageURIs.Large
      else if quality = "png" then card.ImageURIs.PNG
      else card.ImageURIs.Normal
    if imageURL = "" then (.error ("no image URL available for card " ++ cardID), w)
    else
      let cacheFile := env.Join cacheDir (cardID ++ "_" ++ quality ++ ".jpg")
      if w.exists cacheFile then (.ok cacheFile, w)
      else
        match env.NewRequest imageURL with
        | some err => (.error ("failed to create request for " ++ imageURL ++ ": " ++ err), w)
        | none =>
          let w := { w with requests := w.requests ++ [imageURL] }
          match env.Do imageURL with
          | .error err => (.error ("failed to download image for " ++ cardID ++ ": " ++ err), w)
          | .ok resp =>
            if resp.StatusCode ≠ 200 then
              (.error ("failed to download image for " ++ cardID ++ ": HTTP "
                ++ toString resp.StatusCode), w)
            else
              match env.MkdirAll cacheDir with
              | some err => (.error ("failed to create cache directory: " ++ err), w)
              | none =>
                match env.Create cacheFile with
                | some err => (.error ("failed to create cache file: " ++ err), w)
                | none =>
                  let w := { w with files := (cacheFile, resp.Body) :: w.files }
                  match resp.BodyErr with
                  | some err => (.error ("failed to save image: " ++ err), w)
                  | none => (.ok cacheFile, w)

/-- The function `DownloadImageFromURL`. -/
def DownloadImageFromURL (env : Env) (imageURL cacheKey cacheDir : String) (w : World) :
    Except String String × World :=
  if imageURL = "" then (.error "empty image URL", w)
  else
    let cacheFile := env.Join cacheDir (cacheKey ++ ".jpg")
    if w.exists cacheFile then (.ok cacheFile, w)
    else
      match env.NewRequest imageURL with
      | some err => (.error ("failed to create request for " ++ imageURL ++ ": " ++ err), w)
      | none =>
        let w := { w with requests := w.requests ++ [imageURL] }
        match env.Do imageURL with
        | .error err => (.error ("failed to download image: " ++ err), w)
        | .ok resp =>
          if resp.StatusCode ≠ 200 then
            (.error ("failed to download image: HTTP " ++ toString resp.StatusCode), w)
          else
            match env.MkdirAll cacheDir with
            | some err => (.error ("failed to create cache directory: " ++ err), w)
            | none =>
              match env.Create cacheFile with
              | some err => (.error ("failed to create cache file: " ++ err), w)
              | none =>
                let w := { w with files := (cacheFile, resp.Body) :: w.files }
                match resp.BodyErr with
                | some err => (.error ("failed to save image: " ++ err), w)
                | none => (.ok cacheFile, w)

end scryfall

/-! ## `internal/progress/reporter.go` -/

namespace progress

/-- The struct `ProgressReporter`. -/
structure ProgressReporter where
  currentIndex : Int := 0
  totalOperations : Int := 0
  errors : List String := []
  deriving DecidableEq, Repr

/-- The function `NewProgressReporter`. -/
def NewProgressReporter : ProgressReporter := {}

/-- The method `StartUnified`. -/
def ProgressReporter.StartUnified (pr : ProgressReporter) (_description : String) (total : Int) :
    ProgressReporter :=
  { pr with totalOperations := total, currentIndex := 0, errors := [] }

/-- The method `UpdateStage`. The counter starts at 0 and grows by one per call, out of reach
of the 64-bit bound, so it is not wrapped. -/
def ProgressReporter.UpdateStage (pr : ProgressReporter) (description : String) (w : World) :
    ProgressReporter × World :=
  let pr := { pr with currentIndex := pr.currentIndex + 1 }
  (pr, { w with stdout := w.stdout ++
    ["[" ++ toString pr.currentIndex ++ "/" ++ toString pr.totalOperations ++ "] "
      ++ description ++ "\n"] })

/-- The method `AddError`. -/
def ProgressReporter.AddError (pr : ProgressReporter) (cardName errorMsg : String) :
    ProgressReporter :=
  { pr with errors := pr.errors ++ [cardName ++ ": " ++ errorMsg] }

/-- The method `Finish`; `Base` is `filepath.Base`. It assigns to no field of the reporter,
which it returns as it was, next to the world with what was printed. -/
def ProgressReporter.Finish (Base : String → String) (pr : ProgressReporter)
    (outputPath : String) (w : World) : ProgressReporter × World :=
  if pr.errors.length = 0 then
    (pr, { w with stdout := w.stdout ++
      ["\n✅ Successfully generated PDF '" ++ Base outputPath ++ "'\n"] })
  else
    (pr, { w with stderr := w.stderr ++
      ["\n❌ PDF generation completed with " ++ toString pr.errors.length ++ " error(s):\n"]
        ++ pr.errors.map (fun err => "   • " ++ err ++ "\n") })

end progress

/-! ## `internal/pdf/generator.go` -/

namespace pdf

open progress (ProgressReporter)

/-- The struct `pdf.CardEntry`. -/
structure CardEntry where
  Qty : Int
  ID : String
  Card : scryfall.Card := {}
  deriving DecidableEq, Repr

/-- The struct `pdf.Decklist`. -/
structure Decklist where
  Cards : List CardEntry
  deriving DecidableEq, Repr

/-- The struct `Generator`. -/
structure Generator where
  bleedAmount : Float64
  outputPath : String := ""
  deriving DecidableEq, Repr

/-- The constant `CardWidth`, in millimetres. -/
def CardWidth : Float64 := 63

/-- The constant `CardHeight`, in millimetres. -/
def CardHeight : Float64 := 88

/-- The function `NewGenerator`. -/
def NewGenerator (bleedAmount : Float64) : Generator := { bleedAmount := bleedAmount }

/-- The method `SetOutputPath`. -/
def Generator.SetOutputPath (g : Generator) (path : String) : Generator :=
  { g with outputPath := path }

/-- The method `TotalWidth`: a `float64` product and a `float64` sum. (Doubling is exact
unless it overflows, so a fused multiply-add gives the same value.) -/
def Generator.TotalWidth (g : Generator) : Float64 := CardWidth + 2 * g.bleedAmount

/-- The method `TotalHeight`: a `float64` product and a `float64` sum. -/
def Generator.TotalHeight (g : Generator) : Float64 := CardHeight + 2 * g.bleedAmount

/-- The method `ImagePosition`. -/
def Generator.ImagePosition (g : Generator) : Float64 × Float64 :=
  (g.bleedAmount, g.bleedAmount)

/-- The call `strings.ReplaceAll(s, old, new)` for one-character `old` and `new`. -/
def ReplaceAll (s : String) (old new : Char) : String :=
  String.mk (s.toList.map (fun c => if c = old then new else c))

/-- The function `sanitizeFilename`. -/
def sanitizeFilename (name : String) : String :=
  ReplaceAll (ReplaceAll name ' ' '_') '/' '_'

/-- The function `calculateTotalOperations` of the generator. The count is bounded by twice
the length of a slice plus one, so it is not wrapped. -/
def calculateTotalOperations (decklist : Decklist) : Int :=
  decklist.Cards.foldl (fun total _ => total + 1 + 1) 0 + 1

/-- The first lines of `generatePage`: a document of the page size with one page, filled
with black when there is a bleed. -/
def Generator.canvas (g : Generator) : GoPdf :=
  let size := (g.TotalWidth, g.TotalHeight)
  let pdf := (GoPdf.Start size).call .AddPage
  if g.bleedAmount > 0 then
    (pdf.call (.SetFillColor 0 0 0)).call
      (.RectFromUpperLeftWithStyle 0 0 g.TotalWidth g.TotalHeight "F")
  else pdf

/-- The branch of `generatePage` that determines the image to use: the entry's own image URL
when it has one, otherwise the fallback through the card-data service. -/
def loadImage (env : Env) (ce : CardEntry) (cacheDir : String) (w : World) :
    Except String String × World :=
  if ce.Card.ImageURIs.Normal ≠ "" then
    let imageURL := ce.Card.ImageURIs.Normal
    let cacheKey :=
      if ce.Card.Name ≠ "" then ce.ID ++ "_" ++ sanitizeFilename ce.Card.Name ++ "_normal"
      else ce.ID ++ "_normal"
    scryfall.DownloadImageFromURL env imageURL cacheKey cacheDir w
  else
    scryfall.DownloadCardImage env ce.ID cacheDir "normal" w

/-- The method `generatePage`. -/
def Generator.generatePage (env : Env) (g : Generator) (ce : CardEntry) (cacheDir : String)
    (w : World) : Except String Bytes × World :=
  let pdf := g.canvas
  match loadImage env ce cacheDir w with
  | (.error err, w) =>
    let w := w.logEvent "error" "Failed to load card image"
      [("error", err), ("cardID", ce.ID), ("cardName", ce.Card.Name)]
    (env.GetBytesPdfReturnErr pdf, w)
  | (.ok imagePath, w) =>
    let (imageX, imageY) := g.ImagePosition
    match pdf.Image env w imagePath imageX imageY (CardWidth, CardHeight) with
    | .error err =>
      let w := w.logEvent "warn" "Failed to embed image" [("error", err), ("cardID", ce.ID)]
      (env.GetBytesPdfReturnErr pdf, w)
    | .ok pdf => (env.GetBytesPdfReturnErr pdf, w)

/-- The variables a run of `GeneratePDF` updates while it loops over the decklist. -/
structure Run where
  pages : List Bytes := []
  progress : Option ProgressReporter
  world : World
  deriving DecidableEq, Repr

/-- The guarded call `if progress != nil \x7b progress.UpdateStage(description) \x7d`. -/
def Run.UpdateStage (r : Run) (description : String) : Run :=
  match r.progress with
  | none => r
  | some pr =>
    let (pr, w) := pr.UpdateStage description r.world
    { r with progress := some pr, world := w }

/-- The guarded call `if progress != nil \x7b progress.AddError(cardName, errorMsg) \x7d`. -/
def Run.AddError (r : Run) (cardName errorMsg : String) : Run :=
  { r with progress := r.progress.map (fun pr => pr.AddError cardName errorMsg) }

/-- The inner loop `for i := 0; i < cardEntry.Qty; i++ \x7b pages = append(pages, page) \x7d`. -/
def Run.appendCopies (r : Run) (qty : Int) (page : Bytes) : Run :=
  { r with pages := r.pages ++ List.replicate qty.toNat page }

/-- The entry built for one face in `GeneratePDF`: quantity 1, the identifier of the decklist
entry, and a card that carries the name and the image references of the face only. -/
def faceEntry (cardEntry : CardEntry) (face : scryfall.CardFace) : CardEntry :=
  { Qty := 1, ID := cardEntry.ID, Card := { Name := face.Name, ImageURIs := face.ImageURIs } }

/-- The body of the loop over `card.CardFaces` in `GeneratePDF`. -/
def Generator.faceStep (env : Env) (g : Generator) (cacheDir : String) (cardEntry : CardEntry)
    (r : Run) (face : scryfall.CardFace) : Run :=
  let faceEntry := faceEntry cardEntry face
  let r := r.UpdateStage ("Generating page: " ++ face.Name)
  match g.generatePage env faceEntry cacheDir r.world with
  | (.error err, w) =>
    let w := w.logEvent "error" "Failed to generate face page"
      [("error", err), ("cardID", cardEntry.ID), ("face", face.Name)]
    let r := { r with world := w }
    r.AddError (face.Name ++ " (" ++ cardEntry.ID ++ ")") err
  | (.ok facePage, w) =>
    let r := { r with world := w }
    if facePage.length > 0 then r.appendCopies cardEntry.Qty facePage else r

/-- The body of the loop over `decklist.Cards` in `GeneratePDF`. -/
def Generator.entryStep (env : Env) (g : Generator) (cacheDir : String) (r : Run)
    (cardEntry : CardEntry) : Run :=
  let r := r.UpdateStage ("Fetching card: " ++ cardEntry.ID)
  match scryfall.FindCardByID env cardEntry.ID r.world with
  | (.error err, w) =>
    let w := w.logEvent "error" "Failed to fetch card data"
      [("error", err), ("cardID", cardEntry.ID)]
    let r := { r with world := w }
    r.AddError cardEntry.ID err
  | (.ok card, w) =>
    let r := { r with world := w }
    let entryWithCard := { cardEntry with Card := card }
    if card.CardFaces.length > 0 then
      card.CardFaces.foldl (g.faceStep env cacheDir cardEntry) r
    else
      let r := r.UpdateStage ("Generating page: " ++ card.Name)
      match g.generatePage env entryWithCard cacheDir r.world with
      | (.error err, w) =>
        let w := w.logEvent "error" "Failed to generate card page"
          [("error", err), ("cardID", cardEntry.ID)]
        let r := { r with world := w }
        r.AddError card.Name err
      | (.ok page, w) =>
        let r := { r with world := w }
        if page.length > 0 then r.appendCopies cardEntry.Qty page else r

/-- The assembly loop of `GeneratePDF`: imports every non-empty page into the document, and
stops at the first import error. -/
def importPages (env : Env) : List Bytes → GoPdf → Except String GoPdf
  | [], pdf => .ok pdf
  | b :: rest, pdf =>
    if b.length = 0 then importPages env rest pdf
    else
      match env.ImportPagesFromSource b with
      | some err => .error err
      | none => importPages env rest (pdf.call (.ImportPagesFromSource b "/MediaBox"))

/-- What a call of `GeneratePDF` leaves behind: the returned error (`none` for `nil`), the
page list it accumulated, the reporter and the world. -/
structure Outcome where
  err : Option String
  pages : List Bytes
  progress : Option ProgressReporter
  world : World
  deriving DecidableEq, Repr

/-- The variables of `GeneratePDF` when its loop starts: no pages, and the reporter, when
there is one, started with the precomputed number of operations. -/
def startRun (decklist : Decklist) (progress : Option ProgressReporter) (w : World) : Run :=
  { pages := [],
    progress := progress.map (fun pr => pr.StartUnified "Starting PDF generation"
      (calculateTotalOperations decklist)),
    world := w }

/-- The method `GeneratePDF`. -/
def Generator.GeneratePDF (env : Env) (g : Generator) (decklist : Decklist)
    (progress : Option ProgressReporter) (w : World) : Outcome :=
  let cacheDir := ".card_cache"
  match env.MkdirAll cacheDir with
  | some err =>
    { err := some ("failed to create cache directory: " ++ err), pages := [],
      progress := progress, world := w }
  | none =>
    let r := startRun decklist progress w
    let r := decklist.Cards.foldl (g.entryStep env cacheDir) r
    if r.pages.length = 0 then
      { err := some "no pages generated", pages := r.pages, progress := r.progress,
        world := r.world }
    else
      let r := r.UpdateStage "Assembling PDF"
      let size := (g.TotalWidth, g.TotalHeight)
      match importPages env r.pages (GoPdf.Start size) with
      | .error err =>
        { err := some err, pages := r.pages, progress := r.progress, world := r.world }
      | .ok pdf =>
        match env.WritePdf pdf g.outputPath with
        | .error err =>
          { err := some err, pages := r.pages, progress := r.progress, world := r.world }
        | .ok bytes =>
          { err := none, pages := r.pages, progress := r.progress,
            world := { r.world with files := (g.outputPath, bytes) :: r.world.files } }

/-! ### The net effect of the loop

The pages, the error records and the files that a stretch of the loop of `GeneratePDF`
contributes depend on the files present when it starts and on nothing else of the run. The
functions below compute that contribution from the files alone; `entryStep_follows` and
`cards_follow` show that the loop agrees with them. -/

/-- The world that holds the given files and nothing else. -/
def World.ofFiles (files : List (String × Bytes)) : World := { files := files }

/-- A contribution to a run: the pages appended to the page list, the records appended to
the error list of the reporter, and the files present afterwards. -/
structure Effect where
  pages : List Bytes
  errors : List String
  files : List (String × Bytes)
  deriving DecidableEq, Repr

/-- Two contributions in a row. -/
def Effect.append (a b : Effect) : Effect :=
  { pages := a.pages ++ b.pages, errors := a.errors ++ b.errors, files := b.files }

/-- The contribution of one face of a card. -/
def Generator.faceEffect (env : Env) (g : Generator) (cacheDir : String)
    (cardEntry : CardEntry) (files : List (String × Bytes)) (face : scryfall.CardFace) :
    Effect :=
  match g.generatePage env (faceEntry cardEntry face) cacheDir (World.ofFiles files) with
  | (.error err, w) =>
    { pages := [], errors := [face.Name ++ " (" ++ cardEntry.ID ++ ")" ++ ": " ++ err],
      files := w.files }
  | (.ok facePage, w) =>
    { pages := if facePage.length > 0 then List.replicate cardEntry.Qty.toNat facePage else [],
      errors := [], files := w.files }

/-- The contribution of the faces of a card, in face order. -/
def Generator.facesEffect (env : Env) (g : Generator) (cacheDir : String)
    (cardEntry : CardEntry) : List scryfall.CardFace → List (String × Bytes) → Effect
  | [], files => { pages := [], errors := [], files := files }
  | face :: faces, files =>
    let a := g.faceEffect env cacheDir cardEntry files face
    a.append (facesEffect env g cacheDir cardEntry faces a.files)

/-- The contribution of one decklist entry. -/
def Generator.entryEffect (env : Env) (g : Generator) (cacheDir : String)
    (files : List (String × Bytes)) (cardEntry : CardEntry) : Effect :=
  match scryfall.FindCardByID env cardEntry.ID (World.ofFiles files) with
  | (.error err, _) => { pages := [], errors := [cardEntry.ID ++ ": " ++ err], files := files }
  | (.ok card, _) =>
    if card.CardFaces.length > 0 then
      g.facesEffect env cacheDir cardEntry card.CardFaces files
    else
      match g.generatePage env { cardEntry with Card := card } cacheDir (World.ofFiles files) with
      | (.error err, w) => { pages := [], errors := [card.Name ++ ": " ++ err], files := w.files }
      | (.ok page, w) =>
        { pages := if page.length > 0 then List.replicate cardEntry.Qty.toNat page else [],
          errors := [], files := w.files }

/-- The contribution of a list of decklist entries, in decklist order. -/
def Generator.cardsEffect (env : Env) (g : Generator) (cacheDir : String) :
    List CardEntry → List (String × Bytes) → Effect
  | [], files => { pages := [], errors := [], files := files }
  | cardEntry :: cards, files =>
    let a := g.entryEffect env cacheDir files cardEntry
    a.append (cardsEffect env g cacheDir cards a.files)

/-- The run `s` continues the run `r` by the contribution `eff`: the pages and, when there is
a reporter, the error records of `eff` are appended, and the files are those of `eff`. -/
def Run.Follows (r s : Run) (eff : Effect) : Prop :=
  s.pages = r.pages ++ eff.pages ∧ s.world.files = eff.files ∧
  (r.progress = none → s.progress = none) ∧
  (∀ pr, r.progress = some pr →
    ∃ pr2, s.progress = some pr2 ∧ pr2.errors = pr.errors ++ eff.errors ∧
      pr2.totalOperations = pr.totalOperations)

/-- The error `GeneratePDF` returns once its loop has accumulated the given pages
(`none` for `nil`). -/
def Generator.finishErr (env : Env) (g : Generator) (pages : List Bytes) : Option String :=
  if pages.length = 0 then some "no pages generated"
  else
    match importPages env pages (GoPdf.Start (g.TotalWidth, g.TotalHeight)) with
    | .error err => some err
    | .ok pdf =>
      match env.WritePdf pdf g.outputPath with
      | .error err => some err
      | .ok _ => none

/-- The variables of `GeneratePDF` when its loop over the decklist is done. -/
def Generator.afterLoop (env : Env) (g : Generator) (decklist : Decklist)
    (progress : Option ProgressReporter) (w : World) : Run :=
  decklist.Cards.foldl (g.entryStep env ".card_cache") (startRun decklist progress w)

/-- The error of the assembly step of `GeneratePDF` for the given pages (`none` for `nil`):
the first error of an import, or else the error of the write. -/
def Generator.assembleErr (env : Env) (g : Generator) (pages : List Bytes) : Option String :=
  match importPages env pages (GoPdf.Start (g.TotalWidth, g.TotalHeight)) with
  | .error err => some err
  | .ok pdf =>
    match env.WritePdf pdf g.outputPath with
    | .error err => some err
    | .ok _ => none

/-! ### Notions of the specification for the generator -/

/-- In the specification's words, the output document for a page list: a document of the page
size of the generator that holds, for each page of the list in order, one import of that page
by its media box, and nothing else. -/
def Generator.assembled (g : Generator) (pages : List Bytes) : GoPdf :=
  { PageSize := (g.TotalWidth, g.TotalHeight),
    ops := pages.map (fun b => PdfOp.ImportPagesFromSource b "/MediaBox") }

/-- The image download or the image embedding of `generatePage` fails for the entry, in the
given world. -/
def Generator.imageFails (env : Env) (g : Generator) (ce : CardEntry) (cacheDir : String)
    (w : World) : Bool :=
  match loadImage env ce cacheDir w with
  | (.error _, _) => true
  | (.ok imagePath, w) =>
    match g.canvas.Image env w imagePath g.ImagePosition.1 g.ImagePosition.2
      (CardWidth, CardHeight) with
    | .error _ => true
    | .ok _ => false

/-- In the specification's words, for the faces of one card, each rendered with non-empty
page bytes: for each face in face order, `Qty` consecutive copies of the page of that face;
with it, the files present afterwards. `none` when a rendering fails or gives no bytes. -/
def Generator.facePagesInOrder (env : Env) (g : Generator) (cacheDir : String)
    (cardEntry : CardEntry) :
    List scryfall.CardFace → List (String × Bytes) → Option (List Bytes × List (String × Bytes))
  | [], files => some ([], files)
  | face :: faces, files =>
    match g.generatePage env (faceEntry cardEntry face) cacheDir (World.ofFiles files) with
    | (.error _, _) => none
    | (.ok facePage, w) =>
      if facePage = [] then none
      else
        match facePagesInOrder env g cacheDir cardEntry faces w.files with
        | none => none
        | some (rest, files) => some (List.replicate cardEntry.Qty.toNat facePage ++ rest, files)

/-- In the specification's words, for a decklist each of whose cards is fetched and rendered
with non-empty page bytes: the concatenation, in decklist order, of `Qty` consecutive copies of
the page of a single-face card, and, for a multi-face card, of `Qty` consecutive copies of the
page of each face in face order. `none` when a fetch or a rendering fails or gives no bytes. -/
def Generator.pagesInOrder (env : Env) (g : Generator) (cacheDir : String) :
    List CardEntry → List (String × Bytes) → Option (List Bytes)
  | [], _ => some []
  | cardEntry :: cards, files =>
    match scryfall.FindCardByID env cardEntry.ID (World.ofFiles files) with
    | (.error _, _) => none
    | (.ok card, _) =>
      if card.CardFaces = [] then
        match g.generatePage env { cardEntry with Card := card } cacheDir
          (World.ofFiles files) with
        | (.error _, _) => none
        | (.ok page, w) =>
          if page = [] then none
          else
            match pagesInOrder env g cacheDir cards w.files with
            | none => none
            | some rest => some (List.replicate cardEntry.Qty.toNat page ++ rest)
      else
        match g.facePagesInOrder env cacheDir cardEntry card.CardFaces files with
        | none => none
        | some (facePages, files) =>
          match pagesInOrder env g cacheDir cards files with
          | none => none
          | some rest => some (facePages ++ rest)

/-! ### Example surroundings

A card-data service that knows four cards and an image host that serves three images; used
to instantiate the theorems below. -/

/-- An answer of status 200 with the given body. -/
def ok200 (body : Bytes) : Response := { StatusCode := 200, Status := "200 OK", Body := body }

/-- A card with two faces that carry no image reference of their own; the artwork of the
whole card is in its top-level image reference. -/
def splitCard : scryfall.Card :=
  { ID := "split", Name := "Fire // Ice",
    ImageURIs := { Normal := "https://img.example/split.jpg" },
    CardFaces := [{ Name := "Fire" }, { Name := "Ice" }] }

/-- A single-face card whose artwork is missing from the image host. -/
def noartCard : scryfall.Card :=
  { ID := "noart", Name := "Missing Art",
    ImageURIs := { Normal := "https://img.example/noart.jpg" } }

/-- The cards of the example service: two single-face cards with artwork, `splitCard` and
`noartCard`. -/
def exampleCard (body : Bytes) : Except String scryfall.Card :=
  if body = [1] then
    .ok { ID := "bolt", Name := "Lightning Bolt",
          ImageURIs := { Normal := "https://img.example/bolt.jpg" } }
  else if body = [2] then
    .ok { ID := "lotus", Name := "Black Lotus",
          ImageURIs := { Normal := "https://img.example/lotus.jpg" } }
  else if body = [3] then .ok splitCard
  else if body = [4] then .ok noartCard
  else .error "invalid character looking for beginning of value"

/-- The answers of the example service and image host. -/
def exampleDo (url : String) : Except String Response :=
  if url = "https://api.scryfall.com/cards/bolt" then .ok (ok200 [1])
  else if url = "https://api.scryfall.com/cards/lotus" then .ok (ok200 [2])
  else if url = "https://api.scryfall.com/cards/split" then .ok (ok200 [3])
  else if url = "https://api.scryfall.com/cards/noart" then .ok (ok200 [4])
  else if url = "https://img.example/bolt.jpg" then .ok (ok200 [10])
  else if url = "https://img.example/lotus.jpg" then .ok (ok200 [20])
  else if url = "https://img.example/split.jpg" then .ok (ok200 [30])
  else .ok { StatusCode := 404, Status := "404 Not Found", Body := [] }

/-- The page bytes of the example PDF library: one 0 per drawing call, the image data in
place of an image call, and the bytes of the source in place of an import. -/
def examplePageBytes (pdf : GoPdf) : Bytes :=
  pdf.ops.foldr
    (fun op acc =>
      match op with
      | .Image data _ _ _ _ => data ++ acc
      | .ImportPagesFromSource source _ => source ++ acc
      | _ => 0 :: acc)
    []

/-- The example surroundings. -/
def exampleEnv : Env where
  NewRequest := fun _ => none
  Do := exampleDo
  Unmarshal := exampleCard
  MkdirAll := fun _ => none
  Create := fun _ => none
  Join := fun dir name => dir ++ "/" ++ name
  DecodeImage := fun _ => none
  GetBytesPdfReturnErr := fun pdf => .ok (examplePageBytes pdf)
  ImportPagesFromSource := fun _ => none
  WritePdf := fun pdf _ => .ok (examplePageBytes pdf)

/-- The generator of the examples: a bleed of 3 mm, output to `deck.pdf`. -/
def exampleGenerator : Generator :=
  (NewGenerator (.finite false (3 * 2 ^ 1074))).SetOutputPath "deck.pdf"

/-- In the specification's words, the resolved decklist: every entry of the decklist with
the card data the service returns for its identifier (no card data when the fetch fails). -/
def resolved (env : Env) (decklist : Decklist) : deck.Decklist :=
  { Cards := decklist.Cards.map (fun cardEntry =>
      { Qty := cardEntry.Qty, ID := cardEntry.ID,
        Card :=
          match (scryfall.FindCardByID env cardEntry.ID {}).1 with
          | .ok card => card
          | .error _ => {} }) }

/-- The outcome of a call without the reporter and without what the reporter printed:
standard output is set back to `stdout`. -/
def Outcome.quiet (o : Outcome) (stdout : List String) : Outcome :=
  { err := o.err, pages := o.pages, progress := none,
    world := { o.world with stdout := stdout } }

/-- The variables of a run without the reporter and without what the reporter printed. -/
def Run.quiet (r : Run) (stdout : List String) : Run :=
  { pages := r.pages, progress := none, world := { r.world with stdout := stdout } }

end pdf

/-! ## `cmd/deckforge/main.go` -/

namespace main

/-- The function `calculateTotalOperations` of the command-line entry point. The count is
bounded by twice the length of a slice plus one, so it is not wrapped. -/
def calculateTotalOperations (decklist : deck.Decklist) : Int :=
  decklist.Cards.foldl (fun total _ => total + 1 + 1) 0 + 1

end main

/-! ## Notions of the specification for the reporter -/

namespace progress

/-- A call made on the reporter between `StartUnified` and `Finish`. -/
inductive Call
  | UpdateStage (description : String)
  | AddError (cardName errorMsg : String)
  deriving DecidableEq, Repr

/-- Makes the calls on the reporter, in order. -/
def ProgressReporter.calls : List Call → ProgressReporter × World → ProgressReporter × World
  | [], s => s
  | .UpdateStage description :: rest, (pr, w) => calls rest (pr.UpdateStage description w)
  | .AddError cardName errorMsg :: rest, (pr, w) => calls rest (pr.AddError cardName errorMsg, w)

/-- The number of `UpdateStage` calls among the calls. -/
def stages : List Call → Nat
  | [] => 0
  | .UpdateStage _ :: rest => stages rest + 1
  | .AddError _ _ :: rest => stages rest

/-- The errors among the calls, each as `subject: message`, in order. -/
def records : List Call → List String
  | [] => []
  | .UpdateStage _ :: rest => records rest
  | .AddError cardName errorMsg :: rest => (cardName ++ ": " ++ errorMsg) :: records rest

/-- The line `[index/total] label` that `UpdateStage` prints. -/
def stageLine (index total : Int) (label : String) : String :=
  "[" ++ toString index ++ "/" ++ toString total ++ "] " ++ label ++ "\n"

/-- The lines a list of labels is announced with when the counter stands at `index`: the
first label with `index + 1`, the next with `index + 2`, and so on. -/
def stageLines (total : Int) : Int → List String → List String
  | _, [] => []
  | index, label :: rest => stageLine (index + 1) total label :: stageLines total (index + 1) rest

end progress

end DeckForge

/-! ## Notions of the specification -/

namespace DeckForge

namespace deck

/-- A lowercase hexadecimal digit. -/
def IsLowerHexDigit (c : Char) : Prop :=
  c ∈ "0123456789abcdef".toList

/-- The identifier format in the specification's words: groups of 8, 4, 4, 4 and 12 lowercase
hexadecimal digits, separated by hyphens, and nothing else. -/
def IsScryfallID (s : String) : Prop :=
  ∃ g1 g2 g3 g4 g5 : List Char,
    g1.length = 8 ∧ g2.length = 4 ∧ g3.length = 4 ∧ g4.length = 4 ∧ g5.length = 12 ∧
    (∀ c ∈ g1 ++ g2 ++ g3 ++ g4 ++ g5, IsLowerHexDigit c) ∧
    s.toList = g1 ++ '-' :: (g2 ++ '-' :: (g3 ++ '-' :: (g4 ++ '-' :: g5)))

/-- The quantity field of a row is an integer greater than 0: `strconv.Atoi` accepts it and
the value is positive. -/
def HasValidQuantity (row : List String) : Prop :=
  ∃ q : Int, strconv.Atoi (row.getD 0 "") = .ok q ∧ 0 < q

/-- A valid row in the specification's words: exactly 3 fields, the first an integer greater
than 0, the third in the identifier format. -/
def ValidRow (row : List String) : Prop :=
  row.length = 3 ∧ HasValidQuantity row ∧ IsScryfallID (row.getD 2 "")

/-- The integer value of the quantity field of a row (0 when it has none). -/
def rowQty (row : List String) : Int :=
  match strconv.Atoi (row.getD 0 "") with
  | .ok q => q
  | .error _ => 0

/-- The entry a row stands for: its quantity and its third field. -/
def rowEntry (row : List String) : CardEntry :=
  { Qty := rowQty row, ID := row.getD 2 "" }

/-- The pages one entry accounts for, as an exact integer: the quantity, or the number of
faces times the quantity when the card has faces. -/
def entryPages (card : CardEntry) : Int :=
  if card.Card.CardFaces.length > 0 then (card.Card.CardFaces.length : Int) * card.Qty
  else card.Qty

end deck

/-! ### Notions of the specification for lengths -/

namespace Float64

/-- The operator `<=` on `float64`. -/
def le : Float64 → Float64 → Bool
  | nan, _ => false
  | _, nan => false
  | inf a, inf b => a || !b
  | inf a, finite _ _ => a
  | finite _ _, inf b => !b
  | finite a m, finite b n => decide (signed a m ≤ signed b n)

instance : LE Float64 := ⟨fun a b => le a b = true⟩

instance (a b : Float64) : Decidable (a ≤ b) := inferInstanceAs (Decidable (le a b = true))

/-- The magnitude `mag * 2^(-1074)` is one of a `float64`: below `2^1024`, with no binary
digit beyond the 53 of the significand. -/
def Representable (mag : Nat) : Prop :=
  mag < 2 ^ 2098 ∧ 2 ^ (bitLength mag - 53) ∣ mag

end Float64

namespace pdf

end pdf

end DeckForge

/-! ## Theorems: the decklist parser -/

namespace DeckForge

namespace deck

theorem isLowerHex_iff (c : Char) : isLowerHex c = true ↔ IsLowerHexDigit c := by
  constructor
  · intro h
    have e : c = Char.ofNat c.toNat := (Char.ofNat_toNat c).symm
    simp only [isLowerHex, Bool.or_eq_true, Bool.and_eq_true, decide_eq_true_eq] at h
    have key : (97 ≤ c.toNat ∧ c.toNat ≤ 102) ∨ (48 ≤ c.toNat ∧ c.toNat ≤ 57) := by
      rcases h with ⟨h1, h2⟩ | ⟨h1, h2⟩
      · left
        have a := Char.le_def.mp h1
        have b := Char.le_def.mp h2
        constructor
        · simpa [Char.toNat, UInt32.le_def] using a
        · simpa [Char.toNat, UInt32.le_def] using b
      · right
        have a := Char.le_def.mp h1
        have b := Char.le_def.mp h2
        constructor
        · simpa [Char.toNat, UInt32.le_def] using a
        · simpa [Char.toNat, UInt32.le_def] using b
    clear h
    generalize c.toNat = n at e key
    subst e
    unfold IsLowerHexDigit
    rcases key with ⟨h1, h2⟩ | ⟨h1, h2⟩ <;> interval_cases n <;> decide
  · intro h
    have hall : ∀ d ∈ "0123456789abcdef".toList, isLowerHex d = true := by decide
    exact hall c h

theorem takeHex_eq_some (n : Nat) (cs rest : List Char) :
    takeHex n cs = some rest ↔
      ∃ g : List Char, g.length = n ∧ (∀ c ∈ g, IsLowerHexDigit c) ∧ cs = g ++ rest := by
  induction n generalizing cs with
  | zero =>
    constructor
    · intro h
      simp only [takeHex, Option.some.injEq] at h
      exact ⟨[], rfl, by simp, by simp [h]⟩
    · rintro ⟨g, hg, -, rfl⟩
      have : g = [] := List.length_eq_zero.mp hg
      subst this
      simp [takeHex]
  | succ n ih =>
    cases cs with
    | nil =>
      constructor
      · intro h
        simp [takeHex] at h
      · rintro ⟨g, hg, -, h⟩
        cases g with
        | nil => simp at hg
        | cons a g => simp at h
    | cons c cs =>
      constructor
      · intro h
        by_cases hc : isLowerHex c = true
        · simp only [takeHex, hc, if_true] at h
          obtain ⟨g, hg, hall, rfl⟩ := (ih cs).mp h
          refine ⟨c :: g, by simp [hg], ?_, by simp⟩
          intro d hd
          rcases List.mem_cons.mp hd with rfl | hd
          · exact (isLowerHex_iff _).mp hc
          · exact hall d hd
        · simp [takeHex, hc] at h
      · rintro ⟨g, hg, hall, h⟩
        cases g with
        | nil => simp at hg
        | cons a g =>
          simp only [List.cons_append, List.cons.injEq] at h
          obtain ⟨rfl, rfl⟩ := h
          have hc : isLowerHex c = true := (isLowerHex_iff c).mpr (hall c (by simp))
          simp only [takeHex, hc, if_true]
          exact (ih _).mpr ⟨g, by simpa using hg, fun d hd => hall d (by simp [hd]), rfl⟩

theorem matchGroups_single (n : Nat) (cs : List Char) :
    matchGroups [n] cs = true ↔ cs.length = n ∧ ∀ c ∈ cs, IsLowerHexDigit c := by
  simp only [matchGroups, beq_iff_eq]
  rw [takeHex_eq_some]
  constructor
  · rintro ⟨g, hg, hall, rfl⟩
    simpa using ⟨hg, hall⟩
  · rintro ⟨hlen, hall⟩
    exact ⟨cs, hlen, hall, by simp⟩

theorem matchGroups_cons (n m : Nat) (ns : List Nat) (cs : List Char) :
    matchGroups (n :: m :: ns) cs = true ↔
      ∃ g rest : List Char, g.length = n ∧ (∀ c ∈ g, IsLowerHexDigit c) ∧
        cs = g ++ '-' :: rest ∧ matchGroups (m :: ns) rest = true := by
  constructor
  · intro h
    cases ht : takeHex n cs with
    | none => simp [matchGroups, ht] at h
    | some r =>
      cases r with
      | nil => simp [matchGroups, ht] at h
      | cons d rest =>
        by_cases hd : d = '-'
        · subst hd
          simp only [matchGroups, ht] at h
          obtain ⟨g, hg, hall, rfl⟩ := (takeHex_eq_some _ _ _).mp ht
          exact ⟨g, rest, hg, hall, rfl, h⟩
        · exfalso
          simp only [matchGroups, ht] at h
          split at h
          · rename_i heq
            simp only [Option.some.injEq, List.cons.injEq] at heq
            exact hd heq.1
          · simp at h
  · rintro ⟨g, rest, hg, hall, rfl, h⟩
    have ht : takeHex n (g ++ '-' :: rest) = some ('-' :: rest) :=
      (takeHex_eq_some _ _ _).mpr ⟨g, hg, hall, rfl⟩
    simp only [matchGroups, ht]
    exact h

/-- The pattern of the source accepts exactly the identifiers of the specification. -/
theorem MatchString_iff (s : String) :
    scryfallIDRegex_MatchString s = true ↔ IsScryfallID s := by
  unfold scryfallIDRegex_MatchString IsScryfallID
  constructor
  · intro h
    obtain ⟨g1, r1, h1, a1, e1, h⟩ := (matchGroups_cons _ _ _ _).mp h
    obtain ⟨g2, r2, h2, a2, e2, h⟩ := (matchGroups_cons _ _ _ _).mp h
    obtain ⟨g3, r3, h3, a3, e3, h⟩ := (matchGroups_cons _ _ _ _).mp h
    obtain ⟨g4, r4, h4, a4, e4, h⟩ := (matchGroups_cons _ _ _ _).mp h
    obtain ⟨h5, a5⟩ := (matchGroups_single _ _).mp h
    refine ⟨g1, g2, g3, g4, r4, h1, h2, h3, h4, h5, ?_, ?_⟩
    · intro c hc
      simp only [List.mem_append] at hc
      rcases hc with (((hc | hc) | hc) | hc) | hc
      · exact a1 c hc
      · exact a2 c hc
      · exact a3 c hc
      · exact a4 c hc
      · exact a5 c hc
    · rw [e1, e2, e3, e4]
  · rintro ⟨g1, g2, g3, g4, g5, h1, h2, h3, h4, h5, hall, e⟩
    rw [e]
    refine (matchGroups_cons _ _ _ _).mpr ⟨g1, _, h1, fun c hc => hall c (by simp [hc]), rfl, ?_⟩
    refine (matchGroups_cons _ _ _ _).mpr ⟨g2, _, h2, fun c hc => hall c (by simp [hc]), rfl, ?_⟩
    refine (matchGroups_cons _ _ _ _).mpr ⟨g3, _, h3, fun c hc => hall c (by simp [hc]), rfl, ?_⟩
    refine (matchGroups_cons _ _ _ _).mpr ⟨g4, _, h4, fun c hc => hall c (by simp [hc]), rfl, ?_⟩
    exact (matchGroups_single _ _).mpr ⟨h5, fun c hc => hall c (by simp [hc])⟩

/-- A row that passes every check of the loop body: at least 3 fields, a quantity that
`strconv.Atoi` accepts with a positive value, a third field that the pattern accepts. -/
theorem parseRecords_cons_ok (Quote : String → String) (record : List String)
    (rest : List (List String)) (i : Nat) (cards : List CardEntry)
    (hlen : 3 ≤ record.length) (hq : HasValidQuantity record)
    (hid : IsScryfallID (record.getD 2 "")) :
    parseRecords Quote (record :: rest) i cards =
      parseRecords Quote rest (i + 1) (cards ++ [rowEntry record]) := by
  obtain ⟨q, hq, hpos⟩ := hq
  have hm : scryfallIDRegex_MatchString (record.getD 2 "") = true := (MatchString_iff _).mpr hid
  have h1 : ¬ record.length < 3 := by omega
  have h2 : ¬ q ≤ 0 := by omega
  rw [parseRecords]
  simp only [h1, if_false, hq, h2, hm, Bool.not_true, Bool.false_eq_true, rowEntry, rowQty]

theorem parseRecords_valid (Quote : String → String) (rows : List (List String)) :
    ∀ (i : Nat) (cards : List CardEntry),
      (∀ row ∈ rows, 3 ≤ row.length ∧ HasValidQuantity row ∧ IsScryfallID (row.getD 2 "")) →
      parseRecords Quote rows i cards = .ok { Cards := cards ++ rows.map rowEntry } := by
  induction rows with
  | nil => intro i cards _; simp [parseRecords]
  | cons row rows ih =>
    intro i cards h
    obtain ⟨hlen, hq, hid⟩ := h row (by simp)
    rw [parseRecords_cons_ok Quote row rows i cards hlen hq hid,
      ih (i + 1) _ (fun r hr => h r (by simp [hr]))]
    simp

theorem parseRecords_append (Quote : String → String) (pre : List (List String)) :
    ∀ (rest : List (List String)) (i : Nat) (cards : List CardEntry),
      (∀ row ∈ pre, 3 ≤ row.length ∧ HasValidQuantity row ∧ IsScryfallID (row.getD 2 "")) →
      parseRecords Quote (pre ++ rest) i cards =
        parseRecords Quote rest (i + pre.length) (cards ++ pre.map rowEntry) := by
  induction pre with
  | nil => intro rest i cards _; simp
  | cons row pre ih =>
    intro rest i cards h
    obtain ⟨hlen, hq, hid⟩ := h row (by simp)
    rw [List.cons_append, parseRecords_cons_ok Quote row _ i cards hlen hq hid,
      ih rest (i + 1) _ (fun r hr => h r (by simp [hr]))]
    simp only [List.length_cons, List.map_cons, List.append_assoc, List.singleton_append]
    congr 1
    omega

theorem ValidRow.passes {row : List String} (h : ValidRow row) :
    3 ≤ row.length ∧ HasValidQuantity row ∧ IsScryfallID (row.getD 2 "") :=
  ⟨by have := h.1; omega, h.2.1, h.2.2⟩

/-- A record with fewer than 3 fields anywhere in the input makes the loop fail. -/
theorem parseRecords_short (Quote : String → String) (rows : List (List String)) :
    ∀ (i : Nat) (cards : List CardEntry), (∃ row ∈ rows, row.length < 3) →
      ∃ msg, parseRecords Quote rows i cards = .error msg := by
  induction rows with
  | nil => intro i cards h; simp at h
  | cons row rows ih =>
    intro i cards h
    rw [parseRecords]
    split
    · exact ⟨_, rfl⟩
    · rename_i hlen
      have h' : ∃ r ∈ rows, r.length < 3 := by
        obtain ⟨r, hr, hshort⟩ := h
        rcases List.mem_cons.mp hr with rfl | hr
        · exact absurd hshort hlen
        · exact ⟨r, hr, hshort⟩
      split
      · exact ⟨_, rfl⟩
      · split
        · exact ⟨_, rfl⟩
        · simp only []
          split
          · exact ⟨_, rfl⟩
          · exact ih _ _ h'

/-- C1. When every row is valid (3 fields, the first an integer greater than 0, the third in
the 8-4-4-4-12 lowercase-hex format), `ParseDecklistCSV` succeeds and returns one entry per
row, in input order; the entry of a row has the integer value of the row's first field as its
`Qty` and the row's third field as its `ID`. -/
theorem ParseDecklistCSV_valid_rows (Quote : String → String) (rows : List (List String))
    (h : ∀ row ∈ rows, ValidRow row) :
    ParseDecklistCSV Quote (.ok rows) = .ok { Cards := rows.map rowEntry } ∧
      ∀ row ∈ rows, strconv.Atoi (row.getD 0 "") = .ok (rowEntry row).Qty ∧
        (rowEntry row).ID = row.getD 2 "" := by
  constructor
  · have := parseRecords_valid Quote rows 0 [] (fun row hr => (h row hr).passes)
    simpa [ParseDecklistCSV] using this
  · intro row hr
    obtain ⟨q, hq, -⟩ := (h row hr).2.1
    simp only [rowEntry, rowQty, hq, and_self]

theorem ParseDecklistCSV_valid_rows_witness :
    (∀ row ∈ [["1", "Lightning Bolt", "a65e485b-03a2-4634-9218-f5bb7c104d41"],
        ["2", "Black Lotus", "b6a5b3b0-2b4b-4c4b-8b2b-2b2b2b2b2b2b"]], ValidRow row) ∧
    ParseDecklistCSV id (.ok [["1", "Lightning Bolt", "a65e485b-03a2-4634-9218-f5bb7c104d41"],
        ["2", "Black Lotus", "b6a5b3b0-2b4b-4c4b-8b2b-2b2b2b2b2b2b"]]) =
      .ok { Cards := [{ Qty := 1, ID := "a65e485b-03a2-4634-9218-f5bb7c104d41" },
        { Qty := 2, ID := "b6a5b3b0-2b4b-4c4b-8b2b-2b2b2b2b2b2b" }] } := by
  have hv : ∀ row ∈ [["1", "Lightning Bolt", "a65e485b-03a2-4634-9218-f5bb7c104d41"],
      ["2", "Black Lotus", "b6a5b3b0-2b4b-4c4b-8b2b-2b2b2b2b2b2b"]], ValidRow row := by
    intro row hr
    simp only [List.mem_cons, List.mem_singleton, List.not_mem_nil, or_false] at hr
    rcases hr with rfl | rfl
    · exact ⟨rfl, ⟨1, by decide, by decide⟩, (MatchString_iff _).mp (by decide)⟩
    · exact ⟨rfl, ⟨2, by decide, by decide⟩, (MatchString_iff _).mp (by decide)⟩
  refine ⟨hv, ?_⟩
  rw [(ParseDecklistCSV_valid_rows id _ hv).1]
  decide

/-! ### The record reader -/

theorem readRecords_ok (recs : List (Nat × List String)) :
    ∀ (fpr : Nat) (acc rows : List (List String)),
      csv.readRecords recs fpr acc = .ok rows → rows = acc ++ recs.map Prod.snd := by
  induction recs with
  | nil =>
    intro fpr acc rows h
    simp only [csv.readRecords, Except.ok.injEq] at h
    simp [h]
  | cons r recs ih =>
    intro fpr acc rows h
    obtain ⟨line, record⟩ := r
    simp only [csv.readRecords] at h
    split at h
    · split at h
      · simp at h
      · have := ih _ _ _ h
        simp [this]
    · have := ih _ _ _ h
      simp [this]

/-- Records that all have the same number of fields pass the check of the reader. -/
theorem readRecords_uniform (recs : List (Nat × List String)) (n : Nat) :
    (∀ r ∈ recs, r.2.length = n) → ∀ (fpr : Nat) (acc : List (List String)),
      (fpr = 0 ∨ fpr = n) →
      csv.readRecords recs fpr acc = .ok (acc ++ recs.map Prod.snd) := by
  induction recs with
  | nil =>
    intro _ fpr acc _
    simp [csv.readRecords]
  | cons r recs ih =>
    intro h fpr acc hf
    obtain ⟨line, record⟩ := r
    have hr : record.length = n := h (line, record) (by simp)
    have hrest : ∀ r ∈ recs, r.2.length = n := fun r hm => h r (by simp [hm])
    simp only [csv.readRecords]
    split
    · rename_i hpos
      have hfn : fpr = n := by omega
      have hne : ¬ record.length ≠ fpr := by omega
      simp only [hne, if_false]
      rw [ih hrest fpr _ (Or.inr hfn)]
      simp
    · rw [ih hrest record.length _ (Or.inr hr)]
      simp

/-- Once the number of fields is set, every record the reader accepts has that number. -/
theorem readRecords_same (recs : List (Nat × List String)) :
    ∀ (fpr : Nat) (acc rows : List (List String)), 0 < fpr →
      csv.readRecords recs fpr acc = .ok rows → ∀ r ∈ recs, r.2.length = fpr := by
  induction recs with
  | nil =>
    intro fpr acc rows _ _ r hr
    simp at hr
  | cons r recs ih =>
    intro fpr acc rows hpos h x hx
    obtain ⟨line, record⟩ := r
    simp only [csv.readRecords, hpos, if_true] at h
    split at h
    · simp at h
    · rename_i hlen
      rcases List.mem_cons.mp hx with rfl | hx
      · simp only
        omega
      · exact ih fpr _ rows hpos h x hx

/-- The first record whose number of fields differs from that of the records before it ends
the reading with the error of the field count. -/
theorem readRecords_mismatch (pre : List (Nat × List String)) (line : Nat) (row : List String)
    (post : List (Nat × List String)) (n : Nat) (hn : 0 < n) (hrow : row.length ≠ n) :
    (∀ r ∈ pre, r.2.length = n) → ∀ acc : List (List String),
      csv.readRecords (pre ++ (line, row) :: post) n acc =
        .error (csv.fieldCountError line) := by
  induction pre with
  | nil =>
    intro _ acc
    rw [List.nil_append, csv.readRecords, if_pos hn, if_pos hrow]
  | cons r pre ih =>
    intro h acc
    obtain ⟨l, record⟩ := r
    have hr : record.length = n := h (l, record) (by simp)
    have hne : ¬ record.length ≠ n := by omega
    rw [List.cons_append, csv.readRecords, if_pos hn, if_neg hne]
    exact ih (fun r hm => h r (by simp [hm])) _

theorem ReadAll_ok (input : csv.Input) (rows : List (List String))
    (h : csv.ReadAll input = .ok rows) : rows = input.rows ∧ input.err = none := by
  unfold csv.ReadAll at h
  cases hr : csv.readRecords input.records 0 [] with
  | error err => simp [hr] at h
  | ok records =>
    rw [hr] at h
    cases he : input.err with
    | some err => simp [he] at h
    | none =>
      simp only [he, Except.ok.injEq] at h
      have := readRecords_ok input.records 0 [] records hr
      simp only [List.nil_append] at this
      exact ⟨by rw [← h, this]; rfl, rfl⟩

theorem ReadAll_ok_rows (input : csv.Input) (rows : List (List String))
    (h : csv.ReadAll input = .ok rows) : csv.ReadAll input = .ok input.rows := by
  rw [h, (ReadAll_ok input rows h).1]

/-- The reader accepts an input without a syntax error whose records all have the same
number of fields. -/
theorem ReadAll_uniform (input : csv.Input) (n : Nat) (herr : input.err = none)
    (h : ∀ row ∈ input.rows, row.length = n) : csv.ReadAll input = .ok input.rows := by
  have hu := readRecords_uniform input.records n
    (fun r hr => h r.2 (List.mem_map.mpr ⟨r, hr, rfl⟩)) 0 [] (Or.inl rfl)
  unfold csv.ReadAll
  rw [hu, herr]
  rfl

/-- The reader answers with an error or with all the rows of the input. -/
theorem ReadAll_cases (input : csv.Input) :
    (∃ err, csv.ReadAll input = .error err) ∨ csv.ReadAll input = .ok input.rows := by
  cases h : csv.ReadAll input with
  | error err => exact Or.inl ⟨err, rfl⟩
  | ok rows => exact Or.inr (by rw [← h]; exact ReadAll_ok_rows input rows h)

/-- In an input that the reader accepts, every row has as many fields as the first, when
that has any. -/
theorem ReadAll_ok_same (input : csv.Input) (first : List String) (rest : List (List String))
    (hrows : input.rows = first :: rest) (h : csv.ReadAll input = .ok input.rows)
    (hpos : 0 < first.length) : ∀ r ∈ rest, r.length = first.length := by
  unfold csv.ReadAll at h
  cases hrecs : input.records with
  | nil => simp [csv.Input.rows, hrecs] at hrows
  | cons r recs =>
    obtain ⟨line, record⟩ := r
    have hrows2 : input.rows = record :: recs.map Prod.snd := by
      simp [csv.Input.rows, hrecs]
    rw [hrows] at hrows2
    obtain ⟨h1, h2⟩ := List.cons.inj hrows2
    subst h1
    rw [hrecs, csv.readRecords, if_neg (Nat.lt_irrefl 0)] at h
    rw [List.nil_append] at h
    cases hr : csv.readRecords recs first.length [first] with
    | error err => simp [hr] at h
    | ok rows =>
      have hs := readRecords_same recs first.length _ rows hpos hr
      intro r hm
      rw [h2] at hm
      obtain ⟨x, hx, rfl⟩ := List.mem_map.mp hm
      exact hs x hx

/-- A record whose number of fields differs from that of the records before it makes the
reader fail, whatever comes after it. -/
theorem ReadAll_mismatch (input : csv.Input) (pre : List (Nat × List String)) (line : Nat)
    (row : List String) (post : List (Nat × List String)) (n : Nat)
    (hrecs : input.records = pre ++ (line, row) :: post) (hne : pre ≠ []) (hn : 0 < n)
    (hpre : ∀ r ∈ pre, r.2.length = n) (hrow : row.length ≠ n) :
    csv.ReadAll input = .error (csv.fieldCountError line) := by
  cases pre with
  | nil => exact absurd rfl hne
  | cons r pre =>
    obtain ⟨l, record⟩ := r
    have hr : record.length = n := hpre (l, record) (by simp)
    unfold csv.ReadAll
    rw [hrecs, List.cons_append, csv.readRecords, if_neg (Nat.lt_irrefl 0), hr,
      readRecords_mismatch pre line row post n hn hrow (fun r hm => hpre r (by simp [hm]))]

theorem ParseDecklistCSV_of_error (Quote : String → String) (input : csv.Input) (err : String)
    (h : csv.ReadAll input = .error err) :
    ParseDecklistCSV Quote (csv.ReadAll input) = .error ("failed to read CSV: " ++ err) := by
  rw [h]
  rfl

theorem ParseDecklistCSV_of_ok (Quote : String → String) (input : csv.Input)
    (h : csv.ReadAll input = .ok input.rows) :
    ParseDecklistCSV Quote (csv.ReadAll input) = parseRecords Quote input.rows 0 [] := by
  rw [h]
  rfl

theorem ParseDecklistCSV_after_valid_rows (Quote : String → String) (input : csv.Input)
    (pre post : List (List String)) (row : List String)
    (hrows : input.rows = pre ++ row :: post) (hpre : ∀ r ∈ pre, ValidRow r)
    (h : csv.ReadAll input = .ok input.rows) :
    ParseDecklistCSV Quote (csv.ReadAll input) =
      parseRecords Quote (row :: post) pre.length (pre.map rowEntry) := by
  rw [ParseDecklistCSV_of_ok Quote input h, hrows]
  have := parseRecords_append Quote pre (row :: post) 0 [] (fun r hr => (hpre r hr).passes)
  simpa using this

/-- C3, as stated, fails. The rows after row k are examined, by the CSV reader, before any
row is validated: the row `1,Lightning Bolt,BADID` alone gives the error that names row 1 and
the identifier, and the same row followed by a row of two fields gives the error of the
reader, which names neither. -/
theorem ParseDecklistCSV_identifier_error_masked :
    HasValidQuantity ["1", "Lightning Bolt", "BADID"] ∧ ¬ IsScryfallID "BADID" ∧
    ParseDecklistCSV id (csv.ReadAll
        { records := [(1, ["1", "Lightning Bolt", "BADID"])] }) =
      .error "invalid Scryfall ID format 'BADID' at line 1" ∧
    ParseDecklistCSV id (csv.ReadAll
        { records := [(1, ["1", "Lightning Bolt", "BADID"]),
            (2, ["Black Lotus", "b6a5b3b0-2b4b-4c4b-8b2b-2b2b2b2b2b2b"])] }) =
      .error "failed to read CSV: record on line 2: wrong number of fields" := by
  refine ⟨⟨1, by decide, by decide⟩, ?_, by decide, by decide⟩
  intro h
  exact absurd ((MatchString_iff _).mpr h) (by decide)

/-- C3, amended. Let row k be the first invalid row, the rows before it being valid, and let
it have a valid quantity and a third field that is not in the 8-4-4-4-12 lowercase-hex format.
Then `ParseDecklistCSV` fails, so no decklist is returned. When the CSV reader accepts the
input, the message is `invalid Scryfall ID format '<field>' at line <k>`
(`k = pre.length + 1`), and the result is the same for every accepted input that agrees with
this one up to row k: the validation does not examine the rows after row k. The reader
examines every row first, and when it rejects the input, also for a row after row k, the
message is `failed to read CSV: ` followed by the error of the reader. -/
theorem ParseDecklistCSV_bad_identifier (Quote : String → String) (input : csv.Input)
    (pre post : List (List String)) (row : List String)
    (hrows : input.rows = pre ++ row :: post)
    (hpre : ∀ r ∈ pre, ValidRow r) (hlen : 3 ≤ row.length) (hq : HasValidQuantity row)
    (hid : ¬ IsScryfallID (row.getD 2 "")) :
    (∃ msg, ParseDecklistCSV Quote (csv.ReadAll input) = .error msg) ∧
    (csv.ReadAll input = .ok input.rows →
      ParseDecklistCSV Quote (csv.ReadAll input) =
        .error ("invalid Scryfall ID format '" ++ row.getD 2 "" ++ "' at line "
          ++ toString (pre.length + 1))) ∧
    (∀ (input2 : csv.Input) (post2 : List (List String)),
      input2.rows = pre ++ row :: post2 →
      csv.ReadAll input = .ok input.rows → csv.ReadAll input2 = .ok input2.rows →
      ParseDecklistCSV Quote (csv.ReadAll input2) =
        ParseDecklistCSV Quote (csv.ReadAll input)) ∧
    (∀ err, csv.ReadAll input = .error err →
      ParseDecklistCSV Quote (csv.ReadAll input) = .error ("failed to read CSV: " ++ err)) ∧
    ((∃ err, csv.ReadAll input = .error err) ∨ csv.ReadAll input = .ok input.rows) ∧
    (input.err = none → (∀ r ∈ input.rows, r.length = 3) →
      csv.ReadAll input = .ok input.rows) := by
  have key : ∀ (inp : csv.Input) (rest : List (List String)),
      inp.rows = pre ++ row :: rest → csv.ReadAll inp = .ok inp.rows →
      ParseDecklistCSV Quote (csv.ReadAll inp) =
        .error ("invalid Scryfall ID format '" ++ row.getD 2 "" ++ "' at line "
          ++ toString (pre.length + 1)) := by
    intro inp rest hr hok
    obtain ⟨q, he, hpos⟩ := hq
    have h1 : ¬ row.length < 3 := by omega
    have h2 : ¬ q ≤ 0 := by omega
    have hm : scryfallIDRegex_MatchString (row.getD 2 "") = false := by
      cases hb : scryfallIDRegex_MatchString (row.getD 2 "") with
      | false => rfl
      | true => exact absurd ((MatchString_iff _).mp hb) hid
    rw [ParseDecklistCSV_after_valid_rows Quote inp pre rest row hr hpre hok, parseRecords]
    simp only [h1, if_false, he, h2, hm, Bool.not_false, if_true]
  refine ⟨?_, key input post hrows, ?_, ParseDecklistCSV_of_error Quote input,
    ReadAll_cases input, ReadAll_uniform input 3⟩
  · rcases ReadAll_cases input with ⟨err, he⟩ | hok
    · exact ⟨_, ParseDecklistCSV_of_error Quote input err he⟩
    · exact ⟨_, key input post hrows hok⟩
  · intro input2 post2 hr2 hok hok2
    rw [key input2 post2 hr2 hok2, key input post hrows hok]

theorem ParseDecklistCSV_bad_identifier_witness :
    ParseDecklistCSV id (csv.ReadAll
        { records := [(1, ["1", "Lightning Bolt", "a65e485b-03a2-4634-9218-f5bb7c104d41"]),
            (2, ["2", "Black Lotus", "B6A5B3B0-2B4B-4C4B-8B2B-2B2B2B2B2B2B"]),
            (3, ["x", "y", "z"])] }) =
      .error "invalid Scryfall ID format 'B6A5B3B0-2B4B-4C4B-8B2B-2B2B2B2B2B2B' at line 2" := by
  have hv : ∀ r ∈ [["1", "Lightning Bolt", "a65e485b-03a2-4634-9218-f5bb7c104d41"]],
      ValidRow r := by
    intro r hr
    simp only [List.mem_singleton] at hr
    subst hr
    exact ⟨rfl, ⟨1, by decide, by decide⟩, (MatchString_iff _).mp (by decide)⟩
  have hid : ¬ IsScryfallID
      (["2", "Black Lotus", "B6A5B3B0-2B4B-4C4B-8B2B-2B2B2B2B2B2B"].getD 2 "") := by
    intro h
    exact absurd ((MatchString_iff _).mpr h) (by decide)
  have := (ParseDecklistCSV_bad_identifier id
    { records := [(1, ["1", "Lightning Bolt", "a65e485b-03a2-4634-9218-f5bb7c104d41"]),
        (2, ["2", "Black Lotus", "B6A5B3B0-2B4B-4C4B-8B2B-2B2B2B2B2B2B"]),
        (3, ["x", "y", "z"])] }
    [["1", "Lightning Bolt", "a65e485b-03a2-4634-9218-f5bb7c104d41"]] [["x", "y", "z"]]
    ["2", "Black Lotus", "B6A5B3B0-2B4B-4C4B-8B2B-2B2B2B2B2B2B"] rfl hv (by decide)
    ⟨2, by decide, by decide⟩ hid).2.1 (by decide)
  rw [this]
  decide

/-- Identifiers the pattern rejects: uppercase hexadecimal digits, a group of the wrong
length, a leading or a trailing extra character (a trailing line feed included), a letter
past `f`. -/
theorem IsScryfallID_rejects :
    ¬ IsScryfallID "A65E485B-03A2-4634-9218-F5BB7C104D41" ∧
    ¬ IsScryfallID "a65e485-03a2-4634-9218-f5bb7c104d41" ∧
    ¬ IsScryfallID " a65e485b-03a2-4634-9218-f5bb7c104d41" ∧
    ¬ IsScryfallID "a65e485b-03a2-4634-9218-f5bb7c104d41\n" ∧
    ¬ IsScryfallID "a65e485b-03a2-4634-9218-f5bb7c104d41a" ∧
    ¬ IsScryfallID "g65e485b-03a2-4634-9218-f5bb7c104d41" ∧
    ¬ IsScryfallID "invalid-id" := by
  refine ⟨?_, ?_, ?_, ?_, ?_, ?_, ?_⟩ <;>
    exact fun h => absurd ((MatchString_iff _).mpr h) (by decide)

/-- C4, as stated, fails: a single row of 4 fields whose first and third fields are valid is
read by the CSV reader as one record of 4 fields and accepted, its fourth field being
ignored. -/
theorem ParseDecklistCSV_accepts_four_fields :
    ["1", "Lightning Bolt", "a65e485b-03a2-4634-9218-f5bb7c104d41", "extra"].length = 4 ∧
    ParseDecklistCSV id (csv.ReadAll
        { records :=
            [(1, ["1", "Lightning Bolt", "a65e485b-03a2-4634-9218-f5bb7c104d41", "extra"])] }) =
      .ok { Cards := [{ Qty := 1, ID := "a65e485b-03a2-4634-9218-f5bb7c104d41" }] } := by
  decide

/-- C4, amended. An input containing a row with fewer than 3 fields makes `ParseDecklistCSV`
fail; when the CSV reader accepts such an input, all its rows have fewer than 3 fields and the
message is `invalid CSV format at line 1: expected 3 fields, got <n>`. The check of the loop
is `len(record) < 3`, so more than 3 fields are not rejected: an input without a syntax error
whose rows all have the same number `n >= 3` of fields, a quantity greater than 0 and a
well-formed third field is parsed from the first and third field of each row. What is
rejected, by the CSV reader, is a row whose number of fields differs from that of the rows
before it, whether it has fewer than 3 fields or not: the message is then
`failed to read CSV: record on line <l>: wrong number of fields`. -/
theorem ParseDecklistCSV_field_count (Quote : String → String) (input : csv.Input) :
    ((∃ row ∈ input.rows, row.length < 3) →
      ∃ msg, ParseDecklistCSV Quote (csv.ReadAll input) = .error msg) ∧
    (∀ (first : List String) (rest : List (List String)), input.rows = first :: rest →
      csv.ReadAll input = .ok input.rows → (∃ row ∈ input.rows, row.length < 3) →
      ParseDecklistCSV Quote (csv.ReadAll input) =
        .error ("invalid CSV format at line 1: expected 3 fields, got "
          ++ toString first.length)) ∧
    (∀ n : Nat, 3 ≤ n → input.err = none →
      (∀ row ∈ input.rows,
        row.length = n ∧ HasValidQuantity row ∧ IsScryfallID (row.getD 2 "")) →
      ParseDecklistCSV Quote (csv.ReadAll input) = .ok { Cards := input.rows.map rowEntry }) ∧
    (∀ (pre : List (Nat × List String)) (line : Nat) (row : List String)
      (post : List (Nat × List String)) (n : Nat),
      input.records = pre ++ (line, row) :: post → pre ≠ [] → 0 < n →
      (∀ r ∈ pre, r.2.length = n) → row.length ≠ n →
      ParseDecklistCSV Quote (csv.ReadAll input) =
        .error ("failed to read CSV: record on line " ++ toString line
          ++ ": wrong number of fields")) := by
  have hfirst : ∀ (first : List String) (rest : List (List String)),
      input.rows = first :: rest → csv.ReadAll input = .ok input.rows →
      (∃ row ∈ input.rows, row.length < 3) → first.length < 3 := by
    intro first rest hrows hok hshort
    by_contra hlong
    have hsame := ReadAll_ok_same input first rest hrows hok (by omega)
    obtain ⟨row, hr, hlt⟩ := hshort
    rw [hrows] at hr
    rcases List.mem_cons.mp hr with rfl | hr
    · exact hlong hlt
    · have := hsame row hr
      omega
  refine ⟨?_, ?_, ?_, ?_⟩
  · intro hshort
    rcases ReadAll_cases input with ⟨err, he⟩ | hok
    · exact ⟨_, ParseDecklistCSV_of_error Quote input err he⟩
    · rw [ParseDecklistCSV_of_ok Quote input hok]
      exact parseRecords_short Quote input.rows 0 [] hshort
  · intro first rest hrows hok hshort
    have hlt := hfirst first rest hrows hok hshort
    rw [ParseDecklistCSV_of_ok Quote input hok, hrows, parseRecords]
    simp only [hlt, if_true]
    rfl
  · intro n hn herr h
    have hok := ReadAll_uniform input n herr (fun row hr => (h row hr).1)
    rw [ParseDecklistCSV_of_ok Quote input hok]
    have := parseRecords_valid Quote input.rows 0 []
      (fun row hr => ⟨by have := (h row hr).1; omega, (h row hr).2⟩)
    simpa using this
  · intro pre line row post n hrecs hne hn hpre hrow
    exact ParseDecklistCSV_of_error Quote input _
      (ReadAll_mismatch input pre line row post n hrecs hne hn hpre hrow)

theorem ParseDecklistCSV_field_count_witness :
    ParseDecklistCSV id (csv.ReadAll
        { records := [(1, ["Lightning Bolt", "a65e485b-03a2-4634-9218-f5bb7c104d41"])] }) =
      .error "invalid CSV format at line 1: expected 3 fields, got 2" := by
  have := (ParseDecklistCSV_field_count id
    { records := [(1, ["Lightning Bolt", "a65e485b-03a2-4634-9218-f5bb7c104d41"])] }).2.1
    ["Lightning Bolt", "a65e485b-03a2-4634-9218-f5bb7c104d41"] [] rfl (by decide)
    ⟨_, List.mem_singleton.mpr rfl, by decide⟩
  rw [this]
  decide

/-- Rows of 3 and of 4 fields in one input: the CSV reader rejects the input at the first
row whose number of fields is not that of the first row. -/
theorem ParseDecklistCSV_mixed_field_counts :
    ParseDecklistCSV id (csv.ReadAll
        { records := [(1, ["1", "Lightning Bolt", "a65e485b-03a2-4634-9218-f5bb7c104d41"]),
            (2, ["2", "Black Lotus", "b6a5b3b0-2b4b-4c4b-8b2b-2b2b2b2b2b2b", "extra"])] }) =
      .error "failed to read CSV: record on line 2: wrong number of fields" := by
  decide

/-! ## Theorems: the page count -/

theorem wrapInt_wrapInt (x : Int) : wrapInt (wrapInt x) = wrapInt x := by
  unfold wrapInt; omega

theorem wrapInt_add_left (a b : Int) : wrapInt (wrapInt a + b) = wrapInt (a + b) := by
  unfold wrapInt; omega

theorem wrapInt_add_right (a b : Int) : wrapInt (a + wrapInt b) = wrapInt (a + b) := by
  unfold wrapInt; omega

theorem wrapInt_of_fits (x : Int)
    (h : -9223372036854775808 ≤ x ∧ x < 9223372036854775808) : wrapInt x = x := by
  unfold wrapInt; omega

theorem CalculateTotalPages_foldl (cards : List CardEntry) :
    ∀ total : Int, wrapInt total = total →
      cards.foldl
        (fun total card =>
          if card.Card.CardFaces.length > 0 then
            wrapInt (total + wrapInt ((card.Card.CardFaces.length : Int) * card.Qty))
          else
            wrapInt (total + card.Qty))
        total = wrapInt (total + (cards.map entryPages).sum) := by
  induction cards with
  | nil => intro total h; simp [h]
  | cons card cards ih =>
    intro total _
    simp only [List.foldl_cons, List.map_cons, List.sum_cons]
    by_cases hf : card.Card.CardFaces.length > 0
    · simp only [hf, if_true, entryPages]
      rw [ih _ (wrapInt_wrapInt _)]
      generalize (card.Card.CardFaces.length : Int) * card.Qty = p
      generalize (cards.map entryPages).sum = rest
      unfold wrapInt
      omega
    · simp only [hf, if_false, entryPages]
      rw [ih _ (wrapInt_wrapInt _), wrapInt_add_left, Int.add_assoc]

theorem CalculateTotalPages_eq (decklist : Decklist) :
    CalculateTotalPages decklist = wrapInt ((decklist.Cards.map entryPages).sum) := by
  have := CalculateTotalPages_foldl decklist.Cards 0 (by decide)
  simpa [CalculateTotalPages] using this

/-- C5, amended. `CalculateTotalPages` is the sum, over the entries, of `Qty` for an entry
without faces and of faces times `Qty` for an entry with faces, in Go `int` arithmetic: the
sum wrapped to 64 bits, which is the exact sum whenever that lies within `int`. Hence it is 0
for the empty decklist, the `int` sum of the quantities when no entry has faces, and the count
of `A ++ B` is the `int` sum of the counts of `A` and of `B`, which is their exact sum
whenever that lies within `int`. -/
theorem CalculateTotalPages_additive :
    CalculateTotalPages { Cards := [] } = 0 ∧
    (∀ d : Decklist, CalculateTotalPages d = wrapInt ((d.Cards.map entryPages).sum)) ∧
    (∀ d : Decklist,
      -9223372036854775808 ≤ (d.Cards.map entryPages).sum ∧
        (d.Cards.map entryPages).sum < 9223372036854775808 →
      CalculateTotalPages d = (d.Cards.map entryPages).sum) ∧
    (∀ d : Decklist, (∀ card ∈ d.Cards, card.Card.CardFaces = []) →
      CalculateTotalPages d = wrapInt ((d.Cards.map (fun card => card.Qty)).sum)) ∧
    (∀ A B : List CardEntry,
      CalculateTotalPages { Cards := A ++ B } =
        wrapInt (CalculateTotalPages { Cards := A } + CalculateTotalPages { Cards := B })) ∧
    (∀ A B : List CardEntry,
      -9223372036854775808 ≤ CalculateTotalPages { Cards := A } +
          CalculateTotalPages { Cards := B } ∧
        CalculateTotalPages { Cards := A } + CalculateTotalPages { Cards := B } <
          9223372036854775808 →
      CalculateTotalPages { Cards := A ++ B } =
        CalculateTotalPages { Cards := A } + CalculateTotalPages { Cards := B }) := by
  have hadd : ∀ A B : List CardEntry,
      CalculateTotalPages { Cards := A ++ B } =
        wrapInt (CalculateTotalPages { Cards := A } + CalculateTotalPages { Cards := B }) := by
    intro A B
    simp only [CalculateTotalPages_eq, List.map_append, List.sum_append]
    rw [wrapInt_add_left, wrapInt_add_right]
  refine ⟨by decide, CalculateTotalPages_eq, ?_, ?_, hadd, ?_⟩
  · intro d h
    rw [CalculateTotalPages_eq, wrapInt_of_fits _ h]
  · intro d h
    rw [CalculateTotalPages_eq]
    congr 2
    apply List.map_congr_left
    intro card hc
    simp [entryPages, h card hc]
  · intro A B h
    rw [hadd, wrapInt_of_fits _ h]

theorem CalculateTotalPages_additive_witness :
    CalculateTotalPages { Cards := [{ Qty := 1, ID := "card1" }, { Qty := 3, ID := "card2" },
      { Qty := 2, ID := "card3", Card := { CardFaces := [{}, {}] } }] } = 8 := by
  have h := CalculateTotalPages_additive.2.2.1
    { Cards := [{ Qty := 1, ID := "card1" }, { Qty := 3, ID := "card2" },
      { Qty := 2, ID := "card3", Card := { CardFaces := [{}, {}] } }] }
    (by decide)
  rw [h]
  decide

/-- C5, as stated, fails. Beyond the range of `int` the count wraps: for two entries of
quantity `2^62`, quantities that `strconv.Atoi` accepts, the sum of the quantities is `2^63`
and `CalculateTotalPages` returns `-2^63`; the count of the two entries together is not the
sum of the counts of each. -/
theorem CalculateTotalPages_wraps :
    strconv.Atoi "4611686018427387904" = .ok 4611686018427387904 ∧
    (([{ Qty := 4611686018427387904, ID := "a" },
      { Qty := 4611686018427387904, ID := "b" }] : List CardEntry).map entryPages).sum =
        9223372036854775808 ∧
    CalculateTotalPages { Cards := [{ Qty := 4611686018427387904, ID := "a" },
      { Qty := 4611686018427387904, ID := "b" }] } = -9223372036854775808 ∧
    CalculateTotalPages { Cards := [{ Qty := 4611686018427387904, ID := "a" }] ++
        [{ Qty := 4611686018427387904, ID := "b" }] } ≠
      CalculateTotalPages { Cards := [{ Qty := 4611686018427387904, ID := "a" }] } +
        CalculateTotalPages { Cards := [{ Qty := 4611686018427387904, ID := "b" }] } := by
  decide

end deck

end DeckForge

/-! ## Theorems: what the loop of `GeneratePDF` depends on -/

namespace DeckForge

namespace scryfall

theorem FindCardByID_fst (env : Env) (id : String) (w w' : World) :
    (FindCardByID env id w).1 = (FindCardByID env id w').1 := by
  unfold FindCardByID
  repeat' split
  all_goals simp_all

theorem FindCardByID_files (env : Env) (id : String) (w : World) :
    (FindCardByID env id w).2.files = w.files := by
  unfold FindCardByID
  repeat' split
  all_goals simp_all

theorem DownloadImageFromURL_files (env : Env) (imageURL cacheKey cacheDir : String)
    (w w' : World) (h : w.files = w'.files) :
    (DownloadImageFromURL env imageURL cacheKey cacheDir w).1 =
        (DownloadImageFromURL env imageURL cacheKey cacheDir w').1 ∧
      (DownloadImageFromURL env imageURL cacheKey cacheDir w).2.files =
        (DownloadImageFromURL env imageURL cacheKey cacheDir w').2.files := by
  unfold DownloadImageFromURL
  simp only [World.exists, h]
  repeat' split
  all_goals simp_all

theorem DownloadCardImage_files (env : Env) (cardID cacheDir quality : String)
    (w w' : World) (h : w.files = w'.files) :
    (DownloadCardImage env cardID cacheDir quality w).1 =
        (DownloadCardImage env cardID cacheDir quality w').1 ∧
      (DownloadCardImage env cardID cacheDir quality w).2.files =
        (DownloadCardImage env cardID cacheDir quality w').2.files := by
  have h1 := FindCardByID_fst env cardID w w'
  have h2 := FindCardByID_files env cardID w
  have h3 := FindCardByID_files env cardID w'
  unfold DownloadCardImage
  rcases hF : FindCardByID env cardID w with ⟨res, v⟩
  rcases hF' : FindCardByID env cardID w' with ⟨res', v'⟩
  rw [hF, hF'] at h1
  rw [hF] at h2
  rw [hF'] at h3
  simp only at h1 h2 h3
  subst h1
  have hv : v.files = v'.files := by rw [h2, h3, h]
  cases res with
  | error err => simp [hv]
  | ok card =>
    simp only [World.exists, hv]
    repeat' split
    all_goals simp_all

end scryfall

namespace pdf

open progress (ProgressReporter)

theorem loadImage_files (env : Env) (ce : CardEntry) (cacheDir : String) (w w' : World)
    (h : w.files = w'.files) :
    (loadImage env ce cacheDir w).1 = (loadImage env ce cacheDir w').1 ∧
      (loadImage env ce cacheDir w).2.files = (loadImage env ce cacheDir w').2.files := by
  unfold loadImage
  split
  · exact scryfall.DownloadImageFromURL_files env _ _ _ w w' h
  · exact scryfall.DownloadCardImage_files env _ _ _ w w' h

theorem generatePage_files (env : Env) (g : Generator) (ce : CardEntry) (cacheDir : String)
    (w w' : World) (h : w.files = w'.files) :
    (g.generatePage env ce cacheDir w).1 = (g.generatePage env ce cacheDir w').1 ∧
      (g.generatePage env ce cacheDir w).2.files =
        (g.generatePage env ce cacheDir w').2.files := by
  obtain ⟨h1, h2⟩ := loadImage_files env ce cacheDir w w' h
  unfold Generator.generatePage
  rcases hL : loadImage env ce cacheDir w with ⟨res, v⟩
  rcases hL' : loadImage env ce cacheDir w' with ⟨res', v'⟩
  rw [hL, hL'] at h1 h2
  simp only at h1 h2
  subst h1
  cases res with
  | error err => simp [World.logEvent, h2]
  | ok imagePath =>
    simp only [GoPdf.Image, h2]
    repeat' split
    all_goals simp_all [World.logEvent]

theorem Run.Follows.trans {r s t : Run} {a b : Effect} (h1 : r.Follows s a)
    (h2 : s.Follows t b) : r.Follows t (a.append b) := by
  obtain ⟨p1, -, n1, e1⟩ := h1
  obtain ⟨p2, f2, n2, e2⟩ := h2
  refine ⟨by rw [p2, p1, List.append_assoc]; rfl, f2, fun h => n2 (n1 h), ?_⟩
  intro pr hpr
  obtain ⟨pr1, hs, he1, ht1⟩ := e1 pr hpr
  obtain ⟨pr2, ht, he2, ht2⟩ := e2 pr1 hs
  exact ⟨pr2, ht, by rw [he2, he1, List.append_assoc]; rfl, by rw [ht2, ht1]⟩

theorem Run.Follows.refl (r : Run) :
    r.Follows r { pages := [], errors := [], files := r.world.files } :=
  ⟨by simp, rfl, id, fun pr h => ⟨pr, h, by simp, rfl⟩⟩

theorem faceStep_follows (env : Env) (g : Generator) (cacheDir : String)
    (cardEntry : CardEntry) (r : Run) (face : scryfall.CardFace) :
    r.Follows (g.faceStep env cacheDir cardEntry r face)
      (g.faceEffect env cacheDir cardEntry r.world.files face) := by
  have hfiles : (r.UpdateStage ("Generating page: " ++ face.Name)).world.files =
      (World.ofFiles r.world.files).files := by
    rcases r with ⟨pages, progress, world⟩
    cases progress <;> simp [Run.UpdateStage, ProgressReporter.UpdateStage, World.ofFiles]
  have hD := generatePage_files env g (faceEntry cardEntry face) cacheDir _ _ hfiles
  simp only [Generator.faceStep, Generator.faceEffect]
  rcases hG : g.generatePage env (faceEntry cardEntry face) cacheDir
    (r.UpdateStage ("Generating page: " ++ face.Name)).world with ⟨res, v⟩
  rcases hG' : g.generatePage env (faceEntry cardEntry face) cacheDir
    (World.ofFiles r.world.files) with ⟨res', v'⟩
  rw [hG, hG'] at hD
  obtain ⟨h1, h2⟩ := hD
  simp only at h1 h2
  subst h1
  rcases r with ⟨pages, progress, world⟩
  cases progress with
  | none =>
    cases res with
    | error err =>
      simp [Run.Follows, Run.AddError, Run.UpdateStage, World.logEvent, h2]
    | ok facePage =>
      by_cases hlen : facePage.length > 0 <;>
        simp [Run.Follows, Run.UpdateStage, Run.appendCopies, h2, hlen]
  | some pr =>
    cases res with
    | error err =>
      simp [Run.Follows, Run.AddError, Run.UpdateStage, World.logEvent, h2,
        ProgressReporter.UpdateStage, ProgressReporter.AddError]
    | ok facePage =>
      by_cases hlen : facePage.length > 0 <;>
        simp [Run.Follows, Run.UpdateStage, Run.appendCopies, h2, hlen,
          ProgressReporter.UpdateStage]

theorem faces_follow (env : Env) (g : Generator) (cacheDir : String) (cardEntry : CardEntry)
    (faces : List scryfall.CardFace) :
    ∀ r : Run, r.Follows (faces.foldl (g.faceStep env cacheDir cardEntry) r)
      (g.facesEffect env cacheDir cardEntry faces r.world.files) := by
  induction faces with
  | nil =>
    intro r
    exact Run.Follows.refl r
  | cons face faces ih =>
    intro r
    have h1 := faceStep_follows env g cacheDir cardEntry r face
    have h2 := ih (g.faceStep env cacheDir cardEntry r face)
    rw [h1.2.1] at h2
    simpa [Generator.facesEffect] using h1.trans h2

theorem entryStep_follows (env : Env) (g : Generator) (cacheDir : String) (r : Run)
    (cardEntry : CardEntry) :
    r.Follows (g.entryStep env cacheDir r cardEntry)
      (g.entryEffect env cacheDir r.world.files cardEntry) := by
  have hu : ∀ d : String, r.Follows (r.UpdateStage d)
      { pages := [], errors := [], files := r.world.files } := by
    intro d
    rcases r with ⟨pages, progress, world⟩
    cases progress <;> simp [Run.Follows, Run.UpdateStage, ProgressReporter.UpdateStage]
  have hA := scryfall.FindCardByID_fst env cardEntry.ID
    (r.UpdateStage ("Fetching card: " ++ cardEntry.ID)).world (World.ofFiles r.world.files)
  have hB := scryfall.FindCardByID_files env cardEntry.ID
    (r.UpdateStage ("Fetching card: " ++ cardEntry.ID)).world
  rw [(hu _).2.1] at hB
  simp only [Generator.entryStep, Generator.entryEffect]
  rcases hF : scryfall.FindCardByID env cardEntry.ID
    (r.UpdateStage ("Fetching card: " ++ cardEntry.ID)).world with ⟨res, v⟩
  rcases hF' : scryfall.FindCardByID env cardEntry.ID (World.ofFiles r.world.files)
    with ⟨res', v'⟩
  rw [hF, hF'] at hA
  rw [hF] at hB
  simp only at hA hB
  subst hA
  cases res with
  | error err =>
    have h0 := hu ("Fetching card: " ++ cardEntry.ID)
    rcases r with ⟨pages, progress, world⟩
    cases progress <;>
      simp_all [Run.Follows, Run.AddError, Run.UpdateStage, World.logEvent,
        ProgressReporter.UpdateStage, ProgressReporter.AddError]
  | ok card =>
    simp only []
    by_cases hfaces : card.CardFaces.length > 0
    · simp only [hfaces, if_true]
      have h1 : r.Follows
          { r.UpdateStage ("Fetching card: " ++ cardEntry.ID) with world := v }
          { pages := [], errors := [], files := r.world.files } := by
        obtain ⟨a, -, c, d⟩ := hu ("Fetching card: " ++ cardEntry.ID)
        exact ⟨a, hB, c, d⟩
      have h2 := faces_follow env g cacheDir cardEntry card.CardFaces
        { r.UpdateStage ("Fetching card: " ++ cardEntry.ID) with world := v }
      simp only [hB] at h2
      simpa using h1.trans h2
    · simp only [hfaces, if_false]
      have hfiles : (Run.UpdateStage
          { r.UpdateStage ("Fetching card: " ++ cardEntry.ID) with world := v }
          ("Generating page: " ++ card.Name)).world.files =
          (World.ofFiles r.world.files).files := by
        rcases r with ⟨pages, progress, world⟩
        cases progress <;>
          simp_all [Run.UpdateStage, ProgressReporter.UpdateStage, World.ofFiles]
      have hD := generatePage_files env g { cardEntry with Card := card } cacheDir _ _ hfiles
      rcases hG : g.generatePage env { cardEntry with Card := card } cacheDir
        (Run.UpdateStage { r.UpdateStage ("Fetching card: " ++ cardEntry.ID) with world := v }
          ("Generating page: " ++ card.Name)).world with ⟨pres, u⟩
      rcases hG' : g.generatePage env { cardEntry with Card := card } cacheDir
        (World.ofFiles r.world.files) with ⟨pres', u'⟩
      rw [hG, hG'] at hD
      obtain ⟨h1, h2⟩ := hD
      simp only at h1 h2
      subst h1
      rcases r with ⟨pages, progress, world⟩
      cases progress with
      | none =>
        cases pres with
        | error err =>
          simp [Run.Follows, Run.AddError, Run.UpdateStage, World.logEvent, h2]
        | ok page =>
          by_cases hlen : page.length > 0 <;>
            simp [Run.Follows, Run.UpdateStage, Run.appendCopies, h2, hlen]
      | some pr =>
        cases pres with
        | error err =>
          simp [Run.Follows, Run.AddError, Run.UpdateStage, World.logEvent, h2,
            ProgressReporter.UpdateStage, ProgressReporter.AddError]
        | ok page =>
          by_cases hlen : page.length > 0 <;>
            simp [Run.Follows, Run.UpdateStage, Run.appendCopies, h2, hlen,
              ProgressReporter.UpdateStage]

theorem cards_follow (env : Env) (g : Generator) (cacheDir : String) (cards : List CardEntry) :
    ∀ r : Run, r.Follows (cards.foldl (g.entryStep env cacheDir) r)
      (g.cardsEffect env cacheDir cards r.world.files) := by
  induction cards with
  | nil =>
    intro r
    exact Run.Follows.refl r
  | cons cardEntry cards ih =>
    intro r
    have h1 := entryStep_follows env g cacheDir r cardEntry
    have h2 := ih (g.entryStep env cacheDir r cardEntry)
    rw [h1.2.1] at h2
    simpa [Generator.cardsEffect] using h1.trans h2

/-- The page list of a call of `GeneratePDF` is the page list its loop accumulates. -/
theorem GeneratePDF_pages_loop (env : Env) (g : Generator) (decklist : Decklist)
    (progress : Option ProgressReporter) (w : World)
    (hmk : env.MkdirAll ".card_cache" = none) :
    (g.GeneratePDF env decklist progress w).pages =
      (decklist.Cards.foldl (g.entryStep env ".card_cache")
        (startRun decklist progress w)).pages := by
  simp only [Generator.GeneratePDF, hmk]
  repeat' split
  all_goals simp [Run.UpdateStage]
  all_goals split <;> rfl

theorem GeneratePDF_pages_effect (env : Env) (g : Generator) (decklist : Decklist)
    (progress : Option ProgressReporter) (w : World)
    (hmk : env.MkdirAll ".card_cache" = none) :
    (g.GeneratePDF env decklist progress w).pages =
      (g.cardsEffect env ".card_cache" decklist.Cards w.files).pages := by
  rw [GeneratePDF_pages_loop env g decklist progress w hmk]
  have h := cards_follow env g ".card_cache" decklist.Cards (startRun decklist progress w)
  simpa [startRun] using h.1

theorem facePagesInOrder_effect (env : Env) (g : Generator) (cacheDir : String)
    (cardEntry : CardEntry) (faces : List scryfall.CardFace) :
    ∀ (files files' : List (String × Bytes)) (ps : List Bytes),
      g.facePagesInOrder env cacheDir cardEntry faces files = some (ps, files') →
      g.facesEffect env cacheDir cardEntry faces files =
        { pages := ps, errors := [], files := files' } := by
  induction faces with
  | nil =>
    intro files files' ps h
    simp only [Generator.facePagesInOrder, Option.some.injEq, Prod.mk.injEq] at h
    simp [Generator.facesEffect, h.1, h.2]
  | cons face faces ih =>
    intro files files' ps h
    simp only [Generator.facePagesInOrder] at h
    simp only [Generator.facesEffect, Generator.faceEffect]
    rcases hG : g.generatePage env (faceEntry cardEntry face) cacheDir (World.ofFiles files)
      with ⟨res, v⟩
    rw [hG] at h
    cases res with
    | error err => simp at h
    | ok facePage =>
      simp only at h
      by_cases hp : facePage = []
      · simp [hp] at h
      · simp only [hp, if_false] at h
        cases hrec : g.facePagesInOrder env cacheDir cardEntry faces v.files with
        | none => simp [hrec] at h
        | some pr =>
          obtain ⟨rest, fs⟩ := pr
          simp only [hrec, Option.some.injEq, Prod.mk.injEq] at h
          obtain ⟨rfl, rfl⟩ := h
          have hlen : facePage.length > 0 := List.length_pos.mpr hp
          simp [ih _ _ _ hrec, Effect.append, hlen]

theorem pagesInOrder_effect (env : Env) (g : Generator) (cacheDir : String)
    (cards : List CardEntry) :
    ∀ (files : List (String × Bytes)) (ps : List Bytes),
      g.pagesInOrder env cacheDir cards files = some ps →
      (g.cardsEffect env cacheDir cards files).pages = ps ∧
        (g.cardsEffect env cacheDir cards files).errors = [] := by
  induction cards with
  | nil =>
    intro files ps h
    simp only [Generator.pagesInOrder, Option.some.injEq] at h
    simp [Generator.cardsEffect, h]
  | cons cardEntry cards ih =>
    intro files ps h
    simp only [Generator.pagesInOrder] at h
    simp only [Generator.cardsEffect, Generator.entryEffect]
    rcases hF : scryfall.FindCardByID env cardEntry.ID (World.ofFiles files) with ⟨res, v⟩
    rw [hF] at h
    cases res with
    | error err => simp at h
    | ok card =>
      simp only at h
      by_cases hfaces : card.CardFaces = []
      · have hlen0 : ¬ card.CardFaces.length > 0 := by simp [hfaces]
        simp only [hfaces, if_true] at h
        simp only [hlen0, if_false]
        rcases hG : g.generatePage env { cardEntry with Card := card } cacheDir
          (World.ofFiles files) with ⟨pres, u⟩
        rw [hG] at h
        cases pres with
        | error err => simp at h
        | ok page =>
          simp only at h
          by_cases hp : page = []
          · simp [hp] at h
          · simp only [hp, if_false] at h
            cases hrec : g.pagesInOrder env cacheDir cards u.files with
            | none => simp [hrec] at h
            | some rest =>
              simp only [hrec, Option.some.injEq] at h
              subst h
              have hlen : page.length > 0 := List.length_pos.mpr hp
              obtain ⟨h1, h2⟩ := ih _ _ hrec
              simp [Effect.append, hlen, h1, h2]
      · have hlen1 : card.CardFaces.length > 0 := List.length_pos.mpr hfaces
        simp only [hfaces, if_false] at h
        simp only [hlen1, if_true]
        cases hfp : g.facePagesInOrder env cacheDir cardEntry card.CardFaces files with
        | none => simp [hfp] at h
        | some pr =>
          obtain ⟨facePages, fs⟩ := pr
          simp only [hfp] at h
          cases hrec : g.pagesInOrder env cacheDir cards fs with
          | none => simp [hrec] at h
          | some rest =>
            simp only [hrec, Option.some.injEq] at h
            subst h
            obtain ⟨h1, h2⟩ := ih _ _ hrec
            simp [facePagesInOrder_effect env g cacheDir cardEntry _ _ _ _ hfp, Effect.append,
              h1, h2]

/-! ## Theorems: the pages `GeneratePDF` assembles -/

theorem Run.UpdateStage_pages (r : Run) (description : String) :
    (r.UpdateStage description).pages = r.pages := by
  rcases r with ⟨pages, progress, world⟩
  cases progress <;> rfl

theorem Run.UpdateStage_files (r : Run) (description : String) :
    (r.UpdateStage description).world.files = r.world.files := by
  rcases r with ⟨pages, progress, world⟩
  cases progress <;> rfl

/-- The assembly loop, when every page has bytes and is imported without error, appends
one call of `ImportPagesFromSource` per page, in the order of the pages. -/
theorem importPages_ok (env : Env) (pages : List Bytes) :
    ∀ pdf : GoPdf, (∀ b ∈ pages, b ≠ [] ∧ env.ImportPagesFromSource b = none) →
      importPages env pages pdf =
        .ok { pdf with
          ops := pdf.ops ++ pages.map (fun b => PdfOp.ImportPagesFromSource b "/MediaBox") } := by
  induction pages with
  | nil =>
    intro pdf _
    simp [importPages]
  | cons b pages ih =>
    intro pdf h
    obtain ⟨hb, hi⟩ := h b (by simp)
    have hlen : ¬ b.length = 0 := by
      intro h0
      exact hb (List.length_eq_zero.mp h0)
    rw [importPages, if_neg hlen, hi]
    simp only
    rw [ih _ (fun x hx => h x (by simp [hx]))]
    simp [GoPdf.call]

/-- The assembly loop stops at the first page whose import fails, and returns the error of
that import. -/
theorem importPages_error (env : Env) (pre : List Bytes) (b : Bytes) (post : List Bytes)
    (err : String) (hb : b ≠ []) (hi : env.ImportPagesFromSource b = some err) :
    ∀ pdf : GoPdf, (∀ x ∈ pre, x ≠ [] ∧ env.ImportPagesFromSource x = none) →
      importPages env (pre ++ b :: post) pdf = .error err := by
  induction pre with
  | nil =>
    intro pdf _
    have hlen : ¬ b.length = 0 := by
      intro h0
      exact hb (List.length_eq_zero.mp h0)
    rw [List.nil_append, importPages, if_neg hlen, hi]
  | cons x pre ih =>
    intro pdf h
    obtain ⟨hx, hxi⟩ := h x (by simp)
    have hlen : ¬ x.length = 0 := by
      intro h0
      exact hx (List.length_eq_zero.mp h0)
    rw [List.cons_append, importPages, if_neg hlen, hxi]
    exact ih _ (fun y hy => h y (by simp [hy]))

theorem importPages_start (env : Env) (g : Generator) (pages : List Bytes)
    (h : ∀ b ∈ pages, b ≠ [] ∧ env.ImportPagesFromSource b = none) :
    importPages env pages (GoPdf.Start (g.TotalWidth, g.TotalHeight)) =
      .ok (g.assembled pages) := by
  rw [importPages_ok env pages _ h]
  simp [GoPdf.Start, Generator.assembled]

/-- The output document for a list of pages that are each a source of one page has as many
physical pages as the list has entries. -/
theorem assembled_numPages (g : Generator) (sourcePages : Bytes → Nat) (pages : List Bytes)
    (h : ∀ b ∈ pages, sourcePages b = 1) :
    (g.assembled pages).numPages sourcePages = pages.length := by
  simp only [GoPdf.numPages, Generator.assembled, List.map_map]
  induction pages with
  | nil => rfl
  | cons b pages ih =>
    simp only [List.map_cons, List.sum_cons, Function.comp, List.length_cons,
      h b (by simp)]
    rw [ih (fun x hx => h x (by simp [hx]))]
    omega

/-- What `GeneratePDF` does after its loop, when the loop accumulated pages. -/
theorem GeneratePDF_after_loop (env : Env) (g : Generator) (decklist : Decklist)
    (progress : Option ProgressReporter) (w : World)
    (hmk : env.MkdirAll ".card_cache" = none)
    (hne : (g.afterLoop env decklist progress w).pages ≠ []) :
    (∀ err, importPages env (g.afterLoop env decklist progress w).pages
        (GoPdf.Start (g.TotalWidth, g.TotalHeight)) = .error err →
      (g.GeneratePDF env decklist progress w).err = some err ∧
      (g.GeneratePDF env decklist progress w).world.files =
        (g.afterLoop env decklist progress w).world.files) ∧
    (∀ pdf, importPages env (g.afterLoop env decklist progress w).pages
        (GoPdf.Start (g.TotalWidth, g.TotalHeight)) = .ok pdf →
      (∀ err, env.WritePdf pdf g.outputPath = .error err →
        (g.GeneratePDF env decklist progress w).err = some err ∧
        (g.GeneratePDF env decklist progress w).world.files =
          (g.afterLoop env decklist progress w).world.files) ∧
      (∀ bytes, env.WritePdf pdf g.outputPath = .ok bytes →
        (g.GeneratePDF env decklist progress w).err = none ∧
        (g.GeneratePDF env decklist progress w).world.files =
          (g.outputPath, bytes) :: (g.afterLoop env decklist progress w).world.files)) := by
  have h0 : ¬ (g.afterLoop env decklist progress w).pages.length = 0 := by
    intro h
    exact hne (List.length_eq_zero.mp h)
  unfold Generator.afterLoop at h0 ⊢
  simp only [Generator.GeneratePDF, hmk, h0, if_false]
  generalize decklist.Cards.foldl (g.entryStep env ".card_cache")
    (startRun decklist progress w) = L
  rw [Run.UpdateStage_pages]
  refine ⟨?_, ?_⟩
  · intro err hI
    rw [hI]
    exact ⟨rfl, Run.UpdateStage_files L _⟩
  · intro pdf hI
    rw [hI]
    refine ⟨?_, ?_⟩
    · intro err hW
      simp [hW, Run.UpdateStage_files]
    · intro bytes hW
      simp [hW, Run.UpdateStage_files]

theorem facePagesInOrder_nonempty (env : Env) (g : Generator) (cacheDir : String)
    (cardEntry : CardEntry) (faces : List scryfall.CardFace) :
    ∀ (files : List (String × Bytes)) (ps : List Bytes) (fs : List (String × Bytes)),
      g.facePagesInOrder env cacheDir cardEntry faces files = some (ps, fs) →
      ∀ b ∈ ps, b ≠ [] := by
  induction faces with
  | nil =>
    intro files ps fs h b hb
    simp only [Generator.facePagesInOrder, Option.some.injEq, Prod.mk.injEq] at h
    rw [← h.1] at hb
    simp at hb
  | cons face faces ih =>
    intro files ps fs h b hb
    simp only [Generator.facePagesInOrder] at h
    rcases hG : g.generatePage env (faceEntry cardEntry face) cacheDir (World.ofFiles files)
      with ⟨pres, u⟩
    rw [hG] at h
    cases pres with
    | error err => simp at h
    | ok facePage =>
      simp only at h
      by_cases hp : facePage = []
      · simp [hp] at h
      · simp only [hp, if_false] at h
        cases hrec : g.facePagesInOrder env cacheDir cardEntry faces u.files with
        | none => simp [hrec] at h
        | some pr =>
          obtain ⟨rest, fs2⟩ := pr
          simp only [hrec, Option.some.injEq, Prod.mk.injEq] at h
          rw [← h.1] at hb
          rcases List.mem_append.mp hb with hb | hb
          · rw [(List.mem_replicate.mp hb).2]
            exact hp
          · exact ih _ _ _ hrec b hb

/-- Every page of the expected page list has bytes. -/
theorem pagesInOrder_nonempty (env : Env) (g : Generator) (cacheDir : String)
    (cards : List CardEntry) :
    ∀ (files : List (String × Bytes)) (ps : List Bytes),
      g.pagesInOrder env cacheDir cards files = some ps → ∀ b ∈ ps, b ≠ [] := by
  induction cards with
  | nil =>
    intro files ps h b hb
    simp only [Generator.pagesInOrder, Option.some.injEq] at h
    rw [← h] at hb
    simp at hb
  | cons cardEntry cards ih =>
    intro files ps h b hb
    simp only [Generator.pagesInOrder] at h
    rcases hF : scryfall.FindCardByID env cardEntry.ID (World.ofFiles files) with ⟨res, v⟩
    rw [hF] at h
    cases res with
    | error err => simp at h
    | ok card =>
      simp only at h
      by_cases hfaces : card.CardFaces = []
      · simp only [hfaces, if_true] at h
        rcases hG : g.generatePage env { cardEntry with Card := card } cacheDir
          (World.ofFiles files) with ⟨pres, u⟩
        rw [hG] at h
        cases pres with
        | error err => simp at h
        | ok page =>
          simp only at h
          by_cases hp : page = []
          · simp [hp] at h
          · simp only [hp, if_false] at h
            cases hrec : g.pagesInOrder env cacheDir cards u.files with
            | none => simp [hrec] at h
            | some rest =>
              simp only [hrec, Option.some.injEq] at h
              rw [← h] at hb
              rcases List.mem_append.mp hb with hb | hb
              · rw [(List.mem_replicate.mp hb).2]
                exact hp
              · exact ih _ _ hrec b hb
      · simp only [hfaces, if_false] at h
        cases hfp : g.facePagesInOrder env cacheDir cardEntry card.CardFaces files with
        | none => simp [hfp] at h
        | some pr =>
          obtain ⟨facePages, fs⟩ := pr
          simp only [hfp] at h
          cases hrec : g.pagesInOrder env cacheDir cards fs with
          | none => simp [hrec] at h
          | some rest =>
            simp only [hrec, Option.some.injEq] at h
            rw [← h] at hb
            rcases List.mem_append.mp hb with hb | hb
            · exact facePagesInOrder_nonempty env g cacheDir cardEntry _ _ _ _ hfp b hb
            · exact ih _ _ hrec b hb

/-- The output of a run whose loop accumulated the pages `ps`, each with bytes: when every
page is imported without error, the document that is written holds one import per page, in
the order of the pages, and the written bytes become the file at the output path; the first
failing import, or a failing write, is the returned error, and nothing is written. -/
theorem GeneratePDF_output (env : Env) (g : Generator) (decklist : Decklist)
    (progress : Option ProgressReporter) (w : World) (ps : List Bytes)
    (hmk : env.MkdirAll ".card_cache" = none)
    (hpages : (g.GeneratePDF env decklist progress w).pages = ps)
    (hbytes : ∀ b ∈ ps, b ≠ []) :
    (ps ≠ [] → (∀ b ∈ ps, env.ImportPagesFromSource b = none) →
      (∀ bytes, env.WritePdf (g.assembled ps) g.outputPath = .ok bytes →
        (g.GeneratePDF env decklist progress w).err = none ∧
        (g.GeneratePDF env decklist progress w).world.files.lookup g.outputPath = some bytes ∧
        (g.GeneratePDF env decklist progress w).world.files =
          (g.outputPath, bytes) :: (g.afterLoop env decklist progress w).world.files) ∧
      (∀ err, env.WritePdf (g.assembled ps) g.outputPath = .error err →
        (g.GeneratePDF env decklist progress w).err = some err ∧
        (g.GeneratePDF env decklist progress w).world.files =
          (g.afterLoop env decklist progress w).world.files)) ∧
    (∀ (pre : List Bytes) (b : Bytes) (post : List Bytes) (err : String),
      ps = pre ++ b :: post → (∀ x ∈ pre, env.ImportPagesFromSource x = none) →
      env.ImportPagesFromSource b = some err →
      (g.GeneratePDF env decklist progress w).err = some err ∧
      (g.GeneratePDF env decklist progress w).world.files =
        (g.afterLoop env decklist progress w).world.files) := by
  have hp : (g.afterLoop env decklist progress w).pages = ps := by
    rw [← hpages, Generator.afterLoop]
    exact (GeneratePDF_pages_loop env g decklist progress w hmk).symm
  refine ⟨?_, ?_⟩
  · intro hne himp
    have hal := (GeneratePDF_after_loop env g decklist progress w hmk (by rw [hp]; exact hne)).2
      (g.assembled ps)
      (by rw [hp]; exact importPages_start env g ps (fun b hb => ⟨hbytes b hb, himp b hb⟩))
    refine ⟨?_, hal.1⟩
    intro bytes hW
    obtain ⟨h1, h2⟩ := hal.2 bytes hW
    refine ⟨h1, ?_, h2⟩
    rw [h2]
    simp [List.lookup]
  · intro pre b post err hsplit hpre hb
    have hne : ps ≠ [] := by
      rw [hsplit]
      simp
    refine (GeneratePDF_after_loop env g decklist progress w hmk (by rw [hp]; exact hne)).1
      err ?_
    rw [hp, hsplit]
    exact importPages_error env pre b post err (hbytes b (by rw [hsplit]; simp)) hb _
      (fun x hx => ⟨hbytes x (by rw [hsplit]; simp [hx]), hpre x hx⟩)

/-- C6. When the cache directory can be created and every card of the decklist is fetched and
rendered with non-empty page bytes, the page list `GeneratePDF` assembles is the concatenation,
in decklist order, of `Qty` consecutive copies of the page of each single-face card and, for a
multi-face card, of `Qty` consecutive copies of the page of each face in face order
(`pagesInOrder`), with or without a reporter. The assembly step imports exactly these pages,
in this order, into the output document: when every import succeeds, the document handed to
the writer holds one import per page of the list, in the order of the list, hence one
physical page per page of the list when each is a source of one page, and what the writer
makes of it is the file at the output path; when an import or the write fails, that error is
returned and no file is written. In particular two single-face rows of quantities 1 and 2
give exactly 3 pages: the page of row 1, then the page of row 2 twice. -/
theorem GeneratePDF_pages_in_order (env : Env) (g : Generator) (decklist : Decklist)
    (progress : Option ProgressReporter) (w : World) (ps : List Bytes)
    (hmk : env.MkdirAll ".card_cache" = none)
    (hps : g.pagesInOrder env ".card_cache" decklist.Cards w.files = some ps) :
    (g.GeneratePDF env decklist progress w).pages = ps ∧
    (∀ b ∈ ps, b ≠ []) ∧
    (g.assembled ps).ops = ps.map (fun b => PdfOp.ImportPagesFromSource b "/MediaBox") ∧
    (∀ sourcePages : Bytes → Nat, (∀ b ∈ ps, sourcePages b = 1) →
      (g.assembled ps).numPages sourcePages = ps.length) ∧
    (ps ≠ [] → (∀ b ∈ ps, env.ImportPagesFromSource b = none) →
      (∀ bytes, env.WritePdf (g.assembled ps) g.outputPath = .ok bytes →
        (g.GeneratePDF env decklist progress w).err = none ∧
        (g.GeneratePDF env decklist progress w).world.files.lookup g.outputPath = some bytes ∧
        (g.GeneratePDF env decklist progress w).world.files =
          (g.outputPath, bytes) :: (g.afterLoop env decklist progress w).world.files) ∧
      (∀ err, env.WritePdf (g.assembled ps) g.outputPath = .error err →
        (g.GeneratePDF env decklist progress w).err = some err ∧
        (g.GeneratePDF env decklist progress w).world.files =
          (g.afterLoop env decklist progress w).world.files)) ∧
    (∀ (pre : List Bytes) (b : Bytes) (post : List Bytes) (err : String),
      ps = pre ++ b :: post → (∀ x ∈ pre, env.ImportPagesFromSource x = none) →
      env.ImportPagesFromSource b = some err →
      (g.GeneratePDF env decklist progress w).err = some err ∧
      (g.GeneratePDF env decklist progress w).world.files =
        (g.afterLoop env decklist progress w).world.files) ∧
    ∀ (e1 e2 : CardEntry) (c1 c2 : scryfall.Card), decklist.Cards = [e1, e2] →
      e1.Qty = 1 → e2.Qty = 2 →
      (scryfall.FindCardByID env e1.ID w).1 = .ok c1 → c1.CardFaces = [] →
      (scryfall.FindCardByID env e2.ID w).1 = .ok c2 → c2.CardFaces = [] →
      ∃ p1 p2 : Bytes,
        (g.generatePage env { e1 with Card := c1 } ".card_cache" w).1 = .ok p1 ∧
        (g.generatePage env { e2 with Card := c2 } ".card_cache"
          (g.generatePage env { e1 with Card := c1 } ".card_cache" w).2).1 = .ok p2 ∧
        (g.GeneratePDF env decklist progress w).pages = [p1, p2, p2] := by
  have hpages : (g.GeneratePDF env decklist progress w).pages = ps := by
    rw [GeneratePDF_pages_effect env g decklist progress w hmk]
    exact (pagesInOrder_effect env g ".card_cache" decklist.Cards w.files ps hps).1
  have hbytes := pagesInOrder_nonempty env g ".card_cache" decklist.Cards w.files ps hps
  have hout := GeneratePDF_output env g decklist progress w ps hmk hpages hbytes
  refine ⟨hpages, hbytes, rfl, fun sp h => assembled_numPages g sp ps h, hout.1, hout.2, ?_⟩
  intro e1 e2 c1 c2 hcards hq1 hq2 hf1 hc1 hf2 hc2
  rw [hpages]
  rw [hcards] at hps
  simp only [Generator.pagesInOrder] at hps
  have hf1' := scryfall.FindCardByID_fst env e1.ID (World.ofFiles w.files) w
  rw [hf1] at hf1'
  rcases hF1 : scryfall.FindCardByID env e1.ID (World.ofFiles w.files) with ⟨res1, v1⟩
  rw [hF1] at hps hf1'
  simp only at hf1'
  subst hf1'
  simp only [hc1, if_true] at hps
  have hg1 := generatePage_files env g { e1 with Card := c1 } ".card_cache"
    (World.ofFiles w.files) w rfl
  rcases hG1 : g.generatePage env { e1 with Card := c1 } ".card_cache" (World.ofFiles w.files)
    with ⟨pres1, u1⟩
  rw [hG1] at hps hg1
  cases pres1 with
  | error err => simp at hps
  | ok p1 =>
    simp only at hps hg1
    by_cases hp1 : p1 = []
    · simp [hp1] at hps
    · simp only [hp1, if_false] at hps
      have hf2' := scryfall.FindCardByID_fst env e2.ID (World.ofFiles u1.files) w
      rw [hf2] at hf2'
      rcases hF2 : scryfall.FindCardByID env e2.ID (World.ofFiles u1.files) with ⟨res2, v2⟩
      rw [hF2] at hps hf2'
      simp only at hf2'
      subst hf2'
      simp only [hc2, if_true] at hps
      have hg2 := generatePage_files env g { e2 with Card := c2 } ".card_cache"
        (World.ofFiles u1.files) (g.generatePage env { e1 with Card := c1 } ".card_cache" w).2
        (by rw [← hg1.2]; rfl)
      rcases hG2 : g.generatePage env { e2 with Card := c2 } ".card_cache"
        (World.ofFiles u1.files) with ⟨pres2, u2⟩
      rw [hG2] at hps hg2
      cases pres2 with
      | error err => simp at hps
      | ok p2 =>
        simp only at hps hg2
        by_cases hp2 : p2 = []
        · simp [hp2] at hps
        · simp only [hp2, if_false, Option.some.injEq, hq1, hq2] at hps
          refine ⟨p1, p2, hg1.1.symm, hg2.1.symm, ?_⟩
          rw [← hps]
          rfl

theorem GeneratePDF_pages_in_order_witness :
    (exampleGenerator.GeneratePDF exampleEnv
        { Cards := [{ Qty := 1, ID := "bolt" }, { Qty := 2, ID := "lotus" }] } (some {}) {}).pages
      = [[0, 0, 0, 10], [0, 0, 0, 20], [0, 0, 0, 20]] ∧
    (exampleGenerator.GeneratePDF exampleEnv
        { Cards := [{ Qty := 1, ID := "bolt" }, { Qty := 2, ID := "lotus" }] } (some {})
        {}).world.files.lookup "deck.pdf" =
      some [0, 0, 0, 10, 0, 0, 0, 20, 0, 0, 0, 20] :=
  ⟨(GeneratePDF_pages_in_order exampleEnv exampleGenerator
      { Cards := [{ Qty := 1, ID := "bolt" }, { Qty := 2, ID := "lotus" }] } (some {}) {}
      [[0, 0, 0, 10], [0, 0, 0, 20], [0, 0, 0, 20]] (by decide) (by decide)).1,
    (((GeneratePDF_pages_in_order exampleEnv exampleGenerator
      { Cards := [{ Qty := 1, ID := "bolt" }, { Qty := 2, ID := "lotus" }] } (some {}) {}
      [[0, 0, 0, 10], [0, 0, 0, 20], [0, 0, 0, 20]] (by decide) (by decide)).2.2.2.2.1
        (by decide) (fun _ _ => rfl)).1 [0, 0, 0, 10, 0, 0, 0, 20, 0, 0, 0, 20] rfl).2.1⟩

/-! ## Theorems: failures while the loop runs -/

theorem GeneratePDF_err (env : Env) (g : Generator) (decklist : Decklist)
    (progress : Option ProgressReporter) (w : World)
    (hmk : env.MkdirAll ".card_cache" = none) :
    (g.GeneratePDF env decklist progress w).err =
      g.finishErr env (g.GeneratePDF env decklist progress w).pages := by
  simp only [Generator.GeneratePDF, hmk]
  generalize decklist.Cards.foldl (g.entryStep env ".card_cache")
    (startRun decklist progress w) = L
  have hU : (L.UpdateStage "Assembling PDF").pages = L.pages := Run.UpdateStage_pages L _
  by_cases h0 : L.pages.length = 0
  · simp [h0, Generator.finishErr]
  · simp only [h0, if_false, hU]
    cases hI : importPages env L.pages (GoPdf.Start (g.TotalWidth, g.TotalHeight)) with
    | error err => simp [Generator.finishErr, h0, hI]
    | ok pdf =>
      cases hW : env.WritePdf pdf g.outputPath with
      | error err => simp [Generator.finishErr, h0, hI, hW]
      | ok bytes => simp [Generator.finishErr, h0, hI, hW]

/-- The error records of the reporter after a call of `GeneratePDF` are those the loop
contributes. -/
theorem GeneratePDF_errors (env : Env) (g : Generator) (decklist : Decklist)
    (pr : ProgressReporter) (w : World) (hmk : env.MkdirAll ".card_cache" = none) :
    ∃ pr2, (g.GeneratePDF env decklist (some pr) w).progress = some pr2 ∧
      pr2.errors = (g.cardsEffect env ".card_cache" decklist.Cards w.files).errors := by
  have h := cards_follow env g ".card_cache" decklist.Cards (startRun decklist (some pr) w)
  obtain ⟨pr1, h1, h2, -⟩ := h.2.2.2 _ rfl
  simp only [ProgressReporter.StartUnified, List.nil_append] at h2
  simp only [Generator.GeneratePDF, hmk]
  repeat' split
  all_goals simp_all [Run.UpdateStage, ProgressReporter.UpdateStage, startRun]

theorem cardsEffect_append (env : Env) (g : Generator) (cacheDir : String)
    (pre post : List CardEntry) :
    ∀ files : List (String × Bytes),
      g.cardsEffect env cacheDir (pre ++ post) files =
        (g.cardsEffect env cacheDir pre files).append
          (g.cardsEffect env cacheDir post (g.cardsEffect env cacheDir pre files).files) := by
  induction pre with
  | nil => intro files; simp [Generator.cardsEffect, Effect.append]
  | cons e pre ih =>
    intro files
    simp [Generator.cardsEffect, Effect.append, ih]

theorem entryEffect_fetch_error (env : Env) (g : Generator) (cacheDir : String)
    (files : List (String × Bytes)) (cardEntry : CardEntry) (w : World) (msg : String)
    (hfail : (scryfall.FindCardByID env cardEntry.ID w).1 = .error msg) :
    g.entryEffect env cacheDir files cardEntry =
      { pages := [], errors := [cardEntry.ID ++ ": " ++ msg], files := files } := by
  have h := scryfall.FindCardByID_fst env cardEntry.ID (World.ofFiles files) w
  rw [hfail] at h
  simp only [Generator.entryEffect]
  rcases hF : scryfall.FindCardByID env cardEntry.ID (World.ofFiles files) with ⟨res, v⟩
  rw [hF] at h
  simp only at h
  subst h
  rfl

/-- C7. When the card-data fetch of an entry fails with message `msg`: the step of the loop
for that entry adds no page and, with a reporter, appends exactly the one record
`<ID>: <msg>` to its error list; the run on the whole decklist assembles the same pages, and
returns the same result, as the run on the decklist without that entry; and its error list is
that of the run without the entry with the one record inserted after the records of the rows
before the entry. -/
theorem GeneratePDF_skips_failed_fetch (env : Env) (g : Generator) (pre post : List CardEntry)
    (e : CardEntry) (progress : Option ProgressReporter) (w : World) (msg : String)
    (hmk : env.MkdirAll ".card_cache" = none)
    (hfail : (scryfall.FindCardByID env e.ID w).1 = .error msg) :
    (∀ r : Run, (g.entryStep env ".card_cache" r e).pages = r.pages ∧
      (g.entryStep env ".card_cache" r e).world.files = r.world.files ∧
      ∀ pr, r.progress = some pr →
        ∃ pr2, (g.entryStep env ".card_cache" r e).progress = some pr2 ∧
          pr2.errors = pr.errors ++ [e.ID ++ ": " ++ msg]) ∧
    (g.GeneratePDF env { Cards := pre ++ e :: post } progress w).pages =
      (g.GeneratePDF env { Cards := pre ++ post } progress w).pages ∧
    (g.GeneratePDF env { Cards := pre ++ e :: post } progress w).err =
      (g.GeneratePDF env { Cards := pre ++ post } progress w).err ∧
    (∀ pr, progress = some pr →
      ∃ (prA pr1 pr2 : ProgressReporter) (B : List String),
        (g.GeneratePDF env { Cards := pre } progress w).progress = some prA ∧
        (g.GeneratePDF env { Cards := pre ++ e :: post } progress w).progress = some pr1 ∧
        (g.GeneratePDF env { Cards := pre ++ post } progress w).progress = some pr2 ∧
        pr1.errors = prA.errors ++ [e.ID ++ ": " ++ msg] ++ B ∧
        pr2.errors = prA.errors ++ B) := by
  have hpages : (g.GeneratePDF env { Cards := pre ++ e :: post } progress w).pages =
      (g.GeneratePDF env { Cards := pre ++ post } progress w).pages := by
    rw [GeneratePDF_pages_effect env g _ progress w hmk,
      GeneratePDF_pages_effect env g _ progress w hmk]
    simp only [cardsEffect_append, Generator.cardsEffect,
      entryEffect_fetch_error env g ".card_cache" _ e w msg hfail, Effect.append,
      List.nil_append]
  refine ⟨?_, hpages, ?_, ?_⟩
  · intro r
    have h := entryStep_follows env g ".card_cache" r e
    rw [entryEffect_fetch_error env g ".card_cache" _ e w msg hfail] at h
    refine ⟨by simpa using h.1, h.2.1, ?_⟩
    intro pr hpr
    obtain ⟨pr2, h1, h2, -⟩ := h.2.2.2 pr hpr
    exact ⟨pr2, h1, h2⟩
  · rw [GeneratePDF_err env g _ progress w hmk, GeneratePDF_err env g _ progress w hmk, hpages]
  · intro pr hpr
    subst hpr
    obtain ⟨prA, hA, hAe⟩ := GeneratePDF_errors env g { Cards := pre } pr w hmk
    obtain ⟨pr1, h1, h1e⟩ := GeneratePDF_errors env g { Cards := pre ++ e :: post } pr w hmk
    obtain ⟨pr2, h2, h2e⟩ := GeneratePDF_errors env g { Cards := pre ++ post } pr w hmk
    refine ⟨prA, pr1, pr2,
      (g.cardsEffect env ".card_cache" post
        (g.cardsEffect env ".card_cache" pre w.files).files).errors, hA, h1, h2, ?_, ?_⟩
    · rw [h1e, hAe]
      simp only [cardsEffect_append, Generator.cardsEffect,
        entryEffect_fetch_error env g ".card_cache" _ e w msg hfail, Effect.append,
        List.append_assoc]
    · rw [h2e, hAe]
      simp only [cardsEffect_append, Effect.append]

theorem GeneratePDF_skips_failed_fetch_witness :
    (scryfall.FindCardByID exampleEnv "ghost" {}).1 = .error "Error: 404 Not Found" ∧
    (exampleGenerator.GeneratePDF exampleEnv
      { Cards := [{ Qty := 1, ID := "bolt" }] ++ { Qty := 4, ID := "ghost" } ::
        [{ Qty := 2, ID := "lotus" }] } (some {}) {}).pages =
    (exampleGenerator.GeneratePDF exampleEnv
      { Cards := [{ Qty := 1, ID := "bolt" }] ++ [{ Qty := 2, ID := "lotus" }] }
      (some {}) {}).pages :=
  ⟨by decide,
    (GeneratePDF_skips_failed_fetch exampleEnv exampleGenerator [{ Qty := 1, ID := "bolt" }]
      [{ Qty := 2, ID := "lotus" }] { Qty := 4, ID := "ghost" } (some {}) {}
      "Error: 404 Not Found" (by decide) (by decide)).2.1⟩

/-- The run of the example with the entry `ghost`, which the service does not know: three
pages from the two other rows, and one error record that bears the identifier. -/
theorem GeneratePDF_failed_fetch_example :
    (exampleGenerator.GeneratePDF exampleEnv
      { Cards := [{ Qty := 1, ID := "bolt" }, { Qty := 4, ID := "ghost" },
        { Qty := 2, ID := "lotus" }] } (some {}) {}).pages =
      [[0, 0, 0, 10], [0, 0, 0, 20], [0, 0, 0, 20]] ∧
    (exampleGenerator.GeneratePDF exampleEnv
      { Cards := [{ Qty := 1, ID := "bolt" }, { Qty := 4, ID := "ghost" },
        { Qty := 2, ID := "lotus" }] } (some {}) {}).progress =
      some { currentIndex := 6, totalOperations := 7,
             errors := ["ghost: Error: 404 Not Found"] } ∧
    (exampleGenerator.GeneratePDF exampleEnv
      { Cards := [{ Qty := 1, ID := "bolt" }, { Qty := 4, ID := "ghost" },
        { Qty := 2, ID := "lotus" }] } (some {}) {}).err = none := by
  decide

theorem imageFails_files (env : Env) (g : Generator) (ce : CardEntry) (cacheDir : String)
    (w w' : World) (h : w.files = w'.files) :
    g.imageFails env ce cacheDir w = g.imageFails env ce cacheDir w' := by
  obtain ⟨h1, h2⟩ := loadImage_files env ce cacheDir w w' h
  unfold Generator.imageFails
  rcases hL : loadImage env ce cacheDir w with ⟨res, v⟩
  rcases hL' : loadImage env ce cacheDir w' with ⟨res', v'⟩
  rw [hL, hL'] at h1 h2
  simp only at h1 h2
  subst h1
  cases res with
  | error err => rfl
  | ok imagePath => simp only [GoPdf.Image, h2]

/-- When the image download or embedding fails, `generatePage` returns what serialising the
canvas returns. -/
theorem generatePage_of_imageFails (env : Env) (g : Generator) (ce : CardEntry)
    (cacheDir : String) (w : World) (h : g.imageFails env ce cacheDir w = true) :
    (g.generatePage env ce cacheDir w).1 = env.GetBytesPdfReturnErr g.canvas := by
  unfold Generator.imageFails at h
  unfold Generator.generatePage
  rcases hL : loadImage env ce cacheDir w with ⟨res, v⟩
  rw [hL] at h
  cases res with
  | error err => rfl
  | ok imagePath =>
    simp only at h ⊢
    cases hI : g.canvas.Image env v imagePath g.ImagePosition.1 g.ImagePosition.2
      (CardWidth, CardHeight) with
    | error err => rfl
    | ok pdf => simp [hI] at h

theorem faceEffect_of_imageFails (env : Env) (g : Generator) (cacheDir : String)
    (cardEntry : CardEntry) (face : scryfall.CardFace) (w : World) (page : Bytes)
    (hser : env.GetBytesPdfReturnErr g.canvas = .ok page) (hne : page ≠ [])
    (h : g.imageFails env (faceEntry cardEntry face) cacheDir w = true) :
    (g.faceEffect env cacheDir cardEntry w.files face).pages =
        List.replicate cardEntry.Qty.toNat page ∧
      (g.faceEffect env cacheDir cardEntry w.files face).errors = [] := by
  have h' : g.imageFails env (faceEntry cardEntry face) cacheDir (World.ofFiles w.files) = true := by
    rw [← h]
    exact imageFails_files env g _ cacheDir _ _ rfl
  have hg := generatePage_of_imageFails env g _ cacheDir _ h'
  rw [hser] at hg
  simp only [Generator.faceEffect]
  rcases hG : g.generatePage env (faceEntry cardEntry face) cacheDir (World.ofFiles w.files)
    with ⟨res, v⟩
  rw [hG] at hg
  simp only at hg
  subst hg
  have hlen : page.length > 0 := List.length_pos.mpr hne
  simp [hlen]

theorem entryEffect_of_imageFails (env : Env) (g : Generator) (cacheDir : String)
    (cardEntry : CardEntry) (card : scryfall.Card) (w : World) (page : Bytes)
    (hser : env.GetBytesPdfReturnErr g.canvas = .ok page) (hne : page ≠ [])
    (hfetch : (scryfall.FindCardByID env cardEntry.ID w).1 = .ok card)
    (hfaces : card.CardFaces = [])
    (h : g.imageFails env { cardEntry with Card := card } cacheDir w = true) :
    (g.entryEffect env cacheDir w.files cardEntry).pages =
        List.replicate cardEntry.Qty.toNat page ∧
      (g.entryEffect env cacheDir w.files cardEntry).errors = [] := by
  have h' : g.imageFails env { cardEntry with Card := card } cacheDir (World.ofFiles w.files)
      = true := by
    rw [← h]
    exact imageFails_files env g _ cacheDir _ _ rfl
  have hg := generatePage_of_imageFails env g _ cacheDir _ h'
  rw [hser] at hg
  have hf := scryfall.FindCardByID_fst env cardEntry.ID (World.ofFiles w.files) w
  rw [hfetch] at hf
  simp only [Generator.entryEffect]
  rcases hF : scryfall.FindCardByID env cardEntry.ID (World.ofFiles w.files) with ⟨res, v⟩
  rw [hF] at hf
  simp only at hf
  subst hf
  have hlen0 : ¬ card.CardFaces.length > 0 := by simp [hfaces]
  simp only [hlen0, if_false]
  rcases hG : g.generatePage env { cardEntry with Card := card } cacheDir
    (World.ofFiles w.files) with ⟨pres, u⟩
  rw [hG] at hg
  simp only at hg
  subst hg
  have hlen : page.length > 0 := List.length_pos.mpr hne
  simp [hlen]

/-- C8. Let the blank canvas (a page of the page size, filled with black when there is a
bleed, and no image) serialise to the non-empty bytes `page`. When the image download or the
image embedding fails for an entry, `generatePage` returns `page` and no error. In
`GeneratePDF`, a face whose image fails contributes `Qty` copies of `page` at the end of the
pages so far; so does a fetched single-face card whose image fails; and in the page list of
the whole run those copies stand right after the pages of the rows before the entry. -/
theorem generatePage_blank_on_image_failure (env : Env) (g : Generator) (page : Bytes)
    (hser : env.GetBytesPdfReturnErr g.canvas = .ok page) (hne : page ≠ []) :
    (g.canvas.ops = if g.bleedAmount > 0 then
        [.AddPage, .SetFillColor 0 0 0,
          .RectFromUpperLeftWithStyle 0 0 g.TotalWidth g.TotalHeight "F"]
      else [.AddPage]) ∧
    (∀ (ce : CardEntry) (cacheDir : String) (w : World),
      g.imageFails env ce cacheDir w = true →
      (g.generatePage env ce cacheDir w).1 = .ok page) ∧
    (∀ (cardEntry : CardEntry) (face : scryfall.CardFace) (r : Run),
      g.imageFails env (faceEntry cardEntry face) ".card_cache" r.world = true →
      (g.faceStep env ".card_cache" cardEntry r face).pages =
        r.pages ++ List.replicate cardEntry.Qty.toNat page) ∧
    (∀ (cardEntry : CardEntry) (card : scryfall.Card) (r : Run),
      (scryfall.FindCardByID env cardEntry.ID r.world).1 = .ok card → card.CardFaces = [] →
      g.imageFails env { cardEntry with Card := card } ".card_cache" r.world = true →
      (g.entryStep env ".card_cache" r cardEntry).pages =
        r.pages ++ List.replicate cardEntry.Qty.toNat page) ∧
    (∀ (pre post : List CardEntry) (cardEntry : CardEntry) (card : scryfall.Card)
      (progress : Option ProgressReporter) (w : World),
      env.MkdirAll ".card_cache" = none →
      (scryfall.FindCardByID env cardEntry.ID w).1 = .ok card → card.CardFaces = [] →
      g.imageFails env { cardEntry with Card := card } ".card_cache"
        (pre.foldl (g.entryStep env ".card_cache")
          (startRun { Cards := pre ++ cardEntry :: post } progress w)).world = true →
      ∃ rest : List Bytes,
        (g.GeneratePDF env { Cards := pre ++ cardEntry :: post } progress w).pages =
          (pre.foldl (g.entryStep env ".card_cache")
            (startRun { Cards := pre ++ cardEntry :: post } progress w)).pages ++
          List.replicate cardEntry.Qty.toNat page ++ rest) := by
  have hface : ∀ (cardEntry : CardEntry) (face : scryfall.CardFace) (r : Run),
      g.imageFails env (faceEntry cardEntry face) ".card_cache" r.world = true →
      (g.faceStep env ".card_cache" cardEntry r face).pages =
        r.pages ++ List.replicate cardEntry.Qty.toNat page := by
    intro cardEntry face r h
    rw [(faceStep_follows env g ".card_cache" cardEntry r face).1,
      (faceEffect_of_imageFails env g ".card_cache" cardEntry face r.world page hser hne h).1]
  have hentry : ∀ (cardEntry : CardEntry) (card : scryfall.Card) (r : Run),
      (scryfall.FindCardByID env cardEntry.ID r.world).1 = .ok card → card.CardFaces = [] →
      g.imageFails env { cardEntry with Card := card } ".card_cache" r.world = true →
      (g.entryStep env ".card_cache" r cardEntry).pages =
        r.pages ++ List.replicate cardEntry.Qty.toNat page := by
    intro cardEntry card r hfetch hfaces h
    rw [(entryStep_follows env g ".card_cache" r cardEntry).1,
      (entryEffect_of_imageFails env g ".card_cache" cardEntry card r.world page hser hne
        hfetch hfaces h).1]
  refine ⟨?_, ?_, hface, hentry, ?_⟩
  · unfold Generator.canvas
    split <;> simp [GoPdf.call, GoPdf.Start]
  · intro ce cacheDir w h
    rw [generatePage_of_imageFails env g ce cacheDir w h, hser]
  · intro pre post cardEntry card progress w hmk hfetch hfaces h
    rw [GeneratePDF_pages_loop env g _ progress w hmk]
    simp only [List.foldl_append, List.foldl_cons]
    have hfetch' : (scryfall.FindCardByID env cardEntry.ID
        (pre.foldl (g.entryStep env ".card_cache")
          (startRun { Cards := pre ++ cardEntry :: post } progress w)).world).1 = .ok card := by
      rw [← hfetch]
      exact scryfall.FindCardByID_fst env _ _ _
    have h1 := hentry cardEntry card _ hfetch' hfaces h
    have h2 := (cards_follow env g ".card_cache" post
      (g.entryStep env ".card_cache" (pre.foldl (g.entryStep env ".card_cache")
        (startRun { Cards := pre ++ cardEntry :: post } progress w)) cardEntry)).1
    exact ⟨_, by rw [h2, h1]⟩

theorem generatePage_blank_on_image_failure_witness :
    exampleGenerator.imageFails exampleEnv { Qty := 2, ID := "noart", Card := noartCard }
      ".card_cache" {} = true ∧
    (exampleGenerator.entryStep exampleEnv ".card_cache"
      { pages := [[9]], progress := none, world := {} } { Qty := 2, ID := "noart" }).pages =
      [[9]] ++ List.replicate (2 : Int).toNat [0, 0, 0] :=
  ⟨by decide,
    (generatePage_blank_on_image_failure exampleEnv exampleGenerator [0, 0, 0] (by decide)
      (by decide)).2.2.2.1 { Qty := 2, ID := "noart" } noartCard
      { pages := [[9]], progress := none, world := {} } (by decide) rfl (by decide)⟩

/-! ## Theorems: what an image failure leaves with the reporter -/

theorem FindCardByID_log (env : Env) (id : String) (w : World) :
    (scryfall.FindCardByID env id w).2.log = w.log := by
  unfold scryfall.FindCardByID
  repeat' split
  all_goals simp_all

theorem DownloadImageFromURL_log (env : Env) (imageURL cacheKey cacheDir : String)
    (w : World) :
    (scryfall.DownloadImageFromURL env imageURL cacheKey cacheDir w).2.log = w.log := by
  unfold scryfall.DownloadImageFromURL
  simp only [World.exists]
  repeat' split
  all_goals simp_all

theorem DownloadCardImage_log (env : Env) (cardID cacheDir quality : String) (w : World) :
    (scryfall.DownloadCardImage env cardID cacheDir quality w).2.log = w.log := by
  have h := FindCardByID_log env cardID w
  unfold scryfall.DownloadCardImage
  rcases hF : scryfall.FindCardByID env cardID w with ⟨res, v⟩
  rw [hF] at h
  simp only at h
  cases res with
  | error err => simpa using h
  | ok card =>
    simp only [World.exists]
    repeat' split
    all_goals simp_all

theorem loadImage_log (env : Env) (ce : CardEntry) (cacheDir : String) (w : World) :
    (loadImage env ce cacheDir w).2.log = w.log := by
  unfold loadImage
  split
  · exact DownloadImageFromURL_log env _ _ _ w
  · exact DownloadCardImage_log env _ _ _ w

theorem generatePage_log_of_imageFails (env : Env) (g : Generator) (ce : CardEntry)
    (cacheDir : String) (w : World) (h : g.imageFails env ce cacheDir w = true) :
    ∃ ev : LogEvent, (g.generatePage env ce cacheDir w).2.log = w.log ++ [ev] ∧
      (ev.msg = "Failed to load card image" ∨ ev.msg = "Failed to embed image") := by
  have hlog := loadImage_log env ce cacheDir w
  unfold Generator.imageFails at h
  unfold Generator.generatePage
  rcases hL : loadImage env ce cacheDir w with ⟨res, v⟩
  rw [hL] at h hlog
  simp only at hlog
  cases res with
  | error err =>
    exact ⟨{ level := "error", msg := "Failed to load card image",
             fields := [("error", err), ("cardID", ce.ID), ("cardName", ce.Card.Name)] },
      by simp [World.logEvent, hlog], Or.inl rfl⟩
  | ok imagePath =>
    simp only at h ⊢
    cases hI : g.canvas.Image env v imagePath g.ImagePosition.1 g.ImagePosition.2
      (CardWidth, CardHeight) with
    | error err =>
      exact ⟨{ level := "warn", msg := "Failed to embed image",
               fields := [("error", err), ("cardID", ce.ID)] },
        by simp [World.logEvent, hlog], Or.inr rfl⟩
    | ok pdf => simp [hI] at h

theorem generatePage_error (env : Env) (g : Generator) (ce : CardEntry) (cacheDir : String)
    (w : World) (err : String) (h : (g.generatePage env ce cacheDir w).1 = .error err) :
    ∃ pdf : GoPdf, env.GetBytesPdfReturnErr pdf = .error err := by
  unfold Generator.generatePage at h
  rcases hL : loadImage env ce cacheDir w with ⟨res, v⟩
  rw [hL] at h
  cases res with
  | error e => exact ⟨_, h⟩
  | ok imagePath =>
    simp only at h
    cases hI : g.canvas.Image env v imagePath g.ImagePosition.1 g.ImagePosition.2
      (CardWidth, CardHeight) with
    | error e =>
      rw [hI] at h
      exact ⟨_, h⟩
    | ok pdf =>
      rw [hI] at h
      exact ⟨_, h⟩

theorem faceEffect_errors_of_imageFails (env : Env) (g : Generator) (cacheDir : String)
    (cardEntry : CardEntry) (face : scryfall.CardFace) (w : World) (page : Bytes)
    (hser : env.GetBytesPdfReturnErr g.canvas = .ok page)
    (h : g.imageFails env (faceEntry cardEntry face) cacheDir w = true) :
    (g.faceEffect env cacheDir cardEntry w.files face).errors = [] := by
  have h' : g.imageFails env (faceEntry cardEntry face) cacheDir (World.ofFiles w.files) = true := by
    rw [← h]
    exact imageFails_files env g _ cacheDir _ _ rfl
  have hg := generatePage_of_imageFails env g _ cacheDir _ h'
  rw [hser] at hg
  simp only [Generator.faceEffect]
  rcases hG : g.generatePage env (faceEntry cardEntry face) cacheDir (World.ofFiles w.files)
    with ⟨res, v⟩
  rw [hG] at hg
  simp only at hg
  subst hg
  rfl

theorem entryEffect_errors_of_imageFails (env : Env) (g : Generator) (cacheDir : String)
    (cardEntry : CardEntry) (card : scryfall.Card) (w : World) (page : Bytes)
    (hser : env.GetBytesPdfReturnErr g.canvas = .ok page)
    (hfetch : (scryfall.FindCardByID env cardEntry.ID w).1 = .ok card)
    (hfaces : card.CardFaces = [])
    (h : g.imageFails env { cardEntry with Card := card } cacheDir w = true) :
    (g.entryEffect env cacheDir w.files cardEntry).errors = [] := by
  have h' : g.imageFails env { cardEntry with Card := card } cacheDir (World.ofFiles w.files)
      = true := by
    rw [← h]
    exact imageFails_files env g _ cacheDir _ _ rfl
  have hg := generatePage_of_imageFails env g _ cacheDir _ h'
  rw [hser] at hg
  have hf := scryfall.FindCardByID_fst env cardEntry.ID (World.ofFiles w.files) w
  rw [hfetch] at hf
  simp only [Generator.entryEffect]
  rcases hF : scryfall.FindCardByID env cardEntry.ID (World.ofFiles w.files) with ⟨res, v⟩
  rw [hF] at hf
  simp only at hf
  subst hf
  have hlen0 : ¬ card.CardFaces.length > 0 := by simp [hfaces]
  simp only [hlen0, if_false]
  rcases hG : g.generatePage env { cardEntry with Card := card } cacheDir
    (World.ofFiles w.files) with ⟨pres, u⟩
  rw [hG] at hg
  simp only at hg
  subst hg
  rfl

/-- C9, as stated, fails: the artwork of the card `noart` cannot be downloaded, the run
emits the blank page twice and succeeds, and the reporter ends with no error record. -/
theorem GeneratePDF_image_failure_unreported :
    exampleGenerator.imageFails exampleEnv { Qty := 2, ID := "noart", Card := noartCard }
      ".card_cache" {} = true ∧
    (exampleGenerator.GeneratePDF exampleEnv { Cards := [{ Qty := 2, ID := "noart" }] }
      (some {}) {}).progress =
      some { currentIndex := 3, totalOperations := 3, errors := [] } ∧
    (exampleGenerator.GeneratePDF exampleEnv { Cards := [{ Qty := 2, ID := "noart" }] }
      (some {}) {}).pages = [[0, 0, 0], [0, 0, 0]] ∧
    (exampleGenerator.GeneratePDF exampleEnv { Cards := [{ Qty := 2, ID := "noart" }] }
      (some {}) {}).err = none := by
  decide

/-- C9, amended. Let the blank canvas serialise to `page`. When the image download or the
image embedding fails, `generatePage` logs one zerolog event (`Failed to load card image` or
`Failed to embed image`) and returns `page` with no error, and `GeneratePDF` leaves the error
list of the reporter as it was, for a face and for a single-face card alike. `generatePage`
returns an error, which `GeneratePDF` then records with `AddError`, only when serialising the
page fails. -/
theorem image_failure_logged_not_reported (env : Env) (g : Generator) (page : Bytes)
    (hser : env.GetBytesPdfReturnErr g.canvas = .ok page) :
    (∀ (ce : CardEntry) (cacheDir : String) (w : World),
      g.imageFails env ce cacheDir w = true →
      (g.generatePage env ce cacheDir w).1 = .ok page ∧
      ∃ ev : LogEvent, (g.generatePage env ce cacheDir w).2.log = w.log ++ [ev] ∧
        (ev.msg = "Failed to load card image" ∨ ev.msg = "Failed to embed image")) ∧
    (∀ (cardEntry : CardEntry) (face : scryfall.CardFace) (r : Run) (pr : ProgressReporter),
      r.progress = some pr →
      g.imageFails env (faceEntry cardEntry face) ".card_cache" r.world = true →
      ∃ pr2, (g.faceStep env ".card_cache" cardEntry r face).progress = some pr2 ∧
        pr2.errors = pr.errors) ∧
    (∀ (cardEntry : CardEntry) (card : scryfall.Card) (r : Run) (pr : ProgressReporter),
      r.progress = some pr →
      (scryfall.FindCardByID env cardEntry.ID r.world).1 = .ok card → card.CardFaces = [] →
      g.imageFails env { cardEntry with Card := card } ".card_cache" r.world = true →
      ∃ pr2, (g.entryStep env ".card_cache" r cardEntry).progress = some pr2 ∧
        pr2.errors = pr.errors) ∧
    (∀ (ce : CardEntry) (cacheDir : String) (w : World) (err : String),
      (g.generatePage env ce cacheDir w).1 = .error err →
      ∃ pdf : GoPdf, env.GetBytesPdfReturnErr pdf = .error err) := by
  refine ⟨?_, ?_, ?_, ?_⟩
  · intro ce cacheDir w h
    exact ⟨by rw [generatePage_of_imageFails env g ce cacheDir w h, hser],
      generatePage_log_of_imageFails env g ce cacheDir w h⟩
  · intro cardEntry face r pr hpr h
    obtain ⟨pr2, h1, h2, -⟩ :=
      (faceStep_follows env g ".card_cache" cardEntry r face).2.2.2 pr hpr
    rw [faceEffect_errors_of_imageFails env g ".card_cache" cardEntry face r.world page hser h,
      List.append_nil] at h2
    exact ⟨pr2, h1, h2⟩
  · intro cardEntry card r pr hpr hfetch hfaces h
    obtain ⟨pr2, h1, h2, -⟩ :=
      (entryStep_follows env g ".card_cache" r cardEntry).2.2.2 pr hpr
    rw [entryEffect_errors_of_imageFails env g ".card_cache" cardEntry card r.world page hser
      hfetch hfaces h, List.append_nil] at h2
    exact ⟨pr2, h1, h2⟩
  · intro ce cacheDir w err h
    exact generatePage_error env g ce cacheDir w err h

theorem image_failure_logged_not_reported_witness :
    (exampleGenerator.generatePage exampleEnv { Qty := 2, ID := "noart", Card := noartCard }
      ".card_cache" {}).1 = .ok [0, 0, 0] :=
  ((image_failure_logged_not_reported exampleEnv exampleGenerator [0, 0, 0] (by decide)).1
    { Qty := 2, ID := "noart", Card := noartCard } ".card_cache" {} (by decide)).1

/-! ## Theorems: the image a face page is rendered from -/

theorem foldl_entryStep_pages_of_noop (env : Env) (g : Generator) (cacheDir : String)
    (cards : List CardEntry)
    (h : ∀ e ∈ cards, ∀ r : Run, (g.entryStep env cacheDir r e).pages = r.pages) :
    ∀ r : Run, (cards.foldl (g.entryStep env cacheDir) r).pages = r.pages := by
  induction cards with
  | nil => intro r; rfl
  | cons e cards ih =>
    intro r
    rw [List.foldl_cons, ih (fun e' he' => h e' (by simp [he'])), h e (by simp)]

theorem generatePage_eq_serialise (env : Env) (g : Generator) (ce : CardEntry)
    (cacheDir : String) (w : World) :
    ∃ pdf : GoPdf, (g.generatePage env ce cacheDir w).1 = env.GetBytesPdfReturnErr pdf := by
  unfold Generator.generatePage
  rcases loadImage env ce cacheDir w with ⟨res, v⟩
  cases res with
  | error err => exact ⟨_, rfl⟩
  | ok imagePath =>
    simp only
    split
    · exact ⟨_, rfl⟩
    · exact ⟨_, rfl⟩

theorem faceEffect_pages_of_serialise_fails (env : Env) (g : Generator) (cacheDir : String)
    (cardEntry : CardEntry) (files : List (String × Bytes)) (face : scryfall.CardFace)
    (hser : ∀ pdf : GoPdf, ∃ err, env.GetBytesPdfReturnErr pdf = .error err) :
    (g.faceEffect env cacheDir cardEntry files face).pages = [] := by
  obtain ⟨pdf, hp⟩ := generatePage_eq_serialise env g (faceEntry cardEntry face) cacheDir
    (World.ofFiles files)
  obtain ⟨err, he⟩ := hser pdf
  rw [he] at hp
  simp only [Generator.faceEffect]
  rcases hG : g.generatePage env (faceEntry cardEntry face) cacheDir (World.ofFiles files)
    with ⟨res, v⟩
  rw [hG] at hp
  simp only at hp
  subst hp
  rfl

theorem facesEffect_pages_of_serialise_fails (env : Env) (g : Generator) (cacheDir : String)
    (cardEntry : CardEntry) (faces : List scryfall.CardFace)
    (hser : ∀ pdf : GoPdf, ∃ err, env.GetBytesPdfReturnErr pdf = .error err) :
    ∀ files : List (String × Bytes),
      (g.facesEffect env cacheDir cardEntry faces files).pages = [] := by
  induction faces with
  | nil => intro files; rfl
  | cons face faces ih =>
    intro files
    simp [Generator.facesEffect, Effect.append, ih,
      faceEffect_pages_of_serialise_fails env g cacheDir cardEntry files face hser]

theorem entryEffect_pages_of_serialise_fails (env : Env) (g : Generator) (cacheDir : String)
    (files : List (String × Bytes)) (cardEntry : CardEntry)
    (hser : ∀ pdf : GoPdf, ∃ err, env.GetBytesPdfReturnErr pdf = .error err) :
    (g.entryEffect env cacheDir files cardEntry).pages = [] := by
  simp only [Generator.entryEffect]
  rcases scryfall.FindCardByID env cardEntry.ID (World.ofFiles files) with ⟨res, v⟩
  cases res with
  | error err => rfl
  | ok card =>
    simp only
    split
    · exact facesEffect_pages_of_serialise_fails env g cacheDir cardEntry _ hser files
    · obtain ⟨pdf, hp⟩ := generatePage_eq_serialise env g { cardEntry with Card := card }
        cacheDir (World.ofFiles files)
      obtain ⟨err, he⟩ := hser pdf
      rw [he] at hp
      rcases hG : g.generatePage env { cardEntry with Card := card } cacheDir
        (World.ofFiles files) with ⟨pres, u⟩
      rw [hG] at hp
      simp only at hp
      subst hp
      rfl

theorem GeneratePDF_pages_afterLoop (env : Env) (g : Generator) (decklist : Decklist)
    (progress : Option ProgressReporter) (w : World)
    (hmk : env.MkdirAll ".card_cache" = none) :
    (g.GeneratePDF env decklist progress w).pages =
      (g.afterLoop env decklist progress w).pages :=
  GeneratePDF_pages_loop env g decklist progress w hmk

/-- C11. Let the cache directory be created, so that the loop runs. When the page list the
loop accumulated is empty, `GeneratePDF` returns the error `no pages generated` and leaves the
reporter and the world as the loop left them: the assembly stage is not announced and no file
is written. When the page list is not empty, the returned error is that of the assembly step
(of an import or of the write), or none. The page list is empty for the empty decklist, when
the data fetch of every entry fails, when every rendering fails, and in general when no entry
adds a page. -/
theorem GeneratePDF_no_pages (env : Env) (g : Generator) (decklist : Decklist)
    (progress : Option ProgressReporter) (w : World)
    (hmk : env.MkdirAll ".card_cache" = none) :
    ((g.GeneratePDF env decklist progress w).pages = [] →
      (g.GeneratePDF env decklist progress w).err = some "no pages generated" ∧
      (g.GeneratePDF env decklist progress w).world = (g.afterLoop env decklist progress w).world ∧
      (g.GeneratePDF env decklist progress w).progress =
        (g.afterLoop env decklist progress w).progress) ∧
    ((g.GeneratePDF env decklist progress w).pages ≠ [] →
      (g.GeneratePDF env decklist progress w).err =
        g.assembleErr env (g.GeneratePDF env decklist progress w).pages ∧
      (g.GeneratePDF env decklist progress w).progress =
        ((g.afterLoop env decklist progress w).UpdateStage "Assembling PDF").progress) ∧
    (decklist.Cards = [] → (g.GeneratePDF env decklist progress w).pages = []) ∧
    ((∀ e ∈ decklist.Cards, ∃ msg, (scryfall.FindCardByID env e.ID w).1 = .error msg) →
      (g.GeneratePDF env decklist progress w).pages = []) ∧
    ((∀ pdf : GoPdf, ∃ err, env.GetBytesPdfReturnErr pdf = .error err) →
      (g.GeneratePDF env decklist progress w).pages = []) ∧
    ((∀ e ∈ decklist.Cards, ∀ r : Run, (g.entryStep env ".card_cache" r e).pages = r.pages) →
      (g.GeneratePDF env decklist progress w).pages = []) := by
  have hp := GeneratePDF_pages_afterLoop env g decklist progress w hmk
  have hgen : (∀ e ∈ decklist.Cards, ∀ r : Run,
      (g.entryStep env ".card_cache" r e).pages = r.pages) →
      (g.GeneratePDF env decklist progress w).pages = [] := by
    intro h
    rw [hp, Generator.afterLoop,
      foldl_entryStep_pages_of_noop env g ".card_cache" decklist.Cards h]
    rfl
  refine ⟨?_, ?_, ?_, ?_, ?_, hgen⟩
  · intro hempty
    rw [hp] at hempty
    have h0 : (g.afterLoop env decklist progress w).pages.length = 0 := by simp [hempty]
    unfold Generator.afterLoop at h0
    simp only [Generator.GeneratePDF, hmk, h0, if_true, Generator.afterLoop, and_self]
  · intro hne
    have herr := GeneratePDF_err env g decklist progress w hmk
    have h0 : ¬ (g.GeneratePDF env decklist progress w).pages.length = 0 := by
      simpa using hne
    refine ⟨?_, ?_⟩
    · rw [herr]
      simp only [Generator.finishErr, h0, if_false, Generator.assembleErr]
    · rw [hp] at h0
      unfold Generator.afterLoop at h0
      simp only [Generator.GeneratePDF, hmk, h0, if_false, Generator.afterLoop]
      split
      · rfl
      · split <;> rfl
  · intro hnil
    apply hgen
    rw [hnil]
    intro e he
    simp at he
  · intro hfail
    apply hgen
    intro e he r
    obtain ⟨msg, hmsg⟩ := hfail e he
    have h := entryStep_follows env g ".card_cache" r e
    rw [entryEffect_fetch_error env g ".card_cache" _ e w msg hmsg] at h
    simpa using h.1
  · intro hser
    apply hgen
    intro e _ r
    have h := (entryStep_follows env g ".card_cache" r e).1
    rw [entryEffect_pages_of_serialise_fails env g ".card_cache" _ e hser] at h
    simpa using h

theorem GeneratePDF_no_pages_witness :
    (exampleGenerator.GeneratePDF exampleEnv { Cards := [{ Qty := 4, ID := "ghost" }] }
      (some {}) {}).err = some "no pages generated" :=
  ((GeneratePDF_no_pages exampleEnv exampleGenerator { Cards := [{ Qty := 4, ID := "ghost" }] }
    (some {}) {} (by decide)).1 (by decide)).1

/-- The run of the example on the entry `ghost` alone: the error is returned after two
announced stages, with one error record, no request but the card-data fetch, and no file. -/
theorem GeneratePDF_no_pages_example :
    exampleGenerator.GeneratePDF exampleEnv { Cards := [{ Qty := 4, ID := "ghost" }] }
      (some {}) {} =
    { err := some "no pages generated", pages := [],
      progress := some { currentIndex := 1, totalOperations := 3,
                         errors := ["ghost: Error: 404 Not Found"] },
      world := { files := [], requests := ["https://api.scryfall.com/cards/ghost"],
                 stdout := ["[1/3] Fetching card: ghost\n"], stderr := [],
                 log := [{ level := "error", msg := "Failed to fetch card data",
                           fields := [("error", "Error: 404 Not Found"),
                                      ("cardID", "ghost")] }] } } := by
  decide

/-! ## Theorems: the precomputed number of steps -/

theorem foldl_two_per_entry {α : Type} (cards : List α) :
    ∀ total : Int, cards.foldl (fun total _ => total + 1 + 1) total = total + 2 * cards.length := by
  induction cards with
  | nil => intro total; simp
  | cons e cards ih =>
    intro total
    rw [List.foldl_cons, ih]
    simp only [List.length_cons, Nat.cast_add, Nat.cast_one]
    ring

/-- The reporter of a call of `GeneratePDF` ends with the precomputed number of steps as its
total. -/
theorem GeneratePDF_total (env : Env) (g : Generator) (decklist : Decklist)
    (pr : ProgressReporter) (w : World) (hmk : env.MkdirAll ".card_cache" = none) :
    ∃ pr2, (g.GeneratePDF env decklist (some pr) w).progress = some pr2 ∧
      pr2.totalOperations = calculateTotalOperations decklist := by
  have h := cards_follow env g ".card_cache" decklist.Cards (startRun decklist (some pr) w)
  obtain ⟨pr1, h1, -, h2⟩ := h.2.2.2 _ rfl
  simp only [ProgressReporter.StartUnified] at h2
  simp only [Generator.GeneratePDF, hmk]
  repeat' split
  all_goals simp_all [Run.UpdateStage, ProgressReporter.UpdateStage, startRun]

/-- C12. For a decklist of n entries both implementations of `calculateTotalOperations`, the
one of the generator and the one of the command-line entry point, return `2 * n + 1`; so the
value depends on the number of entries only, not on quantities or faces, and the two agree on
decklists of the same length. It is the total the reporter of `GeneratePDF` is started
with and ends with. -/
theorem calculateTotalOperations_eq :
    (∀ d : Decklist, calculateTotalOperations d = 2 * (d.Cards.length : Int) + 1) ∧
    (∀ d : deck.Decklist, main.calculateTotalOperations d = 2 * (d.Cards.length : Int) + 1) ∧
    (∀ d d' : Decklist, d.Cards.length = d'.Cards.length →
      calculateTotalOperations d = calculateTotalOperations d') ∧
    (∀ (d : Decklist) (d' : deck.Decklist), d.Cards.length = d'.Cards.length →
      calculateTotalOperations d = main.calculateTotalOperations d') ∧
    (∀ (env : Env) (g : Generator) (d : Decklist) (pr : ProgressReporter) (w : World),
      env.MkdirAll ".card_cache" = none →
      ∃ pr2, (g.GeneratePDF env d (some pr) w).progress = some pr2 ∧
        pr2.totalOperations = 2 * (d.Cards.length : Int) + 1) := by
  have h1 : ∀ d : Decklist, calculateTotalOperations d = 2 * (d.Cards.length : Int) + 1 := by
    intro d
    simp [calculateTotalOperations, foldl_two_per_entry]
  have h2 : ∀ d : deck.Decklist,
      main.calculateTotalOperations d = 2 * (d.Cards.length : Int) + 1 := by
    intro d
    simp [main.calculateTotalOperations, foldl_two_per_entry]
  refine ⟨h1, h2, ?_, ?_, ?_⟩
  · intro d d' h
    rw [h1, h1, h]
  · intro d d' h
    rw [h1, h2, h]
  · intro env g d pr w hmk
    obtain ⟨pr2, hp, ht⟩ := GeneratePDF_total env g d pr w hmk
    exact ⟨pr2, hp, by rw [ht, h1]⟩

theorem calculateTotalOperations_eq_witness :
    calculateTotalOperations
        { Cards := [{ Qty := 1, ID := "bolt" }, { Qty := 40, ID := "split" }] } = 5 ∧
    main.calculateTotalOperations
        { Cards := [{ Qty := 7, ID := "a" }, { Qty := 1, ID := "b" }] } = 5 := by
  have h := calculateTotalOperations_eq.2.2.2.1
    { Cards := [{ Qty := 1, ID := "bolt" }, { Qty := 40, ID := "split" }] }
    { Cards := [{ Qty := 7, ID := "a" }, { Qty := 1, ID := "b" }] } rfl
  exact ⟨by decide, h ▸ by decide⟩

/-! ## Theorems: the number of pages -/

theorem facePagesInOrder_length (env : Env) (g : Generator) (cacheDir : String)
    (cardEntry : CardEntry) (faces : List scryfall.CardFace) :
    ∀ (files files' : List (String × Bytes)) (ps : List Bytes),
      g.facePagesInOrder env cacheDir cardEntry faces files = some (ps, files') →
      ps.length = faces.length * cardEntry.Qty.toNat := by
  induction faces with
  | nil =>
    intro files files' ps h
    simp only [Generator.facePagesInOrder, Option.some.injEq, Prod.mk.injEq] at h
    simp [← h.1]
  | cons face faces ih =>
    intro files files' ps h
    simp only [Generator.facePagesInOrder] at h
    rcases hG : g.generatePage env (faceEntry cardEntry face) cacheDir (World.ofFiles files)
      with ⟨res, v⟩
    rw [hG] at h
    cases res with
    | error err => simp at h
    | ok facePage =>
      simp only at h
      by_cases hp : facePage = []
      · simp [hp] at h
      · simp only [hp, if_false] at h
        cases hrec : g.facePagesInOrder env cacheDir cardEntry faces v.files with
        | none => simp [hrec] at h
        | some pr =>
          obtain ⟨rest, fs⟩ := pr
          simp only [hrec, Option.some.injEq, Prod.mk.injEq] at h
          obtain ⟨rfl, -⟩ := h
          have := ih _ _ _ hrec
          simp only [List.length_append, List.length_replicate, List.length_cons, this]
          ring

theorem pagesInOrder_length (env : Env) (g : Generator) (cacheDir : String)
    (cards : List CardEntry) :
    ∀ (files : List (String × Bytes)) (ps : List Bytes),
      g.pagesInOrder env cacheDir cards files = some ps →
      (∀ e ∈ cards, 0 < e.Qty) →
      (ps.length : Int) = ((resolved env { Cards := cards }).Cards.map deck.entryPages).sum := by
  induction cards with
  | nil =>
    intro files ps h _
    simp only [Generator.pagesInOrder, Option.some.injEq] at h
    simp [← h, resolved]
  | cons cardEntry cards ih =>
    intro files ps h hpos
    have hq : 0 < cardEntry.Qty := hpos cardEntry (by simp)
    have hnat : ((cardEntry.Qty.toNat : Nat) : Int) = cardEntry.Qty := Int.toNat_of_nonneg hq.le
    have hpos' : ∀ e ∈ cards, 0 < e.Qty := fun e he => hpos e (by simp [he])
    simp only [Generator.pagesInOrder] at h
    have hf := scryfall.FindCardByID_fst env cardEntry.ID {} (World.ofFiles files)
    rcases hF : scryfall.FindCardByID env cardEntry.ID (World.ofFiles files) with ⟨res, v⟩
    rw [hF] at h hf
    simp only at hf
    have hsplit : (resolved env { Cards := cardEntry :: cards }).Cards =
        (resolved env { Cards := [cardEntry] }).Cards ++
          (resolved env { Cards := cards }).Cards := by
      simp [resolved]
    cases res with
    | error err => simp at h
    | ok card =>
      have hone : (resolved env { Cards := [cardEntry] }).Cards =
          [{ Qty := cardEntry.Qty, ID := cardEntry.ID, Card := card }] := by
        simp [resolved, hf]
      rw [hsplit, hone]
      simp only at h
      by_cases hfaces : card.CardFaces = []
      · simp only [hfaces, if_true] at h
        rcases hG : g.generatePage env { cardEntry with Card := card } cacheDir
          (World.ofFiles files) with ⟨pres, u⟩
        rw [hG] at h
        cases pres with
        | error err => simp at h
        | ok page =>
          simp only at h
          by_cases hp : page = []
          · simp [hp] at h
          · simp only [hp, if_false] at h
            cases hrec : g.pagesInOrder env cacheDir cards u.files with
            | none => simp [hrec] at h
            | some rest =>
              simp only [hrec, Option.some.injEq] at h
              subst h
              have := ih _ _ hrec hpos'
              simp only [List.length_append, List.length_replicate, Nat.cast_add, hnat, this,
                List.singleton_append, List.map_cons, List.sum_cons, deck.entryPages, hfaces,
                List.length_nil, gt_iff_lt, lt_self_iff_false, if_false]
      · have hlen1 : card.CardFaces.length > 0 := List.length_pos.mpr hfaces
        simp only [hfaces, if_false] at h
        cases hfp : g.facePagesInOrder env cacheDir cardEntry card.CardFaces files with
        | none => simp [hfp] at h
        | some pr =>
          obtain ⟨facePages, fs⟩ := pr
          simp only [hfp] at h
          cases hrec : g.pagesInOrder env cacheDir cards fs with
          | none => simp [hrec] at h
          | some rest =>
            simp only [hrec, Option.some.injEq] at h
            subst h
            have h1 := facePagesInOrder_length env g cacheDir cardEntry _ _ _ _ hfp
            have h2 := ih _ _ hrec hpos'
            simp only [List.length_append, Nat.cast_add, h1, Nat.cast_mul, hnat, h2,
              List.singleton_append, List.map_cons, List.sum_cons, deck.entryPages, hlen1,
              if_true]

/-- C13. Let the cache directory be created, let every card of the decklist be fetched and
rendered with non-empty page bytes, and let every quantity be positive. Then
`CalculateTotalPages` of the resolved decklist (the entries with the fetched card data) is the
number of pages `GeneratePDF` assembles, as a Go `int`: it is that number wrapped to 64 bits,
hence that number itself, the page list being a slice, whose length is an `int`. These pages
are the pages of the output: the document handed to the writer holds one import per page of
the list and nothing else, so it has as many physical pages when each rendered page is a
source of one page, and, when the imports and the write succeed, what the writer makes of it
is the file at the output path. -/
theorem CalculateTotalPages_counts_pages (env : Env) (g : Generator) (decklist : Decklist)
    (progress : Option ProgressReporter) (w : World) (ps : List Bytes)
    (hmk : env.MkdirAll ".card_cache" = none)
    (hps : g.pagesInOrder env ".card_cache" decklist.Cards w.files = some ps)
    (hpos : ∀ e ∈ decklist.Cards, 0 < e.Qty) :
    deck.CalculateTotalPages (resolved env decklist) =
      deck.wrapInt ((g.GeneratePDF env decklist progress w).pages.length : Int) ∧
    (((g.GeneratePDF env decklist progress w).pages.length : Int) < 9223372036854775808 →
      ((g.GeneratePDF env decklist progress w).pages.length : Int) =
        deck.CalculateTotalPages (resolved env decklist)) ∧
    (g.assembled (g.GeneratePDF env decklist progress w).pages).ops =
      (g.GeneratePDF env decklist progress w).pages.map
        (fun b => PdfOp.ImportPagesFromSource b "/MediaBox") ∧
    (∀ sourcePages : Bytes → Nat,
      (∀ b ∈ (g.GeneratePDF env decklist progress w).pages, sourcePages b = 1) →
      (g.assembled (g.GeneratePDF env decklist progress w).pages).numPages sourcePages =
        (g.GeneratePDF env decklist progress w).pages.length ∧
      (((g.GeneratePDF env decklist progress w).pages.length : Int) < 9223372036854775808 →
        (((g.assembled (g.GeneratePDF env decklist progress w).pages).numPages sourcePages :
            Nat) : Int) = deck.CalculateTotalPages (resolved env decklist))) ∧
    ((g.GeneratePDF env decklist progress w).pages ≠ [] →
      (∀ b ∈ (g.GeneratePDF env decklist progress w).pages,
        env.ImportPagesFromSource b = none) →
      ∀ bytes,
        env.WritePdf (g.assembled (g.GeneratePDF env decklist progress w).pages) g.outputPath =
          .ok bytes →
        (g.GeneratePDF env decklist progress w).err = none ∧
        (g.GeneratePDF env decklist progress w).world.files.lookup g.outputPath =
          some bytes) := by
  have hpages : (g.GeneratePDF env decklist progress w).pages = ps := by
    rw [GeneratePDF_pages_effect env g decklist progress w hmk]
    exact (pagesInOrder_effect env g ".card_cache" decklist.Cards w.files ps hps).1
  have hlen := pagesInOrder_length env g ".card_cache" decklist.Cards w.files ps hps hpos
  have hcount : deck.CalculateTotalPages (resolved env decklist) =
      deck.wrapInt ((g.GeneratePDF env decklist progress w).pages.length : Int) := by
    rw [deck.CalculateTotalPages_eq, hpages, hlen]
  have hfits : ((g.GeneratePDF env decklist progress w).pages.length : Int) <
      9223372036854775808 →
      ((g.GeneratePDF env decklist progress w).pages.length : Int) =
        deck.CalculateTotalPages (resolved env decklist) := by
    intro hfit
    rw [hcount]
    exact (deck.wrapInt_of_fits _ ⟨by omega, hfit⟩).symm
  have hbytes := pagesInOrder_nonempty env g ".card_cache" decklist.Cards w.files ps hps
  have hout := GeneratePDF_output env g decklist progress w ps hmk hpages hbytes
  refine ⟨hcount, hfits, rfl, ?_, ?_⟩
  · intro sourcePages hone
    have hn := assembled_numPages g sourcePages _ hone
    refine ⟨hn, ?_⟩
    intro hfit
    rw [hn]
    exact hfits hfit
  · rw [hpages]
    intro hne himp bytes hW
    obtain ⟨h1, h2, -⟩ := (hout.1 hne himp).1 bytes hW
    exact ⟨h1, h2⟩

theorem CalculateTotalPages_counts_pages_witness :
    ((exampleGenerator.GeneratePDF exampleEnv
        { Cards := [{ Qty := 1, ID := "bolt" }, { Qty := 2, ID := "split" }] }
        none {}).pages.length : Int) =
      deck.CalculateTotalPages (resolved exampleEnv
        { Cards := [{ Qty := 1, ID := "bolt" }, { Qty := 2, ID := "split" }] }) ∧
    (((exampleGenerator.assembled (exampleGenerator.GeneratePDF exampleEnv
        { Cards := [{ Qty := 1, ID := "bolt" }, { Qty := 2, ID := "split" }] }
        none {}).pages).numPages (fun _ => 1) : Nat) : Int) =
      deck.CalculateTotalPages (resolved exampleEnv
        { Cards := [{ Qty := 1, ID := "bolt" }, { Qty := 2, ID := "split" }] }) :=
  ⟨(CalculateTotalPages_counts_pages exampleEnv exampleGenerator
      { Cards := [{ Qty := 1, ID := "bolt" }, { Qty := 2, ID := "split" }] } none {}
      [[0, 0, 0, 10], [0, 0, 0, 30], [0, 0, 0, 30], [0, 0, 0, 30], [0, 0, 0, 30]]
      (by decide) (by decide) (by decide)).2.1 (by decide),
    ((CalculateTotalPages_counts_pages exampleEnv exampleGenerator
      { Cards := [{ Qty := 1, ID := "bolt" }, { Qty := 2, ID := "split" }] } none {}
      [[0, 0, 0, 10], [0, 0, 0, 30], [0, 0, 0, 30], [0, 0, 0, 30], [0, 0, 0, 30]]
      (by decide) (by decide) (by decide)).2.2.2.1 (fun _ => 1) (fun _ _ => rfl)).2
        (by decide)⟩

end pdf

end DeckForge

/-! ## Theorems: the progress reporter -/

namespace DeckForge

namespace progress

theorem calls_reporter (cs : List Call) :
    ∀ (pr : ProgressReporter) (w : World),
      (ProgressReporter.calls cs (pr, w)).1.currentIndex = pr.currentIndex + stages cs ∧
      (ProgressReporter.calls cs (pr, w)).1.totalOperations = pr.totalOperations ∧
      (ProgressReporter.calls cs (pr, w)).1.errors = pr.errors ++ records cs := by
  induction cs with
  | nil => intro pr w; simp [ProgressReporter.calls, stages, records]
  | cons c cs ih =>
    intro pr w
    cases c with
    | UpdateStage description =>
      have e : ProgressReporter.calls (Call.UpdateStage description :: cs) (pr, w) =
          ProgressReporter.calls cs
            ((pr.UpdateStage description w).1, (pr.UpdateStage description w).2) := rfl
      obtain ⟨h1, h2, h3⟩ := ih (pr.UpdateStage description w).1 (pr.UpdateStage description w).2
      rw [e, h1, h2, h3]
      refine ⟨?_, rfl, rfl⟩
      simp only [ProgressReporter.UpdateStage, stages, Nat.cast_add, Nat.cast_one]
      ring
    | AddError cardName errorMsg =>
      have e : ProgressReporter.calls (Call.AddError cardName errorMsg :: cs) (pr, w) =
          ProgressReporter.calls cs (pr.AddError cardName errorMsg, w) := rfl
      obtain ⟨h1, h2, h3⟩ := ih (pr.AddError cardName errorMsg) w
      rw [e, h1, h2, h3]
      refine ⟨rfl, rfl, ?_⟩
      simp only [ProgressReporter.AddError, records, List.append_assoc, List.singleton_append]

theorem calls_stages_stdout (labels : List String) :
    ∀ (pr : ProgressReporter) (w : World),
      (ProgressReporter.calls (labels.map Call.UpdateStage) (pr, w)).2 =
        { w with stdout := w.stdout ++ stageLines pr.totalOperations pr.currentIndex labels } := by
  induction labels with
  | nil => intro pr w; simp [ProgressReporter.calls, stageLines]
  | cons label labels ih =>
    intro pr w
    simp only [List.map_cons, ProgressReporter.calls]
    rw [ih]
    simp [ProgressReporter.UpdateStage, stageLines, stageLine]

theorem stages_map_UpdateStage (labels : List String) :
    stages (labels.map Call.UpdateStage) = labels.length := by
  induction labels with
  | nil => rfl
  | cons label labels ih => simp [stages, ih]

/-- C14. `StartUnified(desc, total)` leaves the reporter with `totalOperations = total`,
`currentIndex = 0` and no recorded error. `UpdateStage(label)` raises `currentIndex` by exactly
1, prints the one line `[currentIndex/total] label` with the new index, and changes nothing
else. So after `StartUnified` and k calls of `UpdateStage` the index is k and the lines carry
the indices 1 to k; with calls of `AddError` in between the index is the number of
`UpdateStage` calls. The index never goes down: `UpdateStage` adds 1, and `AddError` and
`Finish` leave it as it is. -/
theorem reporter_counter (pr : ProgressReporter) (w : World) :
    (∀ (desc : String) (total : Int),
      (pr.StartUnified desc total).totalOperations = total ∧
      (pr.StartUnified desc total).currentIndex = 0 ∧
      (pr.StartUnified desc total).errors = []) ∧
    (∀ label : String,
      (pr.UpdateStage label w).1 = { pr with currentIndex := pr.currentIndex + 1 } ∧
      (pr.UpdateStage label w).2 =
        { w with stdout := w.stdout ++
          ["[" ++ toString (pr.currentIndex + 1) ++ "/" ++ toString pr.totalOperations ++ "] "
            ++ label ++ "\n"] }) ∧
    (∀ (desc : String) (total : Int) (labels : List String),
      (ProgressReporter.calls (labels.map Call.UpdateStage)
        (pr.StartUnified desc total, w)).1.currentIndex = labels.length ∧
      (ProgressReporter.calls (labels.map Call.UpdateStage)
        (pr.StartUnified desc total, w)).2 =
        { w with stdout := w.stdout ++ stageLines total 0 labels }) ∧
    (∀ (desc : String) (total : Int) (cs : List Call),
      (ProgressReporter.calls cs (pr.StartUnified desc total, w)).1.currentIndex = stages cs ∧
      (ProgressReporter.calls cs (pr.StartUnified desc total, w)).1.totalOperations = total) ∧
    (∀ label : String, pr.currentIndex < (pr.UpdateStage label w).1.currentIndex) ∧
    (∀ cardName errorMsg : String,
      (pr.AddError cardName errorMsg).currentIndex = pr.currentIndex) ∧
    (∀ (Base : String → String) (outputPath : String),
      (pr.Finish Base outputPath w).1 = pr) ∧
    (∀ cs : List Call, pr.currentIndex ≤ (ProgressReporter.calls cs (pr, w)).1.currentIndex) := by
  refine ⟨?_, ?_, ?_, ?_, ?_, ?_, ?_, ?_⟩
  · intro desc total
    exact ⟨rfl, rfl, rfl⟩
  · intro label
    exact ⟨rfl, rfl⟩
  · intro desc total labels
    refine ⟨?_, ?_⟩
    · rw [(calls_reporter _ _ _).1, stages_map_UpdateStage]
      simp [ProgressReporter.StartUnified]
    · rw [calls_stages_stdout]
      rfl
  · intro desc total cs
    obtain ⟨h1, h2, -⟩ := calls_reporter cs (pr.StartUnified desc total) w
    refine ⟨?_, ?_⟩
    · rw [h1]
      simp [ProgressReporter.StartUnified]
    · rw [h2]
      rfl
  · intro label
    simp [ProgressReporter.UpdateStage]
  · intro cardName errorMsg
    rfl
  · intro Base outputPath
    unfold ProgressReporter.Finish
    split <;> rfl
  · intro cs
    rw [(calls_reporter cs pr w).1]
    omega

/-- The run of the test `update stage increments index`, with what it prints. -/
theorem reporter_counter_example :
    ProgressReporter.calls [.UpdateStage "Operation 1", .UpdateStage "Operation 2"]
        (NewProgressReporter.StartUnified "Test" 3, {}) =
      ({ currentIndex := 2, totalOperations := 3, errors := [] },
       { stdout := ["[1/3] Operation 1\n", "[2/3] Operation 2\n"] }) := by
  decide

/-- C15. `AddError(subject, message)` appends the one record `subject: message` to the end of
the error list and changes nothing else. `Finish` prints, when the error list is empty, the
single success line with the base name of the output path on standard output, and nothing on
standard error; otherwise it prints nothing on standard output and, on standard error, the
header with the number of records followed by one bullet line per record, in recording order.
The success line is printed if and only if the list is empty. After `StartUnified` the list
holds the records of the `AddError` calls made since, in order. -/
theorem reporter_errors (Base : String → String) (pr : ProgressReporter) (w : World)
    (outputPath : String) :
    (∀ cardName errorMsg : String,
      pr.AddError cardName errorMsg =
        { pr with errors := pr.errors ++ [cardName ++ ": " ++ errorMsg] }) ∧
    (pr.errors = [] →
      (pr.Finish Base outputPath w).2 =
        { w with stdout := w.stdout ++
          ["\n✅ Successfully generated PDF '" ++ Base outputPath ++ "'\n"] }) ∧
    (pr.errors ≠ [] →
      (pr.Finish Base outputPath w).2 =
        { w with stderr := w.stderr ++
          ["\n❌ PDF generation completed with " ++ toString pr.errors.length ++ " error(s):\n"]
            ++ pr.errors.map (fun err => "   • " ++ err ++ "\n") }) ∧
    ((pr.Finish Base outputPath w).2.stdout =
        w.stdout ++ ["\n✅ Successfully generated PDF '" ++ Base outputPath ++ "'\n"] ↔
      pr.errors = []) ∧
    (∀ (desc : String) (total : Int) (cs : List Call),
      (ProgressReporter.calls cs (pr.StartUnified desc total, w)).1.errors = records cs) := by
  refine ⟨fun _ _ => rfl, ?_, ?_, ?_, ?_⟩
  · intro h
    simp [ProgressReporter.Finish, h]
  · intro h
    have h0 : ¬ pr.errors.length = 0 := by simpa using h
    simp [ProgressReporter.Finish, h0]
  · constructor
    · intro h
      by_contra hne
      have h0 : ¬ pr.errors.length = 0 := by simpa using hne
      simp [ProgressReporter.Finish, h0] at h
    · intro h
      simp [ProgressReporter.Finish, h]
  · intro desc total cs
    rw [(calls_reporter cs _ w).2.2]
    simp [ProgressReporter.StartUnified]

theorem reporter_errors_witness :
    ((ProgressReporter.calls [.AddError "Card1" "Network error", .UpdateStage "Op 1",
        .AddError "Card2" "Parse error"] (NewProgressReporter.StartUnified "Test" 3, {})).1.Finish
      id "test.pdf" {}).2 =
    { stderr := ["\n❌ PDF generation completed with 2 error(s):\n",
        "   • Card1: Network error\n", "   • Card2: Parse error\n"] } := by
  have h := (reporter_errors id
    (ProgressReporter.calls [.AddError "Card1" "Network error", .UpdateStage "Op 1",
      .AddError "Card2" "Parse error"] (NewProgressReporter.StartUnified "Test" 3, {})).1
    {} "test.pdf").2.2.1 (by decide)
  rw [h]
  decide

/-- The run of the test `finish with success`: three stages, no error, one success line. -/
theorem reporter_success_example :
    ((ProgressReporter.calls [.UpdateStage "Op 1", .UpdateStage "Op 2", .UpdateStage "Op 3"]
        (NewProgressReporter.StartUnified "Test" 3, {})).1.Finish id "test.pdf" {}).2 =
    { stdout := ["\n✅ Successfully generated PDF 'test.pdf'\n"] } := by
  decide

end progress

end DeckForge

/-! ## Theorems: the image cache -/

namespace DeckForge

namespace scryfall

theorem World.exists_cons_self (w : World) (path : String) (data : Bytes) :
    World.exists { w with files := (path, data) :: w.files } path = true := by
  simp [World.exists, List.lookup]

/-- A successful `FindCardByID` sends the one request for the card and changes nothing else,
and it succeeds with the same card in every world. -/
theorem FindCardByID_ok (env : Env) (id : String) (w v : World) (card : Card)
    (h : FindCardByID env id w = (.ok card, v)) :
    ∀ w' : World, FindCardByID env id w' =
      (.ok card, { w' with requests := w'.requests ++ [baseURL ++ id] }) := by
  intro w'
  unfold FindCardByID at h ⊢
  repeat' split at h
  all_goals simp_all

theorem FindCardByID_frame (env : Env) (id : String) (w : World) :
    (FindCardByID env id w).2.files = w.files ∧
      ((FindCardByID env id w).2.requests = w.requests ∨
        (FindCardByID env id w).2.requests = w.requests ++ [baseURL ++ id]) := by
  unfold FindCardByID
  repeat' split
  all_goals simp_all

theorem DownloadImageFromURL_hit (env : Env) (imageURL cacheKey cacheDir : String) (w : World)
    (hurl : imageURL ≠ "")
    (hex : w.exists (env.Join cacheDir (cacheKey ++ ".jpg")) = true) :
    DownloadImageFromURL env imageURL cacheKey cacheDir w =
      (.ok (env.Join cacheDir (cacheKey ++ ".jpg")), w) := by
  simp [DownloadImageFromURL, hurl, hex]

theorem DownloadImageFromURL_ok (env : Env) (imageURL cacheKey cacheDir : String)
    (w w1 : World) (path : String)
    (h : DownloadImageFromURL env imageURL cacheKey cacheDir w = (.ok path, w1)) :
    imageURL ≠ "" ∧ path = env.Join cacheDir (cacheKey ++ ".jpg") ∧
      w1.exists (env.Join cacheDir (cacheKey ++ ".jpg")) = true := by
  unfold DownloadImageFromURL at h
  by_cases hurl : imageURL = ""
  · simp [hurl] at h
  · simp only [hurl, if_false] at h
    by_cases hex : w.exists (env.Join cacheDir (cacheKey ++ ".jpg")) = true
    · simp only [hex, if_true, Prod.mk.injEq, Except.ok.injEq] at h
      obtain ⟨rfl, rfl⟩ := h
      exact ⟨hurl, rfl, hex⟩
    · have hex' : w.exists (env.Join cacheDir (cacheKey ++ ".jpg")) = false := by
        simpa using hex
      simp only [hex', Bool.false_eq_true, if_false] at h
      repeat' split at h
      all_goals simp only [Prod.mk.injEq, reduceCtorEq, false_and, Except.ok.injEq] at h
      obtain ⟨rfl, rfl⟩ := h
      exact ⟨hurl, rfl, World.exists_cons_self _ _ _⟩

theorem DownloadCardImage_ok (env : Env) (cardID cacheDir quality : String)
    (w w1 : World) (path : String)
    (h : DownloadCardImage env cardID cacheDir quality w = (.ok path, w1)) :
    path = env.Join cacheDir (cardID ++ "_" ++ quality ++ ".jpg") ∧
      w1.exists (env.Join cacheDir (cardID ++ "_" ++ quality ++ ".jpg")) = true ∧
      ∀ w' : World, w'.exists (env.Join cacheDir (cardID ++ "_" ++ quality ++ ".jpg")) = true →
        DownloadCardImage env cardID cacheDir quality w' =
          (.ok path, { w' with requests := w'.requests ++ [baseURL ++ cardID] }) := by
  unfold DownloadCardImage at h
  rcases hF : FindCardByID env cardID w with ⟨res, v⟩
  rw [hF] at h
  cases res with
  | error err => simp at h
  | ok card =>
    have hall := FindCardByID_ok env cardID w v card hF
    simp only at h
    generalize hu : (if quality = "normal" then card.ImageURIs.Normal
      else if quality = "large" then card.ImageURIs.Large
      else if quality = "png" then card.ImageURIs.PNG
      else card.ImageURIs.Normal) = imageURL at h
    by_cases hurl : imageURL = ""
    · simp [hurl] at h
    · simp only [hurl, if_false] at h
      have hhit : ∀ w' : World,
          w'.exists (env.Join cacheDir (cardID ++ "_" ++ quality ++ ".jpg")) = true →
          DownloadCardImage env cardID cacheDir quality w' =
            (.ok (env.Join cacheDir (cardID ++ "_" ++ quality ++ ".jpg")),
              { w' with requests := w'.requests ++ [baseURL ++ cardID] }) := by
        intro w' hex'
        have hex'' : World.exists { w' with requests := w'.requests ++ [baseURL ++ cardID] }
            (env.Join cacheDir (cardID ++ "_" ++ quality ++ ".jpg")) = true := hex'
        unfold DownloadCardImage
        rw [hall w']
        simp only [hu, hurl, if_false, hex'', if_true]
      by_cases hex : v.exists (env.Join cacheDir (cardID ++ "_" ++ quality ++ ".jpg")) = true
      · simp only [hex, if_true, Prod.mk.injEq, Except.ok.injEq] at h
        obtain ⟨rfl, rfl⟩ := h
        exact ⟨rfl, hex, hhit⟩
      · have hex' : v.exists (env.Join cacheDir (cardID ++ "_" ++ quality ++ ".jpg")) = false := by
          simpa using hex
        simp only [hex', Bool.false_eq_true, if_false] at h
        repeat' split at h
        all_goals simp only [Prod.mk.injEq, reduceCtorEq, false_and, Except.ok.injEq] at h
        obtain ⟨rfl, rfl⟩ := h
        exact ⟨rfl, World.exists_cons_self _ _ _, hhit⟩

theorem DownloadCardImage_hit_frame (env : Env) (cardID cacheDir quality : String) (w : World)
    (hex : w.exists (env.Join cacheDir (cardID ++ "_" ++ quality ++ ".jpg")) = true) :
    (DownloadCardImage env cardID cacheDir quality w).2.files = w.files ∧
    ((DownloadCardImage env cardID cacheDir quality w).2.requests = w.requests ∨
      (DownloadCardImage env cardID cacheDir quality w).2.requests =
        w.requests ++ [baseURL ++ cardID]) ∧
    ∀ path, (DownloadCardImage env cardID cacheDir quality w).1 = .ok path →
      path = env.Join cacheDir (cardID ++ "_" ++ quality ++ ".jpg") := by
  obtain ⟨hf, hr⟩ := FindCardByID_frame env cardID w
  unfold DownloadCardImage
  rcases hF : FindCardByID env cardID w with ⟨res, v⟩
  rw [hF] at hf hr
  simp only at hf hr
  have hex' : v.exists (env.Join cacheDir (cardID ++ "_" ++ quality ++ ".jpg")) = true := by
    simpa [World.exists, hf] using hex
  cases res with
  | error err => simp [hf, hr]
  | ok card =>
    simp only [hex', if_true]
    generalize (if quality = "normal" then card.ImageURIs.Normal
      else if quality = "large" then card.ImageURIs.Large
      else if quality = "png" then card.ImageURIs.PNG
      else card.ImageURIs.Normal) = imageURL
    by_cases hurl : imageURL = ""
    · simp only [hurl, if_true]
      exact ⟨hf, hr, fun path hp => by simp at hp⟩
    · simp only [hurl, if_false]
      refine ⟨hf, hr, fun path hp => ?_⟩
      simp only [Except.ok.injEq] at hp
      exact hp.symm

/-- C16, as stated, fails for the fetch by identifier: a second call of `DownloadCardImage`
with the same arguments returns the same path and leaves the cached file as it is, yet it
sends a request again, the one for the card data; and with a file at the cache path it still
fails when that request fails. -/
theorem DownloadCardImage_requests_card_again :
    DownloadCardImage pdf.exampleEnv "bolt" ".card_cache" "normal" {} =
      (.ok ".card_cache/bolt_normal.jpg",
        { files := [(".card_cache/bolt_normal.jpg", [10])],
          requests := ["https://api.scryfall.com/cards/bolt",
            "https://img.example/bolt.jpg"] }) ∧
    DownloadCardImage pdf.exampleEnv "bolt" ".card_cache" "normal"
        { files := [(".card_cache/bolt_normal.jpg", [10])],
          requests := ["https://api.scryfall.com/cards/bolt",
            "https://img.example/bolt.jpg"] } =
      (.ok ".card_cache/bolt_normal.jpg",
        { files := [(".card_cache/bolt_normal.jpg", [10])],
          requests := ["https://api.scryfall.com/cards/bolt", "https://img.example/bolt.jpg",
            "https://api.scryfall.com/cards/bolt"] }) ∧
    DownloadCardImage pdf.exampleEnv "ghost" ".card_cache" "normal"
        { files := [(".card_cache/ghost_normal.jpg", [1])] } =
      (.error "failed to find card ghost: Error: 404 Not Found",
        { files := [(".card_cache/ghost_normal.jpg", [1])],
          requests := ["https://api.scryfall.com/cards/ghost"] }) := by
  decide

/-- C16, amended. `DownloadImageFromURL`: with a non-empty URL and a file at the cache path it
returns that path and leaves the world as it is (no request, no write); so after a successful
call a second call with the same arguments returns the same path and changes nothing.
`DownloadCardImage` first requests the card data, on every call: after a successful call a
second call with the same arguments returns the same path, leaves the files as they are and
sends that one request and no other; and whenever a file is at the cache path it writes no
file, sends no request but the one for the card data, and can return no other path. -/
theorem image_cache_idempotent (env : Env) (w : World) :
    (∀ imageURL cacheKey cacheDir : String, imageURL ≠ "" →
      w.exists (env.Join cacheDir (cacheKey ++ ".jpg")) = true →
      DownloadImageFromURL env imageURL cacheKey cacheDir w =
        (.ok (env.Join cacheDir (cacheKey ++ ".jpg")), w)) ∧
    (∀ (imageURL cacheKey cacheDir path : String) (w1 : World),
      DownloadImageFromURL env imageURL cacheKey cacheDir w = (.ok path, w1) →
      DownloadImageFromURL env imageURL cacheKey cacheDir w1 = (.ok path, w1)) ∧
    (∀ (cardID cacheDir quality path : String) (w1 : World),
      DownloadCardImage env cardID cacheDir quality w = (.ok path, w1) →
      DownloadCardImage env cardID cacheDir quality w1 =
        (.ok path, { w1 with requests := w1.requests ++ [baseURL ++ cardID] })) ∧
    (∀ cardID cacheDir quality : String,
      w.exists (env.Join cacheDir (cardID ++ "_" ++ quality ++ ".jpg")) = true →
      (DownloadCardImage env cardID cacheDir quality w).2.files = w.files ∧
      ((DownloadCardImage env cardID cacheDir quality w).2.requests = w.requests ∨
        (DownloadCardImage env cardID cacheDir quality w).2.requests =
          w.requests ++ [baseURL ++ cardID]) ∧
      ∀ path, (DownloadCardImage env cardID cacheDir quality w).1 = .ok path →
        path = env.Join cacheDir (cardID ++ "_" ++ quality ++ ".jpg")) := by
  refine ⟨?_, ?_, ?_, ?_⟩
  · intro imageURL cacheKey cacheDir hurl hex
    exact DownloadImageFromURL_hit env imageURL cacheKey cacheDir w hurl hex
  · intro imageURL cacheKey cacheDir path w1 h
    obtain ⟨hurl, hpath, hex⟩ := DownloadImageFromURL_ok env imageURL cacheKey cacheDir w w1 path h
    rw [hpath]
    exact DownloadImageFromURL_hit env imageURL cacheKey cacheDir w1 hurl hex
  · intro cardID cacheDir quality path w1 h
    obtain ⟨-, hex, hhit⟩ := DownloadCardImage_ok env cardID cacheDir quality w w1 path h
    exact hhit w1 hex
  · intro cardID cacheDir quality hex
    exact DownloadCardImage_hit_frame env cardID cacheDir quality w hex

theorem image_cache_idempotent_witness :
    DownloadImageFromURL pdf.exampleEnv "https://img.example/lotus.jpg" "lotus_normal"
        ".card_cache"
        { files := [(".card_cache/lotus_normal.jpg", [20])],
          requests := ["https://img.example/lotus.jpg"] } =
      (.ok ".card_cache/lotus_normal.jpg",
        { files := [(".card_cache/lotus_normal.jpg", [20])],
          requests := ["https://img.example/lotus.jpg"] }) :=
  (image_cache_idempotent pdf.exampleEnv {}).2.1 "https://img.example/lotus.jpg" "lotus_normal"
    ".card_cache" ".card_cache/lotus_normal.jpg"
    { files := [(".card_cache/lotus_normal.jpg", [20])],
      requests := ["https://img.example/lotus.jpg"] } (by decide)

end scryfall

end DeckForge

/-! ## Theorems: a run without the reporter -/

namespace DeckForge

namespace pdf

open progress (ProgressReporter)

theorem FindCardByID_stdout (env : Env) (id : String) (w : World) (out : List String) :
    scryfall.FindCardByID env id { w with stdout := out } =
      ((scryfall.FindCardByID env id w).1,
        { (scryfall.FindCardByID env id w).2 with stdout := out }) := by
  unfold scryfall.FindCardByID
  repeat' split
  all_goals simp_all

theorem DownloadImageFromURL_stdout (env : Env) (imageURL cacheKey cacheDir : String)
    (w : World) (out : List String) :
    scryfall.DownloadImageFromURL env imageURL cacheKey cacheDir { w with stdout := out } =
      ((scryfall.DownloadImageFromURL env imageURL cacheKey cacheDir w).1,
        { (scryfall.DownloadImageFromURL env imageURL cacheKey cacheDir w).2 with
          stdout := out }) := by
  unfold scryfall.DownloadImageFromURL
  simp only [World.exists]
  repeat' split
  all_goals simp_all

theorem DownloadCardImage_stdout (env : Env) (cardID cacheDir quality : String)
    (w : World) (out : List String) :
    scryfall.DownloadCardImage env cardID cacheDir quality { w with stdout := out } =
      ((scryfall.DownloadCardImage env cardID cacheDir quality w).1,
        { (scryfall.DownloadCardImage env cardID cacheDir quality w).2 with
          stdout := out }) := by
  unfold scryfall.DownloadCardImage
  rw [FindCardByID_stdout]
  rcases scryfall.FindCardByID env cardID w with ⟨res, v⟩
  cases res with
  | error err => rfl
  | ok card =>
    simp only [World.exists]
    generalize (if quality = "normal" then card.ImageURIs.Normal
      else if quality = "large" then card.ImageURIs.Large
      else if quality = "png" then card.ImageURIs.PNG
      else card.ImageURIs.Normal) = imageURL
    repeat' split
    all_goals simp_all

theorem loadImage_stdout (env : Env) (ce : CardEntry) (cacheDir : String) (w : World)
    (out : List String) :
    loadImage env ce cacheDir { w with stdout := out } =
      ((loadImage env ce cacheDir w).1, { (loadImage env ce cacheDir w).2 with stdout := out }) := by
  unfold loadImage
  split
  · exact DownloadImageFromURL_stdout env _ _ _ w out
  · exact DownloadCardImage_stdout env _ _ _ w out

theorem generatePage_stdout (env : Env) (g : Generator) (ce : CardEntry) (cacheDir : String)
    (w : World) (out : List String) :
    g.generatePage env ce cacheDir { w with stdout := out } =
      ((g.generatePage env ce cacheDir w).1,
        { (g.generatePage env ce cacheDir w).2 with stdout := out }) := by
  unfold Generator.generatePage
  rw [loadImage_stdout]
  rcases loadImage env ce cacheDir w with ⟨res, v⟩
  cases res with
  | error err => rfl
  | ok imagePath =>
    simp only [GoPdf.Image]
    repeat' split
    all_goals simp_all [World.logEvent]

theorem Run.quiet_UpdateStage (r : Run) (out : List String) (description : String) :
    (r.quiet out).UpdateStage description = r.quiet out := rfl

theorem Run.UpdateStage_quiet (r : Run) (out : List String) (description : String) :
    (r.UpdateStage description).quiet out = r.quiet out := by
  rcases r with ⟨pages, progress, world⟩
  cases progress <;> rfl

theorem faceStep_quiet (env : Env) (g : Generator) (cacheDir : String) (cardEntry : CardEntry)
    (r : Run) (out : List String) (face : scryfall.CardFace) :
    g.faceStep env cacheDir cardEntry (r.quiet out) face =
      (g.faceStep env cacheDir cardEntry r face).quiet out := by
  have hq := Run.UpdateStage_quiet r out ("Generating page: " ++ face.Name)
  simp only [Generator.faceStep, Run.quiet_UpdateStage]
  rw [← hq]
  generalize r.UpdateStage ("Generating page: " ++ face.Name) = r1
  have hw : (r1.quiet out).world = { r1.world with stdout := out } := rfl
  rw [hw, generatePage_stdout]
  rcases g.generatePage env (faceEntry cardEntry face) cacheDir r1.world with ⟨res, v⟩
  cases res with
  | error err => rfl
  | ok facePage =>
    simp only
    split <;> rfl

theorem faces_quiet (env : Env) (g : Generator) (cacheDir : String) (cardEntry : CardEntry)
    (faces : List scryfall.CardFace) (out : List String) :
    ∀ r : Run, faces.foldl (g.faceStep env cacheDir cardEntry) (r.quiet out) =
      (faces.foldl (g.faceStep env cacheDir cardEntry) r).quiet out := by
  induction faces with
  | nil => intro r; rfl
  | cons face faces ih =>
    intro r
    rw [List.foldl_cons, List.foldl_cons, faceStep_quiet, ih]

theorem entryStep_quiet (env : Env) (g : Generator) (cacheDir : String) (r : Run)
    (out : List String) (cardEntry : CardEntry) :
    g.entryStep env cacheDir (r.quiet out) cardEntry =
      (g.entryStep env cacheDir r cardEntry).quiet out := by
  have hq := Run.UpdateStage_quiet r out ("Fetching card: " ++ cardEntry.ID)
  simp only [Generator.entryStep, Run.quiet_UpdateStage]
  rw [← hq]
  generalize r.UpdateStage ("Fetching card: " ++ cardEntry.ID) = r1
  have hw : (r1.quiet out).world = { r1.world with stdout := out } := rfl
  rw [hw, FindCardByID_stdout]
  rcases scryfall.FindCardByID env cardEntry.ID r1.world with ⟨res, v⟩
  cases res with
  | error err => rfl
  | ok card =>
    simp only
    split
    · exact faces_quiet env g cacheDir cardEntry card.CardFaces out { r1 with world := v }
    · have hq2 := Run.UpdateStage_quiet { r1 with world := v } out
        ("Generating page: " ++ card.Name)
      have hq3 : Run.UpdateStage
          { pages := (r1.quiet out).pages, progress := (r1.quiet out).progress,
            world := { v with stdout := out } } ("Generating page: " ++ card.Name) =
          (Run.UpdateStage { r1 with world := v } ("Generating page: " ++ card.Name)).quiet out := by
        rw [hq2]
        rfl
      rw [hq3]
      generalize Run.UpdateStage { r1 with world := v } ("Generating page: " ++ card.Name) = r2
      have hw2 : (r2.quiet out).world = { r2.world with stdout := out } := rfl
      rw [hw2, generatePage_stdout]
      rcases g.generatePage env { cardEntry with Card := card } cacheDir r2.world with ⟨pres, u⟩
      cases pres with
      | error err => rfl
      | ok page =>
        simp only
        split <;> rfl

theorem cards_quiet (env : Env) (g : Generator) (cacheDir : String) (cards : List CardEntry)
    (out : List String) :
    ∀ r : Run, cards.foldl (g.entryStep env cacheDir) (r.quiet out) =
      (cards.foldl (g.entryStep env cacheDir) r).quiet out := by
  induction cards with
  | nil => intro r; rfl
  | cons e cards ih =>
    intro r
    rw [List.foldl_cons, List.foldl_cons, entryStep_quiet, ih]

theorem FindCardByID_stderr (env : Env) (id : String) (w : World) :
    (scryfall.FindCardByID env id w).2.stderr = w.stderr := by
  unfold scryfall.FindCardByID
  repeat' split
  all_goals simp_all

theorem DownloadImageFromURL_stderr (env : Env) (imageURL cacheKey cacheDir : String)
    (w : World) :
    (scryfall.DownloadImageFromURL env imageURL cacheKey cacheDir w).2.stderr = w.stderr := by
  unfold scryfall.DownloadImageFromURL
  simp only [World.exists]
  repeat' split
  all_goals simp_all

theorem DownloadCardImage_stderr (env : Env) (cardID cacheDir quality : String) (w : World) :
    (scryfall.DownloadCardImage env cardID cacheDir quality w).2.stderr = w.stderr := by
  have h := FindCardByID_stderr env cardID w
  unfold scryfall.DownloadCardImage
  rcases hF : scryfall.FindCardByID env cardID w with ⟨res, v⟩
  rw [hF] at h
  simp only at h
  cases res with
  | error err => simpa using h
  | ok card =>
    simp only [World.exists]
    generalize (if quality = "normal" then card.ImageURIs.Normal
      else if quality = "large" then card.ImageURIs.Large
      else if quality = "png" then card.ImageURIs.PNG
      else card.ImageURIs.Normal) = imageURL
    repeat' split
    all_goals simp_all

theorem generatePage_stderr (env : Env) (g : Generator) (ce : CardEntry) (cacheDir : String)
    (w : World) : (g.generatePage env ce cacheDir w).2.stderr = w.stderr := by
  have h : (loadImage env ce cacheDir w).2.stderr = w.stderr := by
    unfold loadImage
    split
    · exact DownloadImageFromURL_stderr env _ _ _ w
    · exact DownloadCardImage_stderr env _ _ _ w
  unfold Generator.generatePage
  rcases hL : loadImage env ce cacheDir w with ⟨res, v⟩
  rw [hL] at h
  simp only at h
  cases res with
  | error err => simpa [World.logEvent] using h
  | ok imagePath =>
    simp only
    split
    · simpa [World.logEvent] using h
    · simpa using h

theorem Run.UpdateStage_stderr (r : Run) (description : String) :
    (r.UpdateStage description).world.stderr = r.world.stderr := by
  rcases r with ⟨pages, progress, world⟩
  cases progress <;> rfl

theorem faceStep_stderr (env : Env) (g : Generator) (cacheDir : String) (cardEntry : CardEntry)
    (r : Run) (face : scryfall.CardFace) :
    (g.faceStep env cacheDir cardEntry r face).world.stderr = r.world.stderr := by
  have h1 := Run.UpdateStage_stderr r ("Generating page: " ++ face.Name)
  simp only [Generator.faceStep]
  generalize r.UpdateStage ("Generating page: " ++ face.Name) = r1 at h1
  have h2 := generatePage_stderr env g (faceEntry cardEntry face) cacheDir r1.world
  rcases hG : g.generatePage env (faceEntry cardEntry face) cacheDir r1.world with ⟨res, v⟩
  rw [hG] at h2
  simp only at h2
  cases res with
  | error err => simpa [Run.AddError, World.logEvent, h2] using h1
  | ok facePage =>
    simp only
    split
    · simpa [Run.appendCopies, h2] using h1
    · simpa [h2] using h1

theorem faces_stderr (env : Env) (g : Generator) (cacheDir : String) (cardEntry : CardEntry)
    (faces : List scryfall.CardFace) :
    ∀ r : Run, (faces.foldl (g.faceStep env cacheDir cardEntry) r).world.stderr =
      r.world.stderr := by
  induction faces with
  | nil => intro r; rfl
  | cons face faces ih =>
    intro r
    rw [List.foldl_cons, ih, faceStep_stderr]

theorem entryStep_stderr (env : Env) (g : Generator) (cacheDir : String) (r : Run)
    (cardEntry : CardEntry) :
    (g.entryStep env cacheDir r cardEntry).world.stderr = r.world.stderr := by
  have h1 := Run.UpdateStage_stderr r ("Fetching card: " ++ cardEntry.ID)
  simp only [Generator.entryStep]
  generalize r.UpdateStage ("Fetching card: " ++ cardEntry.ID) = r1 at h1
  have h2 := FindCardByID_stderr env cardEntry.ID r1.world
  rcases hF : scryfall.FindCardByID env cardEntry.ID r1.world with ⟨res, v⟩
  rw [hF] at h2
  simp only at h2
  cases res with
  | error err => simpa [Run.AddError, World.logEvent, h2] using h1
  | ok card =>
    simp only
    split
    · rw [faces_stderr]
      simpa [h2] using h1
    · have h3 := Run.UpdateStage_stderr { r1 with world := v }
        ("Generating page: " ++ card.Name)
      generalize Run.UpdateStage { r1 with world := v } ("Generating page: " ++ card.Name)
        = r2 at h3
      have h4 := generatePage_stderr env g { cardEntry with Card := card } cacheDir r2.world
      rcases hG : g.generatePage env { cardEntry with Card := card } cacheDir r2.world
        with ⟨pres, u⟩
      rw [hG] at h4
      simp only at h3 h4
      cases pres with
      | error err => simp [Run.AddError, World.logEvent, h4, h3, h2, h1]
      | ok page =>
        simp only
        split
        · simp [Run.appendCopies, h4, h3, h2, h1]
        · simp [h4, h3, h2, h1]

theorem cards_stderr (env : Env) (g : Generator) (cacheDir : String) (cards : List CardEntry) :
    ∀ r : Run, (cards.foldl (g.entryStep env cacheDir) r).world.stderr = r.world.stderr := by
  induction cards with
  | nil => intro r; rfl
  | cons e cards ih =>
    intro r
    rw [List.foldl_cons, ih, entryStep_stderr]

theorem GeneratePDF_stderr (env : Env) (g : Generator) (decklist : Decklist)
    (progress : Option ProgressReporter) (w : World) :
    (g.GeneratePDF env decklist progress w).world.stderr = w.stderr := by
  have hloop := cards_stderr env g ".card_cache" decklist.Cards (startRun decklist progress w)
  have hs : (startRun decklist progress w).world.stderr = w.stderr := rfl
  rw [hs] at hloop
  simp only [Generator.GeneratePDF]
  cases hmk : env.MkdirAll ".card_cache" with
  | some err => rfl
  | none =>
    simp only
    generalize decklist.Cards.foldl (g.entryStep env ".card_cache")
      (startRun decklist progress w) = L at hloop
    have hU := Run.UpdateStage_stderr L "Assembling PDF"
    split
    · exact hloop
    · split
      · rw [hU, hloop]
      · split
        · rw [hU, hloop]
        · simp only
          rw [hU, hloop]

/-- C17. For every decklist, every reporter and every behaviour of the collaborators, the
call of `GeneratePDF` without a reporter leaves what the call with the reporter leaves, less
the reporter and what it printed: the same returned error, the same page list, the same
files (the written output among them), requests and log events, and a standard output and a
standard error that are those the call started with. -/
theorem GeneratePDF_without_reporter (env : Env) (g : Generator) (decklist : Decklist)
    (pr : ProgressReporter) (w : World) :
    g.GeneratePDF env decklist none w =
      (g.GeneratePDF env decklist (some pr) w).quiet w.stdout ∧
    (g.GeneratePDF env decklist none w).err = (g.GeneratePDF env decklist (some pr) w).err ∧
    (g.GeneratePDF env decklist none w).pages = (g.GeneratePDF env decklist (some pr) w).pages ∧
    (g.GeneratePDF env decklist none w).world.files =
      (g.GeneratePDF env decklist (some pr) w).world.files ∧
    (g.GeneratePDF env decklist none w).world.requests =
      (g.GeneratePDF env decklist (some pr) w).world.requests ∧
    (g.GeneratePDF env decklist none w).world.log =
      (g.GeneratePDF env decklist (some pr) w).world.log ∧
    (g.GeneratePDF env decklist none w).world.stdout = w.stdout ∧
    (g.GeneratePDF env decklist none w).world.stderr = w.stderr := by
  have key : g.GeneratePDF env decklist none w =
      (g.GeneratePDF env decklist (some pr) w).quiet w.stdout := by
    have hstart : startRun decklist none w = (startRun decklist (some pr) w).quiet w.stdout := rfl
    have hloop := cards_quiet env g ".card_cache" decklist.Cards w.stdout
      (startRun decklist (some pr) w)
    rw [← hstart] at hloop
    simp only [Generator.GeneratePDF]
    cases hmk : env.MkdirAll ".card_cache" with
    | some err => rfl
    | none =>
      simp only [hloop]
      generalize decklist.Cards.foldl (g.entryStep env ".card_cache")
        (startRun decklist (some pr) w) = L
      have hU : (L.UpdateStage "Assembling PDF").pages = L.pages := Run.UpdateStage_pages L _
      have hq : (L.quiet w.stdout).UpdateStage "Assembling PDF" =
          (L.UpdateStage "Assembling PDF").quiet w.stdout := by
        rw [Run.UpdateStage_quiet]
        rfl
      by_cases h0 : L.pages.length = 0
      · have h0' : (L.quiet w.stdout).pages.length = 0 := h0
        simp only [h0, h0', if_true]
        rfl
      · have h0' : ¬ (L.quiet w.stdout).pages.length = 0 := h0
        simp only [h0, h0', if_false, hq]
        generalize hL2 : L.UpdateStage "Assembling PDF" = L2 at hU
        have hp : (L2.quiet w.stdout).pages = L2.pages := rfl
        rw [hp]
        cases importPages env L2.pages (GoPdf.Start (g.TotalWidth, g.TotalHeight)) with
        | error err => rfl
        | ok pdf =>
          simp only
          cases env.WritePdf pdf g.outputPath with
          | error err => rfl
          | ok bytes => rfl
  have hstderr : (g.GeneratePDF env decklist (some pr) w).world.stderr = w.stderr :=
    GeneratePDF_stderr env g decklist (some pr) w
  refine ⟨key, ?_, ?_, ?_, ?_, ?_, ?_, ?_⟩
  · rw [key]; rfl
  · rw [key]; rfl
  · rw [key]; rfl
  · rw [key]; rfl
  · rw [key]; rfl
  · rw [key]; rfl
  · rw [key]
    exact hstderr

/-! ## Theorems: `float64` arithmetic -/

end pdf

namespace Float64

theorem roundToEven_dvd (n k : Nat) : 2 ^ k ∣ roundToEven n k := by
  unfold roundToEven
  simp only []
  split_ifs <;> exact Dvd.intro_left _ rfl

theorem roundToEven_exact (n k : Nat) (h : 2 ^ k ∣ n) : roundToEven n k = n := by
  have hr : n % 2 ^ k = 0 := Nat.mod_eq_zero_of_dvd h
  have hp : 0 < 2 ^ k := Nat.pos_pow_of_pos k (by decide : 0 < 2)
  unfold roundToEven
  simp only [hr, Nat.mul_zero, hp, if_true]
  exact Nat.div_mul_cancel h

theorem bitLengthAux_spec : ∀ (fuel n acc : Nat), n ≤ fuel →
    ∃ L, bitLengthAux fuel n acc = acc + L ∧ n < 2 ^ L ∧ (n ≠ 0 → 2 ^ (L - 1) ≤ n) := by
  intro fuel
  induction fuel with
  | zero =>
    intro n acc h
    have : n = 0 := by omega
    subst this
    exact ⟨0, by simp [bitLengthAux], by simp, by simp⟩
  | succ fuel ih =>
    intro n acc h
    cases n with
    | zero => exact ⟨0, by simp [bitLengthAux], by simp, by simp⟩
    | succ n =>
      have hhalf : (n + 1) / 2 ≤ fuel := by omega
      have hstep : bitLengthAux (fuel + 1) (n + 1) acc =
          bitLengthAux fuel ((n + 1) / 2) (acc + 1) := by
        cases acc <;> simp [bitLengthAux]
      obtain ⟨L, hL, hlt, hge⟩ := ih ((n + 1) / 2) (acc + 1) hhalf
      refine ⟨L + 1, by rw [hstep, hL]; omega, ?_, ?_⟩
      · rw [Nat.pow_succ]
        omega
      · intro _
        simp only [Nat.add_sub_cancel]
        by_cases h0 : (n + 1) / 2 = 0
        · have hL0 : L = 0 ∨ 0 < L := Nat.eq_zero_or_pos L
          rcases hL0 with hL0 | hL0
          · subst hL0; simp
          · have hn : n = 0 := by omega
            subst hn
            -- n + 1 = 1 and 1 < 2 ^ L is allowed; but 2 ^ L ≤ 1 is needed
            exfalso
            -- the count for 0 is 0
            have : bitLengthAux fuel ((0 + 1) / 2) (acc + 1) = acc + 1 := by
              cases fuel <;> simp [bitLengthAux]
            omega
        · have := hge h0
          have hLpos : 0 < L := by
            by_contra hc
            have : L = 0 := by omega
            subst this
            simp at hlt
            exact h0 hlt
          have e : 2 ^ L = 2 * 2 ^ (L - 1) := by
            rw [← Nat.pow_succ']
            congr 1
            omega
          omega

theorem bitLength_spec (n : Nat) :
    n < 2 ^ bitLength n ∧ (n ≠ 0 → 2 ^ (bitLength n - 1) ≤ n) := by
  obtain ⟨L, hL, hlt, hge⟩ := bitLengthAux_spec n n 0 (Nat.le_refl n)
  have : bitLength n = L := by simp [bitLength, hL]
  rw [this]
  exact ⟨hlt, hge⟩

theorem bitLength_eq (n L : Nat) (hL : 0 < L) (h1 : 2 ^ (L - 1) ≤ n) (h2 : n < 2 ^ L) :
    bitLength n = L := by
  have hn : n ≠ 0 := by
    have : 0 < 2 ^ (L - 1) := Nat.pos_pow_of_pos _ (by decide)
    omega
  obtain ⟨h3, h4⟩ := bitLength_spec n
  have h4 := h4 hn
  have a : L - 1 < bitLength n :=
    (Nat.pow_lt_pow_iff_right (by decide : 1 < 2)).mp (Nat.lt_of_le_of_lt h1 h3)
  have b : bitLength n - 1 < L :=
    (Nat.pow_lt_pow_iff_right (by decide : 1 < 2)).mp (Nat.lt_of_le_of_lt h4 h2)
  omega

theorem bitLength_pos (n : Nat) (hn : n ≠ 0) : 0 < bitLength n := by
  by_contra h
  have h0 : bitLength n = 0 := by omega
  have := (bitLength_spec n).1
  rw [h0] at this
  simp at this
  exact hn this

theorem bitLength_pow_mul (j m : Nat) (hm : m ≠ 0) :
    bitLength (2 ^ j * m) = bitLength m + j := by
  obtain ⟨h1, h2⟩ := bitLength_spec m
  have h2 := h2 hm
  have hpos := bitLength_pos m hm
  apply bitLength_eq
  · omega
  · have e : bitLength m + j - 1 = j + (bitLength m - 1) := by omega
    rw [e, Nat.pow_add]
    exact Nat.mul_le_mul_left _ h2
  · rw [Nat.add_comm, Nat.pow_add]
    exact Nat.mul_lt_mul_of_pos_left h1 (Nat.pos_pow_of_pos _ (by decide))

theorem two_pow_pos (k : Nat) : 0 < 2 ^ k := Nat.pos_pow_of_pos k (by decide)

theorem two_pow_dvd (a b : Nat) (h : a ≤ b) : 2 ^ a ∣ 2 ^ b := Nat.pow_dvd_pow 2 h

theorem two_pow_add (a b c : Nat) (h : a = b + c) : (2 : Nat) ^ a = 2 ^ b * 2 ^ c := by
  subst h
  exact Nat.pow_add 2 b c

theorem two_pow_succ (a b : Nat) (h : a = b + 1) : (2 : Nat) ^ a = 2 ^ b * 2 := by
  subst h
  exact Nat.pow_succ 2 b

theorem mul_finite (a b : Bool) (m n : Nat) :
    finite a m * finite b n = round (a != b) (m * n) 2148 := by
  show mul (finite a m) (finite b n) = _
  rw [mul]

theorem add_finite (a b : Bool) (m n : Nat) :
    finite a m + finite b n =
      if signed a m + signed b n = 0 then finite (a && b) 0
      else round (decide (signed a m + signed b n < 0)) (signed a m + signed b n).natAbs 1074 := by
  show add (finite a m) (finite b n) = _
  rw [add]

theorem round_exact (neg : Bool) (n s : Nat) (hd : 2 ^ dropBits n s ∣ n)
    (hmax : n / 2 ^ (s - 1074) < 2 ^ 2098) :
    round neg n s = finite neg (n / 2 ^ (s - 1074)) := by
  unfold round
  simp only [roundToEven_exact n _ hd]
  have : ¬ n / 2 ^ (s - 1074) ≥ 2 ^ 2098 := by omega
  simp only [this, if_false]

theorem bitLength_mul_pow (n j : Nat) (hn : n ≠ 0) :
    bitLength (n * 2 ^ j) = bitLength n + j := by
  rw [Nat.mul_comm]
  exact bitLength_pow_mul j n hn

theorem bitLength_le (n k : Nat) (h : n < 2 ^ k) : bitLength n ≤ k := by
  by_cases hn : n = 0
  · subst hn
    have : bitLength 0 = 0 := rfl
    omega
  · have h2 := (bitLength_spec n).2 hn
    have : bitLength n - 1 < k :=
      (Nat.pow_lt_pow_iff_right (by decide : 1 < 2)).mp (Nat.lt_of_le_of_lt h2 h)
    omega

/-- A magnitude with at most 53 binary digits, at any scale, is kept as it is. -/
theorem round_small (neg : Bool) (n j : Nat) (hn : n < 2 ^ 53) (hmax : n * 2 ^ j < 2 ^ 2098) :
    round neg (n * 2 ^ j) 1074 = finite neg (n * 2 ^ j) := by
  have hd : 2 ^ dropBits (n * 2 ^ j) 1074 ∣ n * 2 ^ j := by
    unfold dropBits
    rw [Nat.sub_self, Nat.max_eq_left (Nat.zero_le _)]
    by_cases h0 : n = 0
    · subst h0
      rw [Nat.zero_mul]
      exact Nat.dvd_zero _
    · rw [bitLength_mul_pow n j h0]
      have := bitLength_le n 53 hn
      exact Dvd.dvd.mul_left (two_pow_dvd _ _ (by omega)) n
  have h := round_exact neg (n * 2 ^ j) 1074 hd
  rw [Nat.sub_self, Nat.pow_zero, Nat.div_one] at h
  exact h hmax

theorem two_pow_lt (a b : Nat) (h : a < b) : 2 ^ a < 2 ^ b :=
  Nat.pow_lt_pow_right (by decide) h

/-- The conversion of a constant below `2^53` is exact. -/
theorem ofNat_small (c : Nat) (hc : c < 2 ^ 53) : ofNat c = finite false (c * 2 ^ 1074) := by
  unfold ofNat
  apply round_small false c 1074 hc
  have h1 : c * 2 ^ 1074 < 2 ^ 53 * 2 ^ 1074 :=
    Nat.mul_lt_mul_of_pos_right hc (two_pow_pos 1074)
  have h2 : 2 ^ 53 * 2 ^ 1074 = 2 ^ 1127 := (two_pow_add 1127 53 1074 rfl).symm
  have h3 : 2 ^ 1127 < 2 ^ 2098 := two_pow_lt 1127 2098 (by decide)
  omega

theorem ofNat_two : (2 : Float64) = finite false (2 ^ 1075) := by
  show ofNat 2 = _
  rw [ofNat_small 2 (by decide), two_pow_succ 1075 1074 rfl, Nat.mul_comm]

/-- A magnitude `a * 2^j` with `a` below `2^53` is one of the type when it is below `2^1024`. -/
theorem representable_scaled (a j : Nat) (ha : a < 2 ^ 53) (hmax : a * 2 ^ j < 2 ^ 2098) :
    Representable (a * 2 ^ j) := by
  refine ⟨hmax, ?_⟩
  by_cases h0 : a = 0
  · subst h0
    rw [Nat.zero_mul]
    exact Nat.dvd_zero _
  · rw [bitLength_mul_pow a j h0]
    have := bitLength_le a 53 ha
    exact Dvd.dvd.mul_left (two_pow_dvd _ _ (by omega)) a

/-- Doubling a value below `2^1023` is exact. -/
theorem two_mul_finite (neg : Bool) (m : Nat) (hrep : Representable m) (hlim : m < 2 ^ 2097) :
    (2 : Float64) * finite neg m = finite neg (2 * m) := by
  rw [ofNat_two]
  have hdiv : 2 ^ 1075 * m / 2 ^ (2148 - 1074) = 2 * m := by
    have e : (2 : Nat) ^ 1075 = 2 ^ 1074 * 2 := two_pow_succ _ 1074 rfl
    have e2 : 2148 - 1074 = 1074 := rfl
    rw [e, e2, Nat.mul_assoc]
    have hu : 0 < 2 ^ 1074 := two_pow_pos 1074
    generalize 2 ^ 1074 = u at hu ⊢
    exact Nat.mul_div_cancel_left _ hu
  have hsign : (false != neg) = neg := by cases neg <;> rfl
  have hmax : 2 ^ 1075 * m / 2 ^ (2148 - 1074) < 2 ^ 2098 := by
    rw [hdiv]
    have e2 : (2 : Nat) ^ 2098 = 2 ^ 2097 * 2 := two_pow_succ _ 2097 rfl
    rw [e2]
    omega
  have hd : 2 ^ dropBits (2 ^ 1075 * m) 2148 ∣ 2 ^ 1075 * m := by
    unfold dropBits
    have ha : 2 ^ (2148 - 1074) ∣ 2 ^ 1075 * m :=
      Dvd.dvd.mul_right (two_pow_dvd _ _ (by decide)) m
    have hb : 2 ^ (bitLength (2 ^ 1075 * m) - 53) ∣ 2 ^ 1075 * m := by
      by_cases hm : m = 0
      · subst hm
        rw [Nat.mul_zero]
        exact Nat.dvd_zero _
      · rw [bitLength_pow_mul 1075 m hm]
        by_cases hsmall : bitLength m ≤ 53
        · exact Dvd.dvd.mul_right (two_pow_dvd _ _ (by omega)) m
        · have e : bitLength m + 1075 - 53 = 1075 + (bitLength m - 53) := by omega
          rw [e, two_pow_add _ 1075 (bitLength m - 53) rfl]
          generalize 2 ^ 1075 = t
          exact Nat.mul_dvd_mul_left t hrep.2
    rcases Nat.le_total (bitLength (2 ^ 1075 * m) - 53) (2148 - 1074) with h | h
    · rw [Nat.max_eq_right h]
      exact ha
    · rw [Nat.max_eq_left h]
      exact hb
  rw [mul_finite, hsign, round_exact neg _ 2148 hd hmax, hdiv]

theorem signed_nonneg (neg : Bool) (m : Nat) (h : neg = true → m = 0) :
    signed neg m = (m : Int) := by
  cases neg with
  | false => rfl
  | true => simp [signed, h rfl]

/-- The sum of a positive value and a value that is not negative is the rounded sum of the
magnitudes. -/
theorem add_finite_nonneg (p q : Nat) (neg : Bool) (hp : p ≠ 0) (hq : neg = true → q = 0) :
    finite false p + finite neg q = round false (p + q) 1074 := by
  rw [add_finite, signed_nonneg neg q hq, signed_nonneg false p (fun h => by cases h)]
  have h0 : ¬ ((p : Int) + (q : Int) = 0) := by omega
  have h1 : ¬ ((p : Int) + (q : Int) < 0) := by omega
  have h2 : ((p : Int) + (q : Int)).natAbs = p + q := by omega
  simp only [h0, if_false, h1, decide_False, h2]

theorem small_mul_lt (a j k e : Nat) (ha : a < 2 ^ k) (he : k + j ≤ e) : a * 2 ^ j < 2 ^ e := by
  have h1 : a * 2 ^ j < 2 ^ k * 2 ^ j := Nat.mul_lt_mul_of_pos_right ha (two_pow_pos j)
  have h2 : 2 ^ k * 2 ^ j = 2 ^ (k + j) := (Nat.pow_add 2 k j).symm
  have h3 : 2 ^ (k + j) ≤ 2 ^ e := Nat.pow_le_pow_right (by decide) he
  omega

/-- A constant plus twice a bleed `a * 2^j * 2^(-1074)` with `a` below `2^53`: the rounding
of the exact sum, written at the scale of the bleed. -/
theorem const_add_two_mul_scaled (c a j e : Nat) (hc : c ≠ 0) (ha : a < 2 ^ 53)
    (he : 1074 = e + j) :
    finite false (c * 2 ^ 1074) + 2 * finite false (a * 2 ^ j) =
      round false ((c * 2 ^ e + 2 * a) * 2 ^ j) 1074 := by
  have hrep : Representable (a * 2 ^ j) :=
    representable_scaled a j ha (small_mul_lt a j 53 2098 ha (by omega))
  have hlim : a * 2 ^ j < 2 ^ 2097 := small_mul_lt a j 53 2097 ha (by omega)
  have hc0 : c * 2 ^ 1074 ≠ 0 := Nat.mul_ne_zero hc (Nat.pos_iff_ne_zero.mp (two_pow_pos 1074))
  rw [two_mul_finite false _ hrep hlim,
    add_finite_nonneg _ _ false hc0 (fun h => by cases h)]
  congr 1
  rw [he, Nat.pow_add]
  generalize 2 ^ j = v
  generalize 2 ^ e = w
  ring

end Float64

namespace pdf

open progress (ProgressReporter)

/-! ## Theorems: the geometry of a page -/

theorem CardWidth_eq : CardWidth = .finite false (63 * 2 ^ 1074) :=
  Float64.ofNat_small 63 (by decide)

theorem CardHeight_eq : CardHeight = .finite false (88 * 2 ^ 1074) :=
  Float64.ofNat_small 88 (by decide)

/-- The value of one side of the canvas when the exact sum has at most 53 binary digits: the
exact sum. -/
theorem side_value_exact (c a j e N : Nat) (hc : c ≠ 0) (ha : a < 2 ^ 53) (he : 1074 = e + j)
    (hN : c * 2 ^ e + 2 * a = N) (hN2 : N < 2 ^ 53) :
    Float64.finite false (c * 2 ^ 1074) + 2 * Float64.finite false (a * 2 ^ j) =
      Float64.finite false (N * 2 ^ j) := by
  rw [Float64.const_add_two_mul_scaled c a j e hc ha he, hN]
  exact Float64.round_small false N j hN2 (Float64.small_mul_lt N j 53 2098 hN2 (by omega))

/-- The canvas of the example generator, with its bleed of 3 mm, is 69 by 94. -/
theorem exampleGenerator_sizes :
    exampleGenerator.TotalWidth = .finite false (69 * 2 ^ 1074) ∧
    exampleGenerator.TotalHeight = .finite false (94 * 2 ^ 1074) := by
  have hb : exampleGenerator.bleedAmount = .finite false (3 * 2 ^ 1074) := rfl
  constructor
  · rw [Generator.TotalWidth, CardWidth_eq, hb]
    exact side_value_exact 63 3 1074 0 69 (by decide) (by decide) rfl (by decide) (by decide)
  · rw [Generator.TotalHeight, CardHeight_eq, hb]
    exact side_value_exact 88 3 1074 0 94 (by decide) (by decide) rfl (by decide) (by decide)

/-- The canvas of the example generator, with its bleed of 3 mm: 69 by 94, filled with
black. -/
theorem canvas_example :
    exampleGenerator.canvas =
      { PageSize := (.finite false (69 * 2 ^ 1074), .finite false (94 * 2 ^ 1074)),
        ops := [.AddPage, .SetFillColor 0 0 0,
          .RectFromUpperLeftWithStyle 0 0 (.finite false (69 * 2 ^ 1074))
            (.finite false (94 * 2 ^ 1074)) "F"] } := by
  have hpos : exampleGenerator.bleedAmount > 0 := by decide
  simp only [Generator.canvas, hpos, if_true, exampleGenerator_sizes.1, exampleGenerator_sizes.2,
    GoPdf.call, GoPdf.Start, List.nil_append, List.cons_append]

end pdf

end DeckForge
